import Mathlib

/-!
Verification of the CriAudioTools repository: the @UTF table codec
(cri_utf.py) and the AFS2 archive codec (awb.py), shallowly embedded over
lists of byte values (`List Nat`, one entry per byte).  Streams are byte
lists, `struct.pack`/`struct.unpack` become explicit big/little-endian
(de)serialisers with the same range checks, and every Python `raise` is an
`Except.error` value.
-/

namespace CriAudio

/-- Decidable equality for `Except` results, so concrete codec runs can be
checked by `decide`. -/
instance {ε α : Type} [DecidableEq ε] [DecidableEq α] : DecidableEq (Except ε α)
  | .ok a, .ok b =>
    match decEq a b with
    | isTrue h => isTrue (by rw [h])
    | isFalse h => isFalse (by intro hh; cases hh; exact h rfl)
  | .ok _, .error _ => isFalse (by intro h; cases h)
  | .error _, .ok _ => isFalse (by intro h; cases h)
  | .error e, .error f =>
    match decEq e f with
    | isTrue h => isTrue (by rw [h])
    | isFalse h => isFalse (by intro hh; cases hh; exact h rfl)

/-! ## Byte-level primitives shared by both codecs -/

/-- Big-endian serialisation of `n` into `w` bytes, as `struct.pack` with
format codes `>B`, `>H`, `>I`, `>Q` produces. -/
def packBE : Nat → Nat → List Nat
  | 0, _ => []
  | w + 1, n => packBE w (n / 256) ++ [n % 256]

/-- Big-endian value of a byte list, as `struct.unpack` computes it. -/
def beVal (bs : List Nat) : Nat := bs.foldl (fun a b => a * 256 + b) 0

/-- Little-endian serialisation of `n` into `w` bytes (`struct.pack` with
`<B`, `<H`, `<I`). -/
def packLE : Nat → Nat → List Nat
  | 0, _ => []
  | w + 1, n => n % 256 :: packLE w (n / 256)

/-- Little-endian value of a byte list. -/
def leVal : List Nat → Nat
  | [] => 0
  | b :: bs => b + 256 * leVal bs

/-- Range-checked big-endian pack: `struct.pack` raises `struct.error` on an
out-of-range argument instead of truncating. -/
def packBEChk (w n : Nat) : Option (List Nat) :=
  if n < 256 ^ w then some (packBE w n) else none

/-- Range-checked little-endian pack. -/
def packLEChk (w n : Nat) : Option (List Nat) :=
  if n < 256 ^ w then some (packLE w n) else none

theorem packBE_length (w n : Nat) : (packBE w n).length = w := by
  induction w generalizing n with
  | zero => rfl
  | succ w ih => simp [packBE, ih]

theorem packLE_length (w n : Nat) : (packLE w n).length = w := by
  induction w generalizing n with
  | zero => rfl
  | succ w ih => simp [packLE, ih]

theorem beVal_append_single (bs : List Nat) (b : Nat) :
    beVal (bs ++ [b]) = beVal bs * 256 + b := by
  simp [beVal, List.foldl_append]

theorem beVal_packBE {w n : Nat} (h : n < 256 ^ w) : beVal (packBE w n) = n := by
  induction w generalizing n with
  | zero =>
    simp [pow_zero] at h
    simp [packBE, beVal, h]
  | succ w ih =>
    have hdiv : n / 256 < 256 ^ w := by
      rw [Nat.div_lt_iff_lt_mul (by norm_num : 0 < 256)]
      calc n < 256 ^ (w + 1) := h
        _ = 256 ^ w * 256 := by ring
    rw [packBE, beVal_append_single, ih hdiv]
    omega

theorem leVal_packLE {w n : Nat} (h : n < 256 ^ w) : leVal (packLE w n) = n := by
  induction w generalizing n with
  | zero =>
    simp [pow_zero] at h
    simp [packLE, leVal, h]
  | succ w ih =>
    have hdiv : n / 256 < 256 ^ w := by
      rw [Nat.div_lt_iff_lt_mul (by norm_num : 0 < 256)]
      calc n < 256 ^ (w + 1) := h
        _ = 256 ^ w * 256 := by ring
    rw [packLE, leVal, ih hdiv]
    omega

/-- A window of `w` bytes starting at `pos` (what a seek followed by a sized
read returns when enough bytes remain). -/
def sliceAt (bs : List Nat) (pos w : Nat) : List Nat := (bs.drop pos).take w

/-- Model of seek + `stream.read(w)` + big-endian `struct.unpack`: fails
(`struct.error`) when fewer than `w` bytes remain. -/
def readAtChk (bs : List Nat) (pos w : Nat) : Option Nat :=
  if pos + w ≤ bs.length then some (beVal (sliceAt bs pos w)) else none

/-- Model of seek + `stream.read(w)` + little-endian `struct.unpack`. -/
def readLEChk (bs : List Nat) (pos w : Nat) : Option Nat :=
  if pos + w ≤ bs.length then some (leVal (sliceAt bs pos w)) else none

theorem sliceAt_exact {a : List Nat} (x b : List Nat) {pos w : Nat}
    (hp : a.length = pos) (hw : x.length = w) :
    sliceAt (a ++ (x ++ b)) pos w = x := by
  subst hp
  subst hw
  rw [sliceAt, List.drop_left]
  exact List.take_left x b

theorem sliceAt_shift (a l : List Nat) (k w : Nat) :
    sliceAt (a ++ l) (a.length + k) w = sliceAt l k w := by
  simp [sliceAt, List.drop_append]

theorem readAtChk_exact {a : List Nat} (x b : List Nat) {pos w : Nat}
    (hp : a.length = pos) (hw : x.length = w) :
    readAtChk (a ++ (x ++ b)) pos w = some (beVal x) := by
  have hle : pos + w ≤ (a ++ (x ++ b)).length := by
    simp only [List.length_append]
    omega
  rw [readAtChk, if_pos hle, sliceAt_exact x b hp hw]

/-- Reading a packed big-endian value back from its exact position. -/
theorem readAtChk_packBE {a : List Nat} (b : List Nat) {pos w n : Nat}
    (hp : a.length = pos) (hn : n < 256 ^ w) :
    readAtChk (a ++ (packBE w n ++ b)) pos w = some n := by
  rw [readAtChk_exact (packBE w n) b hp (packBE_length w n), beVal_packBE hn]

/-- The alignment rounding `AWBBuilder.offsetAlignmentProcess` and the
equivalent inline computations in awb.py: round `x` up to the next multiple
of `a`.  Total here; every use site in the source has `a > 0` (the
`alignment = 0` case, where Python raises ZeroDivisionError, is modelled
explicitly at the places the source would raise). -/
def roundUpAl (a x : Nat) : Nat := if x % a > 0 then x - x % a + a else x

theorem roundUpAl_dvd {a x : Nat} (ha : 0 < a) : a ∣ roundUpAl a x := by
  have h0 := Nat.div_add_mod x a
  unfold roundUpAl
  split
  · refine ⟨x / a + 1, ?_⟩
    have h1 : a * (x / a + 1) = a * (x / a) + a := by ring
    omega
  · have hz : x % a = 0 := by omega
    exact Nat.dvd_of_mod_eq_zero hz

theorem roundUpAl_ge {a : Nat} (x : Nat) (ha : 0 < a) : x ≤ roundUpAl a x := by
  have hm := Nat.mod_lt x ha
  unfold roundUpAl
  split <;> omega

theorem roundUpAl_least {a x m : Nat} (ha : 0 < a) (hd : a ∣ m) (hm : x ≤ m) :
    roundUpAl a x ≤ m := by
  have h0 := Nat.div_add_mod x a
  unfold roundUpAl
  split
  · obtain ⟨k, rfl⟩ := hd
    have hmod : 0 < x % a := by assumption
    have hlt : x / a < k := by
      by_contra hk
      push_neg at hk
      have : a * k ≤ a * (x / a) := Nat.mul_le_mul_left a hk
      omega
    have hmul : a * (x / a + 1) ≤ a * k := Nat.mul_le_mul_left a hlt
    have hexp : a * (x / a + 1) = a * (x / a) + a := by ring
    omega
  · exact hm

theorem roundUpAl_mod_zero {a x : Nat} (h : x % a = 0) :
    roundUpAl a x = x := by
  simp [roundUpAl, h]

theorem roundUpAl_idem {a x : Nat} (ha : 0 < a) :
    roundUpAl a (roundUpAl a x) = roundUpAl a x :=
  roundUpAl_mod_zero (Nat.mod_eq_zero_of_dvd (roundUpAl_dvd ha))

/-- Bytes from `pos` up to (excluding) the first NUL byte, the read loop of
`UTFTable.stringDataGet`.  When no NUL occurs before the end of the buffer
the Python loop never terminates (`read(1)` keeps returning an empty bytes
object at EOF, which never equals the NUL terminator); that divergence is
modelled as `none`. -/
def takeUntilNul : List Nat → Option (List Nat)
  | [] => none
  | b :: bs => if b = 0 then some [] else (takeUntilNul bs).map (b :: ·)

def readNulTerm (bs : List Nat) (pos : Nat) : Option (List Nat) :=
  takeUntilNul (bs.drop pos)

/-- A byte string is NUL-free; required for a string to survive the
NUL-terminated pool encoding. -/
def NulFree (s : List Nat) : Prop := ¬ (0 ∈ s)

instance (s : List Nat) : Decidable (NulFree s) := by
  unfold NulFree
  infer_instance

theorem takeUntilNul_exact {s : List Nat} (r : List Nat) (hs : NulFree s) :
    takeUntilNul (s ++ 0 :: r) = some s := by
  induction s with
  | nil => simp [takeUntilNul]
  | cons b bs ih =>
    have hb : ¬ b = 0 := fun h => hs (by simp [h])
    have hbs : NulFree bs := fun h => hs (List.mem_cons_of_mem b h)
    simp [takeUntilNul, hb, ih hbs]

theorem readNulTerm_exact {a : List Nat} (s r : List Nat) {pos : Nat}
    (hp : a.length = pos) (hs : NulFree s) :
    readNulTerm (a ++ (s ++ 0 :: r)) pos = some s := by
  subst hp
  rw [readNulTerm, List.drop_left]
  exact takeUntilNul_exact r hs

/-! ## The @UTF table codec (cri_utf.py) -/

/-- Error kinds for the @UTF codec; each constructor corresponds to one
`raise` site (or one kind of uncaught Python exception) in cri_utf.py. -/
inductive UtfErr where
  /-- "invalid utf table header": both the encrypted-magic branch and the
  unknown-magic branch raise this same ValueError. -/
  | badHeader
  | schemaSizeErr
  | rowsSizeErr
  | stringsSizeErr
  | dataSizeErr
  /-- "schema offset out of bounds" -/
  | schemaOOB
  /-- "row offset out of bounds" -/
  | rowOOB
  /-- "strings offset out of bounds" -/
  | stringsOOB
  /-- "binary data offset out of bounds" -/
  | binaryOOB
  /-- "unsupported data flag" -/
  | flagErr
  /-- ValueError raised by the `UTFTableValueType(type_flag)` enum lookup. -/
  | typeEnumErr
  /-- "unsupported value type" (the final `else` of the type dispatch). -/
  | typeUnsupported
  /-- struct.error: short read before unpack, or out-of-range pack value. -/
  | structErr
  /-- Python KeyError: a dict key such as "columnDataConstant" is missing. -/
  | keyErr
  /-- Python TypeError: an operation applied to a value of the wrong type
  (e.g. `struct.pack` on a str, slicing an int). -/
  | typeErr
  /-- Python IndexError: subscripting an empty list. -/
  | idxErr
  /-- stringDataGet reading past EOF: the source loops forever there. -/
  | nonTermination
  /-- "expected columns count ..., actual columns count ..." -/
  | colsCountErr
  /-- "expected rows count ..., actual rows count ..." -/
  | rowsCountErr
  /-- "lengths of each rows are not entirely consistent" -/
  | rowWidthErr
  /-- "current depth(...) exceeds the maximum depth(...)" -/
  | depthErr
deriving DecidableEq, Repr

/-- The UTFTableValueType enum (cri_utf.py lines 16-31).  The value -1
(COLUMN_TYPE_UNDEFINED) is omitted: no tag byte maps to it and both codecs
reject it through their dispatch chains, so it is unreachable from any
table that builds or parses. -/
inductive UTFTableValueType where
  | uint8
  | sint8
  | uint16
  | sint16
  | uint32
  | sint32
  | uint64
  | sint64
  | float
  | double
  | string
  | vldata
  | uint128
deriving DecidableEq, Repr

/-- Numeric tag of a value type (the enum value). -/
def typeTag : UTFTableValueType → Nat
  | .uint8 => 0x00
  | .sint8 => 0x01
  | .uint16 => 0x02
  | .sint16 => 0x03
  | .uint32 => 0x04
  | .sint32 => 0x05
  | .uint64 => 0x06
  | .sint64 => 0x07
  | .float => 0x08
  | .double => 0x09
  | .string => 0x0A
  | .vldata => 0x0B
  | .uint128 => 0x0C

/-- The `UTFTableValueType(type_flag)` enum lookup: tags 0x00-0x0C are
legal; anything else raises ValueError. -/
def typeOfTag : Nat → Option UTFTableValueType
  | 0x00 => some .uint8
  | 0x01 => some .sint8
  | 0x02 => some .uint16
  | 0x03 => some .sint16
  | 0x04 => some .uint32
  | 0x05 => some .sint32
  | 0x06 => some .uint64
  | 0x07 => some .sint64
  | 0x08 => some .float
  | 0x09 => some .double
  | 0x0A => some .string
  | 0x0B => some .vldata
  | 0x0C => some .uint128
  | _ => none

/-- A scalar struct format code: byte width plus signedness. -/
structure ScalFmt where
  width : Nat
  sgn : Bool
deriving DecidableEq, Repr

/-- The three shapes a struct format code takes in the type dispatch. -/
inductive PackFc where
  | scal (f : ScalFmt)
  | strFc
  | vldFc
deriving DecidableEq, Repr

/-- The value_size / value_type_fc dispatch chain shared by
`UTFTable.utfParse` (lines 141-183) and `UTFTableBuilder.build` (lines
510-540).  `float` and `double` values are modelled by their IEEE bit
patterns (an unsigned 4- resp. 8-byte integer): the byte-level codec is
then exact, while the numeric interpretation of those bits is out of
scope.  `uint128` falls through to the final `else` in both chains, which
raises "unsupported value type"; hence `none`. -/
def typeFc : UTFTableValueType → Option (Nat × PackFc)
  | .uint8 => some (1, .scal ⟨1, false⟩)
  | .sint8 => some (1, .scal ⟨1, true⟩)
  | .uint16 => some (2, .scal ⟨2, false⟩)
  | .sint16 => some (2, .scal ⟨2, true⟩)
  | .uint32 => some (4, .scal ⟨4, false⟩)
  | .sint32 => some (4, .scal ⟨4, true⟩)
  | .uint64 => some (8, .scal ⟨8, false⟩)
  | .sint64 => some (8, .scal ⟨8, true⟩)
  | .float => some (4, .scal ⟨4, false⟩)
  | .double => some (8, .scal ⟨8, false⟩)
  | .string => some (4, .strFc)
  | .vldata => some (8, .vldFc)
  | .uint128 => none

/-- Range-checked scalar pack (`struct.pack` with the given format code).
Signed formats use two's complement. -/
def packScalChk (f : ScalFmt) (i : Int) : Option (List Nat) :=
  if f.sgn then
    if -(2 ^ (8 * f.width - 1) : Int) ≤ i ∧ i < 2 ^ (8 * f.width - 1) then
      some (packBE f.width (i.emod (2 ^ (8 * f.width))).toNat)
    else none
  else
    if 0 ≤ i ∧ i < (2 ^ (8 * f.width) : Int) then some (packBE f.width i.toNat)
    else none

/-- Scalar unpack: interpret the big-endian value `n` under format `f`. -/
def readScal (f : ScalFmt) (n : Nat) : Int :=
  if f.sgn ∧ 2 ^ (8 * f.width - 1) ≤ n then (n : Int) - 2 ^ (8 * f.width)
  else (n : Int)

/-- A cell value as the Python code stores it: scalars are ints, strings
are str (here: their encoded bytes), variable-length data are bytes. -/
inductive UTFCell where
  | cInt (i : Int)
  | cStr (s : List Nat)
  | cBlob (b : List Nat)
deriving DecidableEq, Repr

/-- One column as `UTFTable.utfParse` assembles it (the per-column dict):
dataFlag, valueType, columnName, plus the optional constant and per-row
payloads. -/
structure UTFColumn where
  dataFlag : Nat
  valueType : UTFTableValueType
  columnName : List Nat
  columnDataConstant : Option UTFCell
  columnDataRows : Option (List UTFCell)
deriving DecidableEq, Repr

/-- A parsed @UTF table: the data `UTFTableBuilder` consumes
(table_name, version, rows_count, columns_count, columns). -/
structure UTFTable where
  table_name : List Nat
  version : Nat
  rows_count : Nat
  columns_count : Nat
  columns : List UTFColumn
deriving DecidableEq, Repr

/-- The fixed-size header fields of `UTFTable.headerRead` (after the +8
adjustments the source applies on read). -/
structure UTFHeader where
  table_size : Nat
  version : Nat
  rows_offset : Nat
  strings_offset : Nat
  data_offset : Nat
  name_offset_rtst : Nat
  columns_count : Nat
  row_width : Nat
  rows_count : Nat
deriving DecidableEq, Repr

/-- The region sizes `UTFTable.headerCheck` derives and validates. -/
structure UTFSizes where
  schema_size : Nat
  rows_size : Nat
  strings_size : Nat
  data_size : Nat
deriving DecidableEq, Repr

/-- Except-valued big-endian read (struct.error when short). -/
def rdBE (bs : List Nat) (pos w : Nat) : Except UtfErr Nat :=
  match readAtChk bs pos w with
  | some n => .ok n
  | none => .error .structErr

/-- UTFTable.headerRead: magic check and the nine big-endian header
fields.  The encrypted magic `1F 9E F3 F5` and any other non-`@UTF` magic
both raise the same "invalid utf table header" ValueError in the source,
so both map to `badHeader`. -/
def utfHeaderRead (bs : List Nat) : Except UtfErr UTFHeader := do
  if bs.take 4 = [64, 85, 84, 70] then do
    let ts ← rdBE bs 4 4
    let ver ← rdBE bs 8 2
    let ro ← rdBE bs 10 2
    let so ← rdBE bs 12 4
    let dofs ← rdBE bs 16 4
    let no ← rdBE bs 20 4
    let cc ← rdBE bs 24 2
    let rw ← rdBE bs 26 2
    let rc ← rdBE bs 28 4
    .ok ⟨ts + 8, ver, ro + 8, so + 8, dofs + 8, no, cc, rw, rc⟩
  else .error .badHeader

/-- UTFTable.headerCheck: derive the four region sizes
(self.schema_size, self.rows_size, self.strings_size, self.data_size, as
Python ints, which may be negative) and validate them. -/
def utfHeaderCheck (h : UTFHeader) : Except UtfErr UTFSizes :=
  if ((h.rows_offset : Int) - 0x20) < 0 then .error .schemaSizeErr
  else if ((h.strings_offset : Int) - (h.rows_offset : Int)) < 0 ∨
      ((h.strings_offset : Int) - (h.rows_offset : Int)) <
        (h.rows_count : Int) * (h.row_width : Int) then
    .error .rowsSizeErr
  else if ((h.data_offset : Int) - (h.strings_offset : Int)) < 0 ∨
      ((h.data_offset : Int) - (h.strings_offset : Int)) <
        (h.name_offset_rtst : Int) then
    .error .stringsSizeErr
  else if ((h.table_size : Int) - (h.data_offset : Int)) < 0 then
    .error .dataSizeErr
  else .ok ⟨((h.rows_offset : Int) - 0x20).toNat,
            ((h.strings_offset : Int) - (h.rows_offset : Int)).toNat,
            ((h.data_offset : Int) - (h.strings_offset : Int)).toNat,
            ((h.table_size : Int) - (h.data_offset : Int)).toNat⟩

/-- UTFTable.stringDataGet: bounds check against the strings region, then
the NUL-terminated read relative to strings_offset. -/
def stringDataGet (bs : List Nat) (h : UTFHeader) (sz : UTFSizes) (off : Nat) :
    Except UtfErr (List Nat) :=
  if off ≥ sz.strings_size then .error .stringsOOB
  else
    match readNulTerm bs (h.strings_offset + off) with
    | some s => .ok s
    | none => .error .nonTermination

/-- UTFTable.binaryDataGet: bounds check against the blob region, then a
sized read relative to data_offset (Python `read` truncates at EOF, as
`sliceAt` does). -/
def binaryDataGet (bs : List Nat) (h : UTFHeader) (sz : UTFSizes)
    (off size : Nat) : Except UtfErr (List Nat) :=
  if off + size > sz.data_size then .error .binaryOOB
  else .ok (sliceAt bs (h.data_offset + off) size)

/-- Read one cell of format `fc` at absolute position `pos`: the common
body of the constant-data branch (lines 193-203) and each per-row read
(lines 213-227): unpack, then resolve a string offset or a blob
(offset, size) pair. -/
def parseCellAt (bs : List Nat) (h : UTFHeader) (sz : UTFSizes)
    (fc : PackFc) (pos : Nat) : Except UtfErr UTFCell :=
  match fc with
  | .scal f =>
    match readAtChk bs pos f.width with
    | some n => .ok (.cInt (readScal f n))
    | none => .error .structErr
  | .strFc =>
    match readAtChk bs pos 4 with
    | some so => (stringDataGet bs h sz so).map .cStr
    | none => .error .structErr
  | .vldFc =>
    match readAtChk bs pos 4, readAtChk bs (pos + 4) 4 with
    | some o, some s2 => (binaryDataGet bs h sz o s2).map .cBlob
    | _, _ => .error .structErr

/-- The per-row read loop: for `cnt` remaining rows starting at row index
`idx`, read the cell of this column from each row slot. -/
def parseRowCells (bs : List Nat) (h : UTFHeader) (sz : UTFSizes)
    (fc : PackFc) (colOff : Nat) : Nat → Nat → Except UtfErr (List UTFCell)
  | 0, _ => .ok []
  | cnt + 1, idx => do
    let c ← parseCellAt bs h sz fc (h.rows_offset + idx * h.row_width + colOff)
    let rest ← parseRowCells bs h sz fc colOff cnt (idx + 1)
    .ok (c :: rest)

/-- One iteration of the schema walk of `UTFTable.utfParse` (lines
109-241): read the info byte and name offset, dispatch on the data flag
and the value type, read the optional constant, read the optional per-row
data.  Returns the column plus the updated `offset` and `offset_in_row`. -/
def parseColumn (bs : List Nat) (h : UTFHeader) (sz : UTFSizes)
    (off oir : Nat) : Except UtfErr (UTFColumn × Nat × Nat) := do
  if off + 5 > 0x20 + sz.schema_size then .error .schemaOOB
  else do
    let info ← rdBE bs off 1
    let nameOff ← rdBE bs (off + 1) 4
    let off1 := off + 5
    let dataFlag := info / 16
    let typeFlag := info % 16
    match typeOfTag typeFlag with
    | none => .error .typeEnumErr
    | some vt =>
      if ¬ (dataFlag = 1 ∨ dataFlag = 3 ∨ dataFlag = 5) then .error .flagErr
      else
        match typeFc vt with
        | none => .error .typeUnsupported
        | some (vsize, fc) => do
          let cname ← stringDataGet bs h sz nameOff
          let constPart ←
            (if dataFlag = 3 then do
              if off1 + vsize > 0x20 + sz.schema_size then
                Except.error .schemaOOB
              else do
                let c ← parseCellAt bs h sz fc off1
                Except.ok (some c, off1 + vsize)
            else Except.ok (none, off1))
          let rowPart ←
            (if dataFlag = 5 then do
              if oir + vsize > h.row_width then Except.error .rowOOB
              else do
                let cells ← parseRowCells bs h sz fc oir h.rows_count 0
                Except.ok (some cells, oir + vsize)
            else Except.ok (none, oir))
          .ok (⟨dataFlag, vt, cname, constPart.1, rowPart.1⟩, constPart.2, rowPart.2)

/-- The schema loop: parse `n` columns starting at schema position `off`
with row-slot cursor `oir`. -/
def parseColsAux (bs : List Nat) (h : UTFHeader) (sz : UTFSizes) :
    Nat → Nat → Nat → Except UtfErr (List UTFColumn)
  | 0, _, _ => .ok []
  | n + 1, off, oir => do
    let r ← parseColumn bs h sz off oir
    let rest ← parseColsAux bs h sz n r.2.1 r.2.2
    .ok (r.1 :: rest)

/-- UTFTable.__init__ up to the table-name fetch: headerRead, headerCheck,
stringDataGet(name_offset_rtst). -/
def utfTableInit (bs : List Nat) :
    Except UtfErr (UTFHeader × UTFSizes × List Nat) := do
  let h ← utfHeaderRead bs
  let sz ← utfHeaderCheck h
  let tname ← stringDataGet bs h sz h.name_offset_rtst
  .ok (h, sz, tname)

/-- Constructing a UTFTable from bytes and running `utfParse` on it:
init followed by the schema walk over columns_count columns starting at
offset 0x20 with offset_in_row 0. -/
def utfParse (bs : List Nat) : Except UtfErr UTFTable := do
  let r ← utfTableInit bs
  let h := r.1
  let cols ← parseColsAux bs h r.2.1 h.columns_count 0x20 0
  .ok ⟨r.2.2, h.version, h.rows_count, h.columns_count, cols⟩

/-! ## The @UTF table builder (UTFTableBuilder.build)

The builder is modelled with its default configuration
`offset_alignment = None`, i.e. without the optional blob padding of lines
566-567, 594-595 and 626-632 (those branches are skipped when the
alignment is None, which is the default). -/

/-- The five growing buffers of `UTFTableBuilder.build` (lines 465-473):
schema region, per-row sub-buffers, strings pool, de-duplication map,
blob region. -/
structure BuildSt where
  schema_data : List Nat
  rows_data_list : List (List Nat)
  strings_data : List Nat
  strings_offset_dict : List (List Nat × Nat)
  binary_data : List Nat
deriving Repr

/-- Dict lookup for the strings de-duplication map. -/
def dictFind (d : List (List Nat × Nat)) (s : List Nat) : Option Nat :=
  match d with
  | [] => none
  | kv :: rest => if kv.1 = s then some kv.2 else dictFind rest s

/-- The de-duplication step used for column names (lines 545-550),
constant strings (557-562) and per-row strings (584-589): reuse the
recorded offset when the string is present, otherwise append
`s ++ NUL` and record its offset.  Returns (offset, pool, dict). -/
def stringsAdd (pool : List Nat) (dict : List (List Nat × Nat))
    (s : List Nat) : Nat × List Nat × List (List Nat × Nat) :=
  match dictFind dict s with
  | some off => (off, pool, dict)
  | none => (pool.length, pool ++ s ++ [0], (s, pool.length) :: dict)

/-- Except-valued range-checked big-endian pack. -/
def pkChk (w n : Nat) : Except UtfErr (List Nat) :=
  match packBEChk w n with
  | some l => .ok l
  | none => .error .structErr

/-- Except-valued scalar pack; a non-int cell raises struct.error. -/
def pkScal (f : ScalFmt) (cell : UTFCell) : Except UtfErr (List Nat) :=
  match cell with
  | .cInt i =>
    match packScalChk f i with
    | some l => .ok l
    | none => .error .structErr
  | _ => .error .structErr

/-- The constant-data emission (lines 554-573): strings go through the
de-duplication map, blobs are appended to the blob pool as
(offset, size), scalars are packed in place. -/
def buildConstPart (fc : PackFc) (st : BuildSt) (col : UTFColumn) :
    Except UtfErr BuildSt := do
  match col.columnDataConstant with
  | none => .error .keyErr
  | some cell =>
    match fc with
    | .strFc =>
      match cell with
      | .cStr s =>
        let r := stringsAdd st.strings_data st.strings_offset_dict s
        let b ← pkChk 4 r.1
        .ok { st with schema_data := st.schema_data ++ b,
                      strings_data := r.2.1, strings_offset_dict := r.2.2 }
      | _ => .error .typeErr
    | .vldFc =>
      match cell with
      | .cBlob bb =>
        let b1 ← pkChk 4 st.binary_data.length
        let b2 ← pkChk 4 bb.length
        .ok { st with schema_data := st.schema_data ++ (b1 ++ b2),
                      binary_data := st.binary_data ++ bb }
      | _ => .error .typeErr
    | .scal f =>
      let b ← pkScal f cell
      .ok { st with schema_data := st.schema_data ++ b }

/-- The per-row string emission loop (lines 581-590): walk the row
sub-buffers and the row values in lock-step, threading the strings pool
and the de-duplication map. -/
def buildRowsStr (pool : List Nat) (dict : List (List Nat × Nat)) :
    List (List Nat) → List UTFCell →
    Except UtfErr (List (List Nat) × List Nat × List (List Nat × Nat))
  | [], [] => .ok ([], pool, dict)
  | slot :: ss, cell :: cs =>
    (match cell with
    | .cStr s => do
      let r := stringsAdd pool dict s
      let b ← pkChk 4 r.1
      let rest ← buildRowsStr r.2.1 r.2.2 ss cs
      .ok ((slot ++ b) :: rest.1, rest.2)
    | _ => .error .typeErr)
  | _, _ => .error .rowsCountErr

/-- The per-row blob emission loop (lines 591-599), threading the blob
pool. -/
def buildRowsVld (bin : List Nat) :
    List (List Nat) → List UTFCell →
    Except UtfErr (List (List Nat) × List Nat)
  | [], [] => .ok ([], bin)
  | slot :: ss, cell :: cs =>
    (match cell with
    | .cBlob bb => do
      let b1 ← pkChk 4 bin.length
      let b2 ← pkChk 4 bb.length
      let rest ← buildRowsVld (bin ++ bb) ss cs
      .ok ((slot ++ (b1 ++ b2)) :: rest.1, rest.2)
    | _ => .error .typeErr)
  | _, _ => .error .rowsCountErr

/-- The per-row scalar emission loop (lines 600-602). -/
def buildRowsScal (f : ScalFmt) :
    List (List Nat) → List UTFCell → Except UtfErr (List (List Nat))
  | [], [] => .ok []
  | slot :: ss, cell :: cs => do
    let b ← pkScal f cell
    let rest ← buildRowsScal f ss cs
    .ok ((slot ++ b) :: rest)
  | _, _ => .error .rowsCountErr

/-- The per-row emission dispatch (lines 576-602), preceded by the
rows-count check of lines 578-580. -/
def buildRowsPart (rc : Nat) (fc : PackFc) (st : BuildSt) (col : UTFColumn) :
    Except UtfErr BuildSt := do
  match col.columnDataRows with
  | none => .error .keyErr
  | some rows =>
    if rows.length ≠ rc then .error .rowsCountErr
    else
      match fc with
      | .strFc => do
        let r ← buildRowsStr st.strings_data st.strings_offset_dict
                  st.rows_data_list rows
        .ok { st with rows_data_list := r.1,
                      strings_data := r.2.1, strings_offset_dict := r.2.2 }
      | .vldFc => do
        let r ← buildRowsVld st.binary_data st.rows_data_list rows
        .ok { st with rows_data_list := r.1, binary_data := r.2 }
      | .scal f => do
        let slots ← buildRowsScal f st.rows_data_list rows
        .ok { st with rows_data_list := slots }

/-- One iteration of the column loop of `UTFTableBuilder.build` (lines
485-602): pack the info byte, dispatch on the data flag, emit the column
name through the de-duplication map, then the optional constant and
per-row data. -/
def buildColumn (rc : Nat) (st : BuildSt) (col : UTFColumn) :
    Except UtfErr BuildSt := do
  let info := col.dataFlag * 16 + typeTag col.valueType
  let infoB ← pkChk 1 info
  let st1 : BuildSt := { st with schema_data := st.schema_data ++ infoB }
  if ¬ (col.dataFlag = 1 ∨ col.dataFlag = 3 ∨ col.dataFlag = 5) then
    .error .flagErr
  else
    match typeFc col.valueType with
    | none => .error .typeUnsupported
    | some (_vsize, fc) => do
      let r := stringsAdd st1.strings_data st1.strings_offset_dict
                 col.columnName
      let nb ← pkChk 4 r.1
      let st2 : BuildSt :=
        { st1 with schema_data := st1.schema_data ++ nb,
                   strings_data := r.2.1, strings_offset_dict := r.2.2 }
      let st3 ← (if col.dataFlag = 3 then buildConstPart fc st2 col
                 else Except.ok st2)
      let st4 ← (if col.dataFlag = 5 then buildRowsPart rc fc st3 col
                 else Except.ok st3)
      .ok st4

/-- The fold of the column loop. -/
def buildCols (rc : Nat) : BuildSt → List UTFColumn → Except UtfErr BuildSt
  | st, [] => .ok st
  | st, c :: cs =>
    match buildColumn rc st c with
    | .ok st1 => buildCols rc st1 cs
    | .error e => .error e

/-- The initial buffer state of `UTFTableBuilder.build`: empty regions,
`rows_count` empty row sub-buffers (lines 476-478), and the table name
written at strings-pool offset 0 (lines 480-482) -- note the name is not
registered in the de-duplication map. -/
def buildSt0 (T : UTFTable) : BuildSt :=
  { schema_data := []
    rows_data_list := List.replicate T.rows_count []
    strings_data := T.table_name ++ [0]
    strings_offset_dict := []
    binary_data := [] }

/-- The length/column checks of lines 457-462 followed by the column loop
(lines 485-602); the resulting buffer state. -/
def utfBuildSt (T : UTFTable) : Except UtfErr BuildSt := do
  if T.columns.length ≠ T.columns_count then .error .colsCountErr
  else buildCols T.rows_count (buildSt0 T) T.columns

/-- UTFTableBuilder.build (lines 452-648) at the default configuration:
counts check, table-name write (at pool offset 0, not registered in the
de-duplication map), the column loop, the row-width consistency check,
region sizing and the big-endian header, concatenated in file order. -/
def utfBuild (T : UTFTable) : Except UtfErr (List Nat) := do
  let stF ← utfBuildSt T
  (do
    let rw := (match stF.rows_data_list with
               | [] => 0
               | r0 :: _ => r0.length)
    if T.rows_count > 0 ∧ (∃ r ∈ stF.rows_data_list, r.length ≠ rw) then
      .error .rowWidthErr
    else do
      let rows_data := stF.rows_data_list.flatten
      let rows_offset := 0x20 + stF.schema_data.length
      let strings_offset := rows_offset + rows_data.length
      let binary_offset := strings_offset + stF.strings_data.length
      let table_size := binary_offset + stF.binary_data.length
      let h1 ← pkChk 4 (table_size - 8)
      let h2 ← pkChk 2 T.version
      let h3 ← pkChk 2 (rows_offset - 8)
      let h4 ← pkChk 4 (strings_offset - 8)
      let h5 ← pkChk 4 (binary_offset - 8)
      let h6 ← pkChk 4 0
      let h7 ← pkChk 2 T.columns_count
      let h8 ← pkChk 2 rw
      let h9 ← pkChk 4 T.rows_count
      .ok ([64, 85, 84, 70] ++ h1 ++ h2 ++ h3 ++ h4 ++ h5 ++ h6 ++ h7
            ++ h8 ++ h9 ++ stF.schema_data ++ rows_data ++ stF.strings_data
            ++ stF.binary_data))

/-! ## JSON-dictionary conversion (utf2DictJson / utf2DictJsonRecursion)

The dictionaries these methods build are modelled structurally.  Base64
encoding itself is elided: the constructor `jB64` marks a blob that the
source would emit base64-encoded while retaining the underlying bytes,
and `jBytes` marks a value copied verbatim (raw bytes). -/

/-- The valueType string written into the output dictionary: either the
enum member name, or the pseudo-tag "COLUMN_TYPE_VLDATA_UTFTABLE". -/
inductive JVType where
  | plain (t : UTFTableValueType)
  | vldataUtfTable
deriving DecidableEq, Repr

mutual
inductive JCell where
  | jInt (i : Int) : JCell
  | jStr (s : List Nat) : JCell
  | jBytes (b : List Nat) : JCell
  | jB64 (b : List Nat) : JCell
  | jTab (t : JTable) : JCell

inductive JColumn where
  | mkJ (dataFlag : Nat) (valueType : JVType) (columnName : List Nat)
        (constant : Option JCell) (rows : Option (List JCell)) : JColumn

inductive JTable where
  | mkT (tableName : List Nat) (version rowsCount columnsCount : Nat)
        (columns : List JColumn) : JTable
end

/-- Verbatim copy of a cell into the output dictionary. -/
def jsonCell (c : UTFCell) : JCell :=
  match c with
  | .cInt i => .jInt i
  | .cStr s => .jStr s
  | .cBlob b => .jBytes b

/-- Verbatim copy of a column (`data_column = column.copy()`). -/
def jsonColumnCopy (col : UTFColumn) : JColumn :=
  .mkJ col.dataFlag (.plain col.valueType) col.columnName
    (col.columnDataConstant.map jsonCell)
    (col.columnDataRows.map (List.map jsonCell))

/-- Left-to-right effectful map over a list (the for-loops building
`data_columns`). -/
def exMap {α β : Type} (f : α → Except UtfErr β) :
    List α → Except UtfErr (List β)
  | [] => .ok []
  | x :: xs => do
    let y ← f x
    let ys ← exMap f xs
    .ok (y :: ys)

/-- Base64-encode every blob of a row list; `b64encode` raises TypeError
on a non-bytes value. -/
def cellsToB64 : List UTFCell → Except UtfErr (List JCell)
  | [] => .ok []
  | .cBlob b :: cs => do
    let rest ← cellsToB64 cs
    .ok (.jB64 b :: rest)
  | _ :: _ => .error .typeErr

/-- One column of `UTFTable.utf2DictJson` (lines 258-272): VLDATA
constants and rows are base64-encoded, everything else is copied
verbatim; the data-flag dispatch (with its "unsupported data flag" raise)
only runs for VLDATA columns. -/
def jsonColumn (col : UTFColumn) : Except UtfErr JColumn :=
  if col.valueType = .vldata then
    if col.dataFlag = 3 then
      match col.columnDataConstant with
      | some (.cBlob b) =>
        .ok (.mkJ col.dataFlag (.plain col.valueType) col.columnName
              (some (.jB64 b)) (col.columnDataRows.map (List.map jsonCell)))
      | some _ => .error .typeErr
      | none => .error .keyErr
    else if col.dataFlag = 5 then
      match col.columnDataRows with
      | some rs => do
        let rows64 ← cellsToB64 rs
        .ok (.mkJ col.dataFlag (.plain col.valueType) col.columnName
              (col.columnDataConstant.map jsonCell) (some rows64))
      | none => .error .keyErr
    else if col.dataFlag = 1 then .ok (jsonColumnCopy col)
    else .error .flagErr
  else .ok (jsonColumnCopy col)

/-- UTFTable.utf2DictJson (lines 247-276) on an already-parsed table. -/
def utf2DictJson (T : UTFTable) : Except UtfErr JTable := do
  if T.columns.length ≠ T.columns_count then .error .colsCountErr
  else do
    let cols ← exMap jsonColumn T.columns
    .ok (.mkT T.table_name T.version T.rows_count T.columns_count cols)

/-- One column of `UTFTable.utf2DictJsonRecursion` (lines 296-328),
parameterised by the nested-table continuation `recurse` (what the source
does with `UTFTable(data_raw).utf2DictJsonRecursion(depth_max, depth+1)`).
A VLDATA constant is expanded when its first four bytes are `@UTF` and
`depth < depth_max`, else base64-kept; a per-row VLDATA column makes that
decision from `columnDataRows[0]` alone (IndexError when the row list is
empty) and then expands (or base64-encodes) every row. -/
def colConvRec (recurse : List Nat → Except UtfErr JTable) (m d : Nat)
    (col : UTFColumn) : Except UtfErr JColumn :=
  if col.valueType = .vldata then
    if col.dataFlag = 3 then
      match col.columnDataConstant with
      | some (.cBlob b) =>
        if b.take 4 = [64, 85, 84, 70] ∧ d < m then
          (recurse b).map (fun t =>
            .mkJ col.dataFlag .vldataUtfTable col.columnName
              (some (.jTab t)) (col.columnDataRows.map (List.map jsonCell)))
        else
          .ok (.mkJ col.dataFlag (.plain col.valueType) col.columnName
                (some (.jB64 b)) (col.columnDataRows.map (List.map jsonCell)))
      | some _ => .error .typeErr
      | none => .error .keyErr
    else if col.dataFlag = 5 then
      match col.columnDataRows with
      | none => .error .keyErr
      | some [] => .error .idxErr
      | some (r0 :: rest) =>
        match r0 with
        | .cBlob b0 =>
          if b0.take 4 = [64, 85, 84, 70] ∧ d < m then do
            let ts ← exMap (fun cell =>
                      match cell with
                      | .cBlob b => recurse b
                      | _ => .error .typeErr) (r0 :: rest)
            .ok (.mkJ col.dataFlag .vldataUtfTable col.columnName
                  (col.columnDataConstant.map jsonCell)
                  (some (ts.map .jTab)))
          else do
            let rows64 ← cellsToB64 (r0 :: rest)
            .ok (.mkJ col.dataFlag (.plain col.valueType) col.columnName
                  (col.columnDataConstant.map jsonCell) (some rows64))
        | _ => .error .typeErr
    else if col.dataFlag = 1 then .ok (jsonColumnCopy col)
    else .error .flagErr
  else .ok (jsonColumnCopy col)

/-- UTFTable.utf2DictJsonRecursion with an explicit structural fuel.  The
wrapper below instantiates `fuel = depth_max + 1 - depth`, which is exact:
fuel 0 means `depth > depth_max`, the condition of the entry raise (line
283-284), and each nested call (depth+1 under the guard
`depth < depth_max`) has fuel exactly one less. -/
def utf2DictJsonRecAux : Nat → Nat → Nat → UTFTable → Except UtfErr JTable
  | 0, _, _, _ => .error .depthErr
  | fuel + 1, m, d, T =>
    if d > m then .error .depthErr
    else if T.columns.length ≠ T.columns_count then .error .colsCountErr
    else
      match exMap (colConvRec
              (fun b => (utfParse b).bind (utf2DictJsonRecAux fuel m (d + 1)))
              m d) T.columns with
      | .ok cols =>
        .ok (.mkT T.table_name T.version T.rows_count T.columns_count cols)
      | .error e => .error e

/-- UTFTable.utf2DictJsonRecursion (lines 282-332); default arguments
depth_max = 5, depth = 0 as in the source. -/
def utf2DictJsonRecursion (T : UTFTable) (depth_max : Nat := 5)
    (depth : Nat := 0) : Except UtfErr JTable :=
  utf2DictJsonRecAux (depth_max + 1 - depth) depth_max depth T

/-! ## The AFS2 archive codec (awb.py) -/

/-- Error kinds for the AFS2 codec; each constructor corresponds to one
`raise` site (or one kind of uncaught Python exception) in awb.py. -/
inductive AwbErr where
  /-- "invalid awb header" -/
  | badHeader
  /-- "unknown awb audio ID size" / "unsupported audio ID size" -/
  | idSizeErr
  /-- "unknown awb offset size" / "unsupported offset size" -/
  | offSizeErr
  /-- "offset now should not be greater than audio_offsets[0]" -/
  | headerOrderErr
  /-- "awb file size should not be less than audio_offsets[-1]" -/
  | fileSizeErr
  /-- ZeroDivisionError from `x % 0`. -/
  | zeroDiv
  /-- struct.error: short read before unpack, or out-of-range pack value. -/
  | structErr
  /-- "too many subfiles" -/
  | tooManySubfiles
  /-- "unsupported version" -/
  | versionErr
  /-- "unsupported offset alignment" -/
  | alignErr
  /-- "unsupported subkey" -/
  | subkeyErr
  /-- "unsupported offset mode" -/
  | modeErr
  /-- Python IndexError: list index out of range. -/
  | idxErr
deriving DecidableEq, Repr

/-- The parsed AFS2 header state (the attributes `AWB.headerRead` sets). -/
structure AWBHeader where
  version : Nat
  offset_size : Nat
  audioid_size : Nat
  subfiles_count : Nat
  offset_alignment : Nat
  subkey : Nat
  audioids : List Nat
  audio_offsets : List Nat
deriving DecidableEq, Repr

/-- Except-valued little-endian read (struct.error when short). -/
def rdLE (bs : List Nat) (pos w : Nat) : Except AwbErr Nat :=
  match readLEChk bs pos w with
  | some n => .ok n
  | none => .error .structErr

/-- Read `n` consecutive little-endian entries of width `w` starting at
`pos` (the ID-table and offset-table loops of `AWB.headerRead`). -/
def readLETable (bs : List Nat) (w : Nat) : Nat → Nat → Except AwbErr (List Nat)
  | _, 0 => .ok []
  | pos, n + 1 => do
    let v ← rdLE bs pos w
    let rest ← readLETable bs w (pos + w) n
    .ok (v :: rest)

/-- AWB.headerRead (lines 21-83) up to but excluding the offsets[0]
adjustment: magic, the six header fields, the ID table, the offset table,
and the two sanity checks (cursor ≤ offsets[0], file size ≥ offsets[-1]). -/
def awbHeaderPre (bs : List Nat) : Except AwbErr AWBHeader := do
  if bs.take 4 = [65, 70, 83, 50] then do
    let ver ← rdLE bs 4 1
    let osize ← rdLE bs 5 1
    let isize ← rdLE bs 6 2
    let cnt ← rdLE bs 8 4
    let align ← rdLE bs 12 2
    let skey ← rdLE bs 14 2
    let ids ← (if isize = 2 ∨ isize = 4 then readLETable bs isize 0x10 cnt
               else Except.error .idSizeErr)
    let offsetsPos := 0x10 + isize * cnt
    let offs ← (if osize = 2 ∨ osize = 4 then
                  readLETable bs osize offsetsPos (cnt + 1)
                else Except.error .offSizeErr)
    let cursor := offsetsPos + osize * (cnt + 1)
    if cursor > offs.headD 0 then .error .headerOrderErr
    else if bs.length < offs.getLastD 0 then .error .fileSizeErr
    else .ok ⟨ver, osize, isize, cnt, align, skey, ids, offs⟩
  else .error .badHeader

/-- AWB.headerRead: the pre-pass, then the offsets[0] adjustment of lines
87-89 (`audio_offsets[0] % offset_alignment` raises ZeroDivisionError when
the alignment field is 0 -- the source never checks it). -/
def awbHeaderRead (bs : List Nat) : Except AwbErr AWBHeader := do
  let h ← awbHeaderPre bs
  if h.offset_alignment = 0 then .error .zeroDiv
  else
    let o0 := h.audio_offsets.headD 0
    .ok { h with audio_offsets :=
            roundUpAl h.offset_alignment o0 :: h.audio_offsets.tail }

/-- Python `stream.read(n)` with an Int argument: a negative size reads to
the end of the stream (readall), a non-negative one reads at most `n`
bytes. -/
def pyRead (bs : List Nat) (pos : Nat) (n : Int) : List Nat :=
  if n < 0 then bs.drop pos else sliceAt bs pos n.toNat

/-- The payload bytes `AWB.extract` writes for entry `idx` (lines
96-115): round the stored offset up to the alignment, then read up to the
next stored offset.  (The 16-byte type sniff and the output file name
derived from it do not affect the payload bytes and are elided.)  As in
headerRead, `% offset_alignment` raises ZeroDivisionError when the
alignment is 0. -/
def awbExtractPayload (bs : List Nat) (h : AWBHeader) (idx : Nat) :
    Except AwbErr (List Nat) := do
  match h.audio_offsets[idx]?, h.audio_offsets[idx + 1]? with
  | some off, some offNext =>
    if h.offset_alignment = 0 then .error .zeroDiv
    else
      let offset_start := roundUpAl h.offset_alignment off
      .ok (pyRead bs offset_start ((offNext : Int) - (offset_start : Int)))
  | _, _ => .error .idxErr

/-- Parse an archive and extract entry `idx` in one step. -/
def awbParseExtract (bs : List Nat) (idx : Nat) : Except AwbErr (List Nat) := do
  let h ← awbHeaderRead bs
  awbExtractPayload bs h idx

/-! ## The AFS2 archive builder (AWBBuilder) -/

/-- AWBBuilder configuration; `sunfiles` holds the sub-file payloads
(the source stores a list of file paths under that attribute name and
reads each file during build; here the payload byte lists stand in). -/
structure AWBBuilder where
  sunfiles : List (List Nat)
  subfiles_count : Nat
  version : Nat
  offset_size : Nat
  audioid_size : Nat
  offset_alignment : Nat
  subkey : Nat
  offset_mode : Nat
  awb_file_size_max : Nat
deriving DecidableEq, Repr

/-- AWBBuilder.__init__ (lines 160-205): the validation of every
configuration field.  `awb_file_size_max` is recorded exactly as the
source does; note that `AWBBuilder.build` never reads it. -/
def awbBuilderMk (subfiles : List (List Nat)) (version : Nat := 2)
    (offset_size : Nat := 0x04) (audioid_size : Nat := 0x04)
    (offset_alignment : Nat := 0x20) (subkey : Nat := 0x00)
    (offset_mode : Nat := 0) : Except AwbErr AWBBuilder := do
  let cnt := subfiles.length
  if cnt > 0x100000000 then .error .tooManySubfiles
  else if version > 0xFF then .error .versionErr
  else do
    let fmax ← (if offset_size = 2 then Except.ok 0xFFFF
                else if offset_size = 4 then Except.ok 0xFFFFFFFF
                else Except.error AwbErr.offSizeErr)
    let _ ← (if audioid_size = 2 then
               (if cnt > 0x10000 then Except.error AwbErr.tooManySubfiles
                else Except.ok 0)
             else if audioid_size = 4 then
               (if cnt > 0x100000000 then Except.error AwbErr.tooManySubfiles
                else Except.ok 0)
             else Except.error AwbErr.idSizeErr)
    if offset_alignment = 0 ∨ offset_alignment > 0xFFFF then .error .alignErr
    else if subkey > 0xFFFF then .error .subkeyErr
    else if ¬ (offset_mode = 0 ∨ offset_mode = 1) then .error .modeErr
    else .ok ⟨subfiles, cnt, version, offset_size, audioid_size,
              offset_alignment, subkey, offset_mode, fmax⟩

/-- Except-valued range-checked little-endian pack. -/
def pkLE (w n : Nat) : Except AwbErr (List Nat) :=
  match packLEChk w n with
  | some l => .ok l
  | none => .error .structErr

/-- The ID-table loop of `AWBBuilder.headerPrepare` (identifiers are the
ordinals 0..count-1). -/
def awbIdTable (w : Nat) : Nat → Nat → Except AwbErr (List Nat)
  | 0, _ => .ok []
  | n + 1, idx => do
    let b ← pkLE w idx
    let rest ← awbIdTable w n (idx + 1)
    .ok (b ++ rest)

/-- AWBBuilder.headerPrepare (lines 274-296): the 16-byte fixed header,
the ID table, and the zero-filled reservation for the offset table. -/
def awbHeaderPrepare (b : AWBBuilder) : Except AwbErr (List Nat) := do
  let p1 ← pkLE 1 b.version
  let p2 ← pkLE 1 b.offset_size
  let p3 ← pkLE 2 b.audioid_size
  let p4 ← pkLE 4 b.subfiles_count
  let p5 ← pkLE 2 b.offset_alignment
  let p6 ← pkLE 2 b.subkey
  let idw ← (if b.audioid_size = 2 then Except.ok 2
             else if b.audioid_size = 4 then Except.ok 4
             else Except.error AwbErr.idSizeErr)
  let ids ← awbIdTable idw b.subfiles_count 0
  .ok ([65, 70, 83, 50] ++ p1 ++ p2 ++ p3 ++ p4 ++ p5 ++ p6 ++ ids
        ++ List.replicate (b.offset_size * (b.subfiles_count + 1)) 0)

/-- The payload loop of `AWBBuilder.build` (lines 235-248): for each
sub-file write its bytes, record the unrounded end offset and the rounded
next start, and write trailing zero padding unless this is the last
sub-file under offset_mode 0.  Returns (body bytes, last_end tail, start
tail). -/
def awbBody (b : AWBBuilder) :
    List (List Nat) → Nat → Nat → List Nat × List Nat × List Nat
  | [], _, _ => ([], [], [])
  | sf :: rest, offset_start, num =>
    let offset := offset_start + sf.length
    let ostart := roundUpAl b.offset_alignment offset
    let chunk := sf ++
      (if num < b.subfiles_count ∨ b.offset_mode = 1 then
        List.replicate (ostart - offset) 0
      else [])
    let r := awbBody b rest ostart (num + 1)
    (chunk ++ r.1, offset :: r.2.1, ostart :: r.2.2)

/-- Overwrite `bs` starting at `pos` with `seg` (the second-pass
seek-and-write of the offset table). -/
def spliceAt (bs : List Nat) (pos : Nat) (seg : List Nat) : List Nat :=
  bs.take pos ++ seg ++ bs.drop (pos + seg.length)

/-- The offset-table write loop of `AWBBuilder.build` (lines 266-267). -/
def packOffsets (w : Nat) : List Nat → Except AwbErr (List Nat)
  | [] => .ok []
  | v :: vs => do
    let bseg ← pkLE w v
    let rest ← packOffsets w vs
    .ok (bseg ++ rest)

/-- AWBBuilder.build (lines 218-267): header + initial padding + payload
loop, then the offset table (last_end under mode 0, start under mode 1)
spliced over its zero-filled reservation.  There is no check of the total
size against `awb_file_size_max`; an oversized offset surfaces only as a
struct.error from `pkLE` while the offset table is written (after the
payload bytes are already in the file). -/
def awbBuild (b : AWBBuilder) : Except AwbErr (List Nat) := do
  let header_data ← awbHeaderPrepare b
  let offset0 := header_data.length
  let ostart0 := roundUpAl b.offset_alignment offset0
  let r := awbBody b b.sunfiles ostart0 1
  let offset_list_last_end := offset0 :: r.2.1
  let offset_list_start := ostart0 :: r.2.2
  let fileBytes := header_data ++ List.replicate (ostart0 - offset0) 0 ++ r.1
  let fcw ← (if b.offset_size = 2 then Except.ok 2
             else if b.offset_size = 4 then Except.ok 4
             else Except.error AwbErr.offSizeErr)
  let offset_list ← (if b.offset_mode = 0 then Except.ok offset_list_last_end
                     else if b.offset_mode = 1 then Except.ok offset_list_start
                     else Except.error AwbErr.modeErr)
  let tableBytes ← packOffsets fcw offset_list
  .ok (spliceAt fileBytes (0x10 + b.audioid_size * b.subfiles_count)
        tableBytes)

/-! ## Claim theorems -/

/-! ### C9: AFS2 parsing never validates the alignment field -/

/-- C9: for every input whose magic, width fields, and offset-table sanity
checks pass (`awbHeaderPre` succeeds) but whose 16-bit alignment field is
0, the offset-rounding step of `AWB.headerRead` divides modulo zero, so
parsing fails with an unguarded ZeroDivisionError rather than one of the
declared ValueError kinds; with any positive alignment the same step is
total and parsing succeeds with the rounded first offset. -/
theorem C9_alignment_zero_unguarded :
    (∀ bs h, awbHeaderPre bs = .ok h → h.offset_alignment = 0 →
      awbHeaderRead bs = .error .zeroDiv) ∧
    (∀ bs h, awbHeaderPre bs = .ok h → h.offset_alignment ≠ 0 →
      awbHeaderRead bs = .ok { h with audio_offsets :=
        (roundUpAl h.offset_alignment (h.audio_offsets.headD 0)
          :: h.audio_offsets.tail) }) := by
  constructor
  · intro bs h hpre h0
    simp only [awbHeaderRead, hpre, bind, Except.bind]
    simp [h0]
  · intro bs h hpre h0
    simp only [awbHeaderRead, hpre, bind, Except.bind]
    simp [h0]

/-- An AFS2 archive whose header passes every declared check but carries
alignment 0: one entry, stored offsets [22, 30], 8 payload bytes. -/
def awbBytesC9 : List Nat :=
  [65, 70, 83, 50, 2, 2, 2, 0, 1, 0, 0, 0, 0, 0, 0, 0,
   0, 0, 22, 0, 30, 0, 171, 171, 171, 171, 171, 171, 171, 171]

def awbHdrC9 : AWBHeader := ⟨2, 2, 2, 1, 0, 0, [0], [22, 30]⟩

theorem C9_alignment_zero_unguarded_witness :
    awbHeaderPre awbBytesC9 = .ok awbHdrC9 ∧
    awbHeaderRead awbBytesC9 = .error .zeroDiv :=
  ⟨by decide,
   C9_alignment_zero_unguarded.1 awbBytesC9 awbHdrC9 (by decide) (by decide)⟩

/-! ### C4: no ArchiveTooLarge check in AWBBuilder.build -/

/-- The builder configuration `AWBBuilder.__init__` accepts for
offset_size 2, audioid_size 2, alignment 0x8000, mode 0 and two 1-byte
sub-files.  The aligned layout puts the final end offset at 0x10001,
which cannot fit in 2 bytes; `awb_file_size_max = 0xFFFF` is recorded
but never consulted afterwards. -/
def awbCfgC4 : AWBBuilder :=
  ⟨[[0xAA], [0xBB]], 2, 2, 2, 2, 0x8000, 0, 0, 0xFFFF⟩

/-- C4 (code bug): the configuration passes every `__init__` check, and
`build` on it does not fail with any ArchiveTooLarge-style declared
error: it runs the payload loop (writing the payload bytes) and then
dies with struct.error when packing the oversized final offset 0x10001
into 2 bytes -- the computed `awb_file_size_max` bound is never compared
against anything. -/
theorem C4_oversize_build_struct_error :
    awbBuilderMk [[0xAA], [0xBB]] 2 2 2 0x8000 0 0 = .ok awbCfgC4 ∧
    awbBuild awbCfgC4 = .error .structErr := by
  constructor
  · rfl
  · rfl

/-! ### C6: extracted payload byte ranges -/

theorem awbHeaderRead_align_pos {bs : List Nat} {h : AWBHeader}
    (hok : awbHeaderRead bs = .ok h) : 0 < h.offset_alignment := by
  unfold awbHeaderRead at hok
  cases hpre : awbHeaderPre bs with
  | error e =>
    rw [hpre] at hok
    simp [bind, Except.bind] at hok
  | ok h0 =>
    rw [hpre] at hok
    simp only [bind, Except.bind] at hok
    by_cases h0a : h0.offset_alignment = 0
    · simp [h0a] at hok
    · simp only [h0a, if_false, Except.ok.injEq] at hok
      subst hok
      simpa using Nat.pos_of_ne_zero h0a

/-- C6 (amended): for every successfully parsed archive and entry index,
with `s = roundUpAl alignment offsets[i]`: when `s ≤ offsets[i+1]` the
extracted payload is exactly the byte range `[s, offsets[i+1])` of the
archive; when `offsets[i+1] < s` (nothing rules this out at parse time)
the code instead reads from `s` to the end of the file, because
`stream.read` receives a negative size.  `s` is the smallest multiple of
the alignment that is ≥ offsets[i]. -/
theorem C6_extract_payload_range :
    ∀ (bs : List Nat) (h : AWBHeader) (i off offNext : Nat),
      awbHeaderRead bs = .ok h →
      h.audio_offsets[i]? = some off →
      h.audio_offsets[i + 1]? = some offNext →
      (roundUpAl h.offset_alignment off ≤ offNext →
        awbExtractPayload bs h i =
          .ok (sliceAt bs (roundUpAl h.offset_alignment off)
                (offNext - roundUpAl h.offset_alignment off))) ∧
      (offNext < roundUpAl h.offset_alignment off →
        awbExtractPayload bs h i =
          .ok (bs.drop (roundUpAl h.offset_alignment off))) ∧
      (h.offset_alignment ∣ roundUpAl h.offset_alignment off ∧
       off ≤ roundUpAl h.offset_alignment off ∧
       ∀ m, h.offset_alignment ∣ m → off ≤ m →
         roundUpAl h.offset_alignment off ≤ m) := by
  intro bs h i off offNext hok hoff hoffN
  have ha : 0 < h.offset_alignment := awbHeaderRead_align_pos hok
  have ha0 : ¬ h.offset_alignment = 0 := Nat.pos_iff_ne_zero.mp ha
  refine ⟨?_, ?_, roundUpAl_dvd ha, roundUpAl_ge off ha,
          fun m hd hm => roundUpAl_least ha hd hm⟩
  · intro hle
    simp only [awbExtractPayload, hoff, hoffN, ha0, if_false, pyRead]
    have hnn : ¬ ((offNext : Int) - (roundUpAl h.offset_alignment off : Int) < 0) := by
      omega
    simp only [hnn, if_false]
    congr 1
    congr 1
    omega
  · intro hlt
    simp only [awbExtractPayload, hoff, hoffN, ha0, if_false, pyRead]
    have hneg : ((offNext : Int) - (roundUpAl h.offset_alignment off : Int) < 0) := by
      omega
    simp [hneg]

/-- An archive that parses successfully but whose stored offsets round up
past the next offset: stored offsets [0x17, 0x18], alignment 0x20, file
size 0x30. -/
def awbBytesC6 : List Nat :=
  [65, 70, 83, 50, 2, 2, 2, 0, 1, 0, 0, 0, 0x20, 0, 0, 0]
    ++ [0, 0] ++ [0x17, 0, 0x18, 0] ++ List.replicate 26 0xCD

/-- C6 counterexample: on `awbBytesC6` the extracted payload of entry 0
is 16 bytes (the code reads from the rounded start 0x20 to end of file),
while the byte range `[round_up(offsets[0]), offsets[1]) = [0x20, 0x18)`
asserted by the claim is empty. -/
theorem C6_counterexample :
    awbParseExtract awbBytesC6 0 = .ok (List.replicate 16 0xCD) ∧
    List.replicate 16 (0xCD : Nat) ≠
      sliceAt awbBytesC6 (roundUpAl 0x20 0x17) (0x18 - roundUpAl 0x20 0x17) := by
  constructor
  · decide
  · decide

/-- A well-formed one-entry archive: offsets [0x20, 0x25], payload
[1,2,3,4,5] at 0x20. -/
def awbBytesC6W : List Nat :=
  [65, 70, 83, 50, 2, 2, 2, 0, 1, 0, 0, 0, 0x20, 0, 0, 0]
    ++ [0, 0] ++ [0x20, 0, 0x25, 0] ++ List.replicate 10 0 ++ [1, 2, 3, 4, 5]

def awbHdrC6W : AWBHeader := ⟨2, 2, 2, 1, 0x20, 0, [0], [0x20, 0x25]⟩

theorem C6_extract_payload_range_witness :
    awbHeaderRead awbBytesC6W = .ok awbHdrC6W ∧
    awbExtractPayload awbBytesC6W awbHdrC6W 0 = .ok [1, 2, 3, 4, 5] := by
  refine ⟨by decide, ?_⟩
  have h := (C6_extract_payload_range awbBytesC6W awbHdrC6W 0 0x20 0x25
    (by decide) (by decide) (by decide)).1 (by decide)
  exact h.trans (by decide)

/-! ### C7: @UTF header region-size constraints -/

/-- The region-size constraint violations named by the claim. -/
def regionViolation (h : UTFHeader) : Prop :=
  ((h.rows_offset : Int) - 0x20 < 0) ∨
  ((h.strings_offset : Int) - (h.rows_offset : Int) <
    (h.rows_count : Int) * (h.row_width : Int)) ∨
  ((h.data_offset : Int) - (h.strings_offset : Int) <
    (h.name_offset_rtst : Int) + 1) ∨
  ((h.table_size : Int) - (h.data_offset : Int) < 0)

instance (h : UTFHeader) : Decidable (regionViolation h) := by
  unfold regionViolation
  infer_instance

/-- C7: a byte sequence whose @UTF header violates any of the four
region-size constraints fails to construct (the first three violations
die in `headerCheck`; the boundary case `strings_size = table_name_offset`
passes `headerCheck` but dies in the table-name `stringDataGet` bounds
check, so construction still fails); a header satisfying all four passes
the header check. -/
theorem C7_region_size_checks :
    ∀ (bs : List Nat) (h : UTFHeader), utfHeaderRead bs = .ok h →
      (regionViolation h → (utfTableInit bs).toOption = none) ∧
      (¬ regionViolation h → ∃ sz, utfHeaderCheck h = .ok sz) := by
  intro bs h hr
  have hprod : (0 : Int) ≤ (h.rows_count : Int) * (h.row_width : Int) := by
    positivity
  constructor
  · intro hv
    unfold utfTableInit
    rw [hr]
    simp only [bind, Except.bind]
    cases hc : utfHeaderCheck h with
    | error e => rfl
    | ok sz =>
      unfold utfHeaderCheck at hc
      split_ifs at hc with h1 h2 h3 h4
      simp only [Except.ok.injEq] at hc
      subst hc
      push_neg at h2 h3
      unfold regionViolation at hv
      rcases hv with hv | hv | hv | hv
      · exact absurd hv h1
      · exact absurd hv (not_lt.mpr h2.2)
      · have hcond : h.name_offset_rtst ≥
            ((h.data_offset : Int) - (h.strings_offset : Int)).toNat := by
          omega
        simp only [stringDataGet]
        rw [if_pos hcond]
        rfl
      · exact absurd hv h4
  · intro hs
    unfold regionViolation at hs
    push_neg at hs
    unfold utfHeaderCheck
    split_ifs with h1 h2 h3 h4
    · omega
    · rcases h2 with h2 | h2 <;> omega
    · rcases h3 with h3 | h3 <;> omega
    · omega
    · exact ⟨_, rfl⟩

/-- A header with `strings_size = table_name_offset` (= 2): it violates
the claimed constraint `strings_size ≥ table_name_offset + 1` yet passes
headerCheck; construction still fails, in stringDataGet. -/
def utfBytesC7V : List Nat :=
  [64, 85, 84, 70, 0, 0, 0, 0x1A, 0, 0, 0, 0x18, 0, 0, 0, 0x18,
   0, 0, 0, 0x1A, 0, 0, 0, 2, 0, 0, 0, 0, 0, 0, 0, 0, 65, 0]

def utfHdrC7V : UTFHeader := ⟨0x22, 0, 0x20, 0x20, 0x22, 2, 0, 0, 0⟩

/-- The same header with table_name_offset 0: all four constraints hold. -/
def utfBytesC7S : List Nat :=
  [64, 85, 84, 70, 0, 0, 0, 0x1A, 0, 0, 0, 0x18, 0, 0, 0, 0x18,
   0, 0, 0, 0x1A, 0, 0, 0, 0, 0, 0, 0, 0, 0, 0, 0, 0, 65, 0]

def utfHdrC7S : UTFHeader := ⟨0x22, 0, 0x20, 0x20, 0x22, 0, 0, 0, 0⟩

theorem C7_region_size_checks_witness :
    (utfHeaderRead utfBytesC7V = .ok utfHdrC7V ∧
      (utfTableInit utfBytesC7V).toOption = none) ∧
    (utfHeaderRead utfBytesC7S = .ok utfHdrC7S ∧
      ∃ sz, utfHeaderCheck utfHdrC7S = .ok sz) :=
  ⟨⟨by decide,
    (C7_region_size_checks utfBytesC7V utfHdrC7V (by decide)).1 (by decide)⟩,
   ⟨by decide,
    (C7_region_size_checks utfBytesC7S utfHdrC7S (by decide)).2 (by decide)⟩⟩

/-! ### C3: the U128 (0x0C) type tag -/

/-- An @UTF input declaring one name-only column with type tag 0x0C
(info byte 0x1C). -/
def utfBytesC3 : List Nat :=
  [64, 85, 84, 70, 0, 0, 0, 0x1F, 0, 0, 0, 0x1D, 0, 0, 0, 0x1D,
   0, 0, 0, 0x1F, 0, 0, 0, 0, 0, 1, 0, 0, 0, 0, 0, 0,
   0x1C, 0, 0, 0, 0, 84, 0]

/-- C3 counterexample: the claim says parsing a U128 column succeeds with
an opaque 16-byte value; in fact the type dispatch chain of utfParse has
no U128 case and raises "unsupported value type". -/
theorem C3_counterexample :
    utfParse utfBytesC3 = .error .typeUnsupported := by
  decide

theorem parseColumn_typeFc {bs : List Nat} {h : UTFHeader} {sz : UTFSizes}
    {off oir : Nat} {r : UTFColumn × Nat × Nat}
    (hok : parseColumn bs h sz off oir = .ok r) :
    typeFc r.1.valueType ≠ none := by
  unfold parseColumn at hok
  simp only [bind, Except.bind] at hok
  split at hok
  · simp at hok
  · split at hok
    · simp at hok
    · split at hok
      · simp at hok
      · split at hok
        · simp at hok
        · split at hok
          · simp at hok
          · rename_i vt hvt
            split at hok
            · simp at hok
            · rename_i w fc hfc
              split at hok
              · simp at hok
              · split at hok
                · simp at hok
                · split at hok
                  · simp at hok
                  · simp only [Except.ok.injEq] at hok
                    subst hok
                    simp [hfc]

theorem parseColsAux_no_typeFc_none {bs : List Nat} {h : UTFHeader}
    {sz : UTFSizes} :
    ∀ (n off oir : Nat) (cols : List UTFColumn),
      parseColsAux bs h sz n off oir = .ok cols →
      ∀ c ∈ cols, typeFc c.valueType ≠ none := by
  intro n
  induction n with
  | zero =>
    intro off oir cols hok c hc
    simp only [parseColsAux, Except.ok.injEq] at hok
    subst hok
    cases hc
  | succ n ih =>
    intro off oir cols hok c hc
    simp only [parseColsAux, bind, Except.bind] at hok
    cases hp : parseColumn bs h sz off oir with
    | error e => rw [hp] at hok; simp at hok
    | ok r =>
      rw [hp] at hok
      dsimp only at hok
      cases hrest : parseColsAux bs h sz n r.2.1 r.2.2 with
      | error e => rw [hrest] at hok; simp at hok
      | ok rest =>
        rw [hrest] at hok
        simp only [Except.ok.injEq] at hok
        subst hok
        rcases List.mem_cons.mp hc with hc | hc
        · subst hc
          exact parseColumn_typeFc hp
        · exact ih r.2.1 r.2.2 rest hrest c hc

theorem buildColumn_uint128 {rc : Nat} {st : BuildSt} {col : UTFColumn}
    (hvt : col.valueType = .uint128) :
    ∀ st1, buildColumn rc st col ≠ .ok st1 := by
  intro st1
  unfold buildColumn
  simp only [bind, Except.bind, hvt]
  cases hpk : pkChk 1 (col.dataFlag * 16 + typeTag .uint128) with
  | error e => simp
  | ok b =>
    simp only
    split
    · simp
    · simp [typeFc]

theorem buildCols_uint128 {rc : Nat} {col : UTFColumn}
    (hvt : col.valueType = .uint128) :
    ∀ (cols : List UTFColumn) (st : BuildSt), col ∈ cols →
      ∀ stF, buildCols rc st cols ≠ .ok stF := by
  intro cols
  induction cols with
  | nil =>
    intro st hmem
    cases hmem
  | cons c cs ih =>
    intro st hmem stF
    unfold buildCols
    rcases List.mem_cons.mp hmem with hmem | hmem
    · cases hbc : buildColumn rc st c with
      | error e => simp
      | ok st1 => exact absurd (hmem ▸ hbc) (buildColumn_uint128 hvt st1)
    · cases hbc : buildColumn rc st c with
      | error e => simp
      | ok st1 =>
        dsimp only
        exact ih st1 hmem stF

/-- C3 (amended): tag 0x0C is recognised as a legal enum value
(`UTFTableValueType(0x0C)` succeeds), but both directions reject it: no
successfully parsed table contains a U128 column (the parse type
dispatch raises "unsupported value type" on it, as `utfBytesC3` shows
concretely), and building any table containing a U128 column fails. -/
theorem C3_uint128_rejected_both_ways :
    (typeOfTag 0x0C = some .uint128) ∧
    (∀ (bs : List Nat) (T : UTFTable), utfParse bs = .ok T →
      ∀ c ∈ T.columns, c.valueType ≠ .uint128) ∧
    (∀ (T : UTFTable), (∃ c ∈ T.columns, c.valueType = .uint128) →
      (utfBuild T).toOption = none) := by
  refine ⟨rfl, ?_, ?_⟩
  · intro bs T hok c hc hvt
    unfold utfParse at hok
    simp only [bind, Except.bind] at hok
    cases hi : utfTableInit bs with
    | error e => rw [hi] at hok; simp at hok
    | ok r =>
      rw [hi] at hok
      dsimp only at hok
      cases hcols : parseColsAux bs r.1 r.2.1 r.1.columns_count 0x20 0 with
      | error e => rw [hcols] at hok; simp at hok
      | ok cols =>
        rw [hcols] at hok
        simp only [Except.ok.injEq] at hok
        subst hok
        have := parseColsAux_no_typeFc_none r.1.columns_count 0x20 0 cols
          hcols c hc
        rw [hvt] at this
        exact this rfl
  · intro T hex
    rcases hex with ⟨c, hc, hvt⟩
    unfold utfBuild utfBuildSt
    simp only [bind, Except.bind]
    split
    · rfl
    · rename_i stF heq
      split at heq
      · simp at heq
      · exact absurd heq (buildCols_uint128 hvt T.columns (buildSt0 T) hc stF)

/-- A table value with a U128 column, for the witness. -/
def utfTabC3 : UTFTable := ⟨[84], 0, 0, 1, [⟨1, .uint128, [0x6E], none, none⟩]⟩

theorem C3_uint128_rejected_both_ways_witness :
    (utfBuild utfTabC3).toOption = none :=
  C3_uint128_rejected_both_ways.2.2 utfTabC3
    ⟨⟨1, .uint128, [0x6E], none, none⟩, by decide, rfl⟩

/-! ### C10: per-row blob column with rows_count = 0 -/

/-- An @UTF input with one per-row VLDATA column (info byte 0x5B),
row_width 8 and rows_count 0. -/
def utfBytesC10 : List Nat :=
  [64, 85, 84, 70, 0, 0, 0, 0x1F, 0, 0, 0, 0x1D, 0, 0, 0, 0x1D,
   0, 0, 0, 0x1F, 0, 0, 0, 0, 0, 1, 0, 8, 0, 0, 0, 0,
   0x5B, 0, 0, 0, 0, 84, 0]

/-- The table `utfBytesC10` parses to. -/
def utfTabC10 : UTFTable :=
  ⟨[84], 0, 0, 1, [⟨5, .vldata, [84], none, some []⟩]⟩

theorem colConvRec_empty_rows {recurse : List Nat → Except UtfErr JTable}
    {m d : Nat} {c : UTFColumn} (h5 : c.dataFlag = 5)
    (hvt : c.valueType = .vldata) (hrows : c.columnDataRows = some []) :
    colConvRec recurse m d c = .error .idxErr := by
  simp [colConvRec, hvt, h5, hrows]

theorem exMap_error_of_mem {α β : Type} (f : α → Except UtfErr β)
    (l : List α) (x : α) (hx : x ∈ l) (e : UtfErr) (hfx : f x = .error e) :
    ∃ e2, exMap f l = .error e2 := by
  induction l with
  | nil => cases hx
  | cons y ys ih =>
    rcases List.mem_cons.mp hx with hx | hx
    · exact ⟨e, by simp [exMap, hx ▸ hfx, bind, Except.bind]⟩
    · cases hfy : f y with
      | error ey => exact ⟨ey, by simp [exMap, hfy, bind, Except.bind]⟩
      | ok by2 =>
        rcases ih hx with ⟨e2, he2⟩
        exact ⟨e2, by simp [exMap, hfy, he2, bind, Except.bind]⟩

/-- C10: a parsed table with a per-row Blob column and rows_count = 0 --
`utfBytesC10` parses successfully, and the non-recursive JSON conversion
succeeds on the result -- but the recursive conversion fails: it indexes
`columnDataRows[0]` of the empty row list while sniffing for a nested
table.  In general, every table containing such a column makes the
recursive conversion fail, at every depth and depth limit. -/
theorem C10_recursive_conversion_empty_rows :
    (utfParse utfBytesC10 = .ok utfTabC10) ∧
    ((utf2DictJson utfTabC10).isOk = true) ∧
    (utf2DictJsonRecursion utfTabC10 = .error .idxErr) ∧
    (∀ (T : UTFTable) (c : UTFColumn), c ∈ T.columns → c.dataFlag = 5 →
      c.valueType = .vldata → c.columnDataRows = some [] →
      ∀ m d, (utf2DictJsonRecursion T m d).toOption = none) := by
  refine ⟨by decide, by rfl, by rfl, ?_⟩
  intro T c hc h5 hvt hrows m d
  unfold utf2DictJsonRecursion
  cases hfuel : m + 1 - d with
  | zero => rfl
  | succ k =>
    unfold utf2DictJsonRecAux
    split
    · rfl
    · split
      · rfl
      · rcases exMap_error_of_mem _ T.columns c hc .idxErr
          (colConvRec_empty_rows h5 hvt hrows) with ⟨e2, he2⟩
        rw [he2]
        rfl

theorem C10_recursive_conversion_empty_rows_witness :
    (utf2DictJsonRecursion utfTabC10 5 0).toOption = none :=
  C10_recursive_conversion_empty_rows.2.2.2 utfTabC10
    ⟨5, .vldata, [84], none, some []⟩ (by decide) rfl rfl rfl 5 0

/-! ### C8: nested @UTF blob recognition in recursive conversion -/

/-- The minimal table (name "T", version 1, 0 rows, 0 columns) as built
by UTFTableBuilder. -/
def utfBytesMin : List Nat :=
  [64, 85, 84, 70, 0, 0, 0, 26, 0, 1, 0, 24, 0, 0, 0, 24,
   0, 0, 0, 26, 0, 0, 0, 0, 0, 0, 0, 0, 0, 0, 0, 0, 84, 0]

def utfTabMin : UTFTable := ⟨[84], 1, 0, 0, []⟩

/-- An outer table (name "O") with one constant Blob column "c" holding
the bytes of the minimal table. -/
def utfTabC8 : UTFTable :=
  ⟨[79], 1, 0, 1, [⟨3, .vldata, [99], some (.cBlob utfBytesMin), none⟩]⟩

def jTabC8Raw : JTable :=
  .mkT [79] 1 0 1 [.mkJ 3 (.plain .vldata) [99] (some (.jB64 utfBytesMin)) none]

def jTabC8Nested : JTable :=
  .mkT [79] 1 0 1
    [.mkJ 3 .vldataUtfTable [99] (some (.jTab (.mkT [84] 1 0 0 []))) none]

theorem utfParse_min : utfParse utfBytesMin = .ok utfTabMin := by decide

theorem recAux_min (k m d : Nat) (hd : d ≤ m) :
    utf2DictJsonRecAux (k + 1) m d utfTabMin = .ok (.mkT [84] 1 0 0 []) := by
  unfold utf2DictJsonRecAux
  rw [if_neg (by omega)]
  rw [if_neg (by decide)]
  rfl

/-- C8: a blob value met by the recursive conversion at depth d with
limit m takes the nested-table branch exactly when its first four bytes
are `@UTF` and d < m, and is otherwise kept as a base64 blob; for a
per-row blob column the decision is made from the first row only.  On the
concrete scenario (constant Blob column holding the minimal table): every
depth limit ≥ 1 expands it into a nested table whose inner tableName is
"T", while depth limit 0 keeps the raw bytes. -/
theorem C8_nested_blob_recognition :
    (∀ (recurse : List Nat → Except UtfErr JTable) (m d : Nat)
       (cn b : List Nat) (crows : Option (List UTFCell)),
      (¬ (b.take 4 = [64, 85, 84, 70] ∧ d < m) →
        colConvRec recurse m d ⟨3, .vldata, cn, some (.cBlob b), crows⟩ =
          .ok (.mkJ 3 (.plain .vldata) cn (some (.jB64 b))
                (crows.map (List.map jsonCell)))) ∧
      ((b.take 4 = [64, 85, 84, 70] ∧ d < m) →
        colConvRec recurse m d ⟨3, .vldata, cn, some (.cBlob b), crows⟩ =
          (recurse b).map (fun t => .mkJ 3 .vldataUtfTable cn
            (some (.jTab t)) (crows.map (List.map jsonCell))))) ∧
    (∀ (recurse : List Nat → Except UtfErr JTable) (m d : Nat)
       (cn b0 : List Nat) (rest : List UTFCell)
       (cconst : Option UTFCell),
      (¬ (b0.take 4 = [64, 85, 84, 70] ∧ d < m) →
        colConvRec recurse m d ⟨5, .vldata, cn, cconst,
            some (.cBlob b0 :: rest)⟩ =
          (cellsToB64 (.cBlob b0 :: rest)).bind (fun rows64 =>
            .ok (.mkJ 5 (.plain .vldata) cn (cconst.map jsonCell)
                  (some rows64)))) ∧
      ((b0.take 4 = [64, 85, 84, 70] ∧ d < m) →
        colConvRec recurse m d ⟨5, .vldata, cn, cconst,
            some (.cBlob b0 :: rest)⟩ =
          (exMap (fun cell => match cell with
                  | .cBlob bb => recurse bb
                  | _ => .error .typeErr) (.cBlob b0 :: rest)).bind
            (fun ts => .ok (.mkJ 5 .vldataUtfTable cn (cconst.map jsonCell)
                  (some (ts.map .jTab)))))) ∧
    (utf2DictJsonRecursion utfTabC8 0 0 = .ok jTabC8Raw) ∧
    (∀ m, 1 ≤ m → utf2DictJsonRecursion utfTabC8 m 0 = .ok jTabC8Nested) := by
  refine ⟨?_, ?_, by rfl, ?_⟩
  · intro recurse m d cn b crows
    constructor
    · intro hno
      simp [colConvRec, hno]
    · intro hyes
      simp [colConvRec, hyes]
  · intro recurse m d cn b0 rest cconst
    constructor
    · intro hno
      simp [colConvRec, hno, bind, Except.bind]
    · intro hyes
      simp [colConvRec, hyes, bind, Except.bind]
  · intro m hm
    obtain ⟨k, rfl⟩ : ∃ k, m = k + 1 := ⟨m - 1, by omega⟩
    unfold utf2DictJsonRecursion
    have hfuel : k + 1 + 1 - 0 = (k + 1) + 1 := by omega
    rw [hfuel]
    unfold utf2DictJsonRecAux
    rw [if_neg (by omega), if_neg (by decide)]
    have hcol : colConvRec
        (fun b => (utfParse b).bind (utf2DictJsonRecAux (k + 1) (k + 1) (0 + 1)))
        (k + 1) 0 ⟨3, .vldata, [99], some (.cBlob utfBytesMin), none⟩ =
        .ok (.mkJ 3 .vldataUtfTable [99]
              (some (.jTab (.mkT [84] 1 0 0 []))) none) := by
      simp only [colConvRec, if_true]
      rw [if_pos (⟨by decide, by omega⟩ :
        List.take 4 utfBytesMin = [64, 85, 84, 70] ∧ 0 < k + 1)]
      rw [utfParse_min]
      simp only [bind, Except.bind]
      rw [recAux_min k (k + 1) (0 + 1) (by omega)]
      rfl
    have hmap : exMap (colConvRec
        (fun b => (utfParse b).bind (utf2DictJsonRecAux (k + 1) (k + 1) (0 + 1)))
        (k + 1) 0) utfTabC8.columns =
        .ok [.mkJ 3 .vldataUtfTable [99]
              (some (.jTab (.mkT [84] 1 0 0 []))) none] := by
      have hcols : utfTabC8.columns =
          [⟨3, .vldata, [99], some (.cBlob utfBytesMin), none⟩] := rfl
      rw [hcols]
      simp only [exMap]
      rw [hcol]
      rfl
    rw [hmap]
    rfl

theorem C8_nested_blob_recognition_witness :
    utf2DictJsonRecursion utfTabC8 1 0 = .ok jTabC8Nested :=
  C8_nested_blob_recognition.2.2.2 1 (by decide)

/-! ### C2: strings-pool de-duplication and the table name -/

/-- The strings pool produced by the column loop (equal to the strings
region of the built table, since no alignment padding is configured). -/
def utfBuildStringsPool (T : UTFTable) : Except UtfErr (List Nat) :=
  (utfBuildSt T).map (fun st => st.strings_data)

/-- Number of positions of `l` at which `pat` occurs as a segment. -/
def countSeg (pat : List Nat) : List Nat → Nat
  | [] => 0
  | b :: rest =>
    (if (b :: rest).take pat.length = pat then 1 else 0) + countSeg pat rest

/-- Table name "T", one constant String column "c" whose value is "T". -/
def utfTabC2 : UTFTable :=
  ⟨[84], 1, 0, 1, [⟨3, .string, [99], some (.cStr [84]), none⟩]⟩

/-- C2 counterexample: the built strings pool of `utfTabC2` is
`"T\0c\0T\0"` -- the NUL-terminated entry for "T" occurs twice, not
exactly once as the claim asserts, because the table name is written to
the pool without being recorded in the de-duplication map. -/
theorem C2_counterexample :
    utfBuildStringsPool utfTabC2 = .ok [84, 0, 99, 0, 84, 0] ∧
    countSeg [84, 0] [84, 0, 99, 0, 84, 0] = 2 ∧
    ¬ countSeg [84, 0] [84, 0, 99, 0, 84, 0] = 1 := by
  refine ⟨by decide, by decide, by decide⟩

/-- C2 (amended): column names, constant String values and per-row String
values all pass through the single string-to-offset map (a mapped string
is reused without growing the pool), but the table name is emitted
directly without being recorded in that map; consequently a table with a
constant String column whose value equals the table name stores two
copies of that string, while strings shared between columns are stored
once. -/
theorem C2_table_name_bypasses_dedup :
    (∀ (pool : List Nat) (dict : List (List Nat × Nat)) (s : List Nat)
       (off : Nat), dictFind dict s = some off →
      stringsAdd pool dict s = (off, pool, dict)) ∧
    (∀ (tn c : List Nat) (ver rc : Nat), ¬ c = tn →
      tn.length + c.length + 2 < 4294967296 →
      utfBuildStringsPool ⟨tn, ver, rc, 1,
          [⟨3, .string, c, some (.cStr tn), none⟩]⟩ =
        .ok (tn ++ [0] ++ (c ++ [0] ++ (tn ++ [0])))) ∧
    (∀ (tn : List Nat) (ver rc : Nat),
      tn.length + tn.length + 2 < 4294967296 →
      utfBuildStringsPool ⟨tn, ver, rc, 1,
          [⟨3, .string, tn, some (.cStr tn), none⟩]⟩ =
        .ok (tn ++ [0] ++ (tn ++ [0]))) ∧
    (∀ (tn c1 c2 v : List Nat) (ver rc : Nat),
      ¬ v = c1 → ¬ c2 = c1 → ¬ c2 = v →
      tn.length + c1.length + c2.length + v.length + 4 < 4294967296 →
      utfBuildStringsPool ⟨tn, ver, rc, 2,
          [⟨3, .string, c1, some (.cStr v), none⟩,
           ⟨3, .string, c2, some (.cStr v), none⟩]⟩ =
        .ok (tn ++ [0] ++ (c1 ++ [0] ++ (v ++ [0] ++ (c2 ++ [0]))))) := by
  refine ⟨?_, ?_, ?_, ?_⟩
  · intro pool dict s off hfind
    simp [stringsAdd, hfind]
  · intro tn c ver rc hne hlen
    have h1 : tn.length + 1 < 4294967296 := by omega
    have h2 : tn.length + (c.length + 1 + 1) < 4294967296 := by omega
    simp [utfBuildStringsPool, utfBuildSt, buildSt0, buildCols, buildColumn,
      buildConstPart, stringsAdd, dictFind, pkChk, packBEChk, typeFc, typeTag,
      bind, Except.bind, Except.map, hne, h1, h2]
  · intro tn ver rc hlen
    have h1 : tn.length + 1 < 4294967296 := by omega
    simp [utfBuildStringsPool, utfBuildSt, buildSt0, buildCols, buildColumn,
      buildConstPart, stringsAdd, dictFind, pkChk, packBEChk, typeFc, typeTag,
      bind, Except.bind, Except.map, h1]
  · intro tn c1 c2 v ver rc hv1 hc21 hc2v hlen
    have hv1a : ¬ c1 = v := fun h => hv1 h.symm
    have hc21a : ¬ c1 = c2 := fun h => hc21 h.symm
    have hc2va : ¬ v = c2 := fun h => hc2v h.symm
    have h1 : tn.length + 1 < 4294967296 := by omega
    have h2 : tn.length + (c1.length + 1 + 1) < 4294967296 := by omega
    have h3 : tn.length + (c1.length + (v.length + 1 + 1) + 1) <
        4294967296 := by omega
    have h4 : tn.length + (c1.length + (v.length + (c2.length + 1 + 1) + 1) + 1) <
        4294967296 := by omega
    simp [utfBuildStringsPool, utfBuildSt, buildSt0, buildCols, buildColumn,
      buildConstPart, stringsAdd, dictFind, pkChk, packBEChk, typeFc, typeTag,
      bind, Except.bind, Except.map, hv1, hc21, hc2v, hv1a, hc21a, hc2va,
      h1, h2, h3, h4]

theorem C2_table_name_bypasses_dedup_witness :
    utfBuildStringsPool ⟨[84], 1, 0, 1,
        [⟨3, .string, [99], some (.cStr [84]), none⟩]⟩ =
      .ok ([84] ++ [0] ++ ([99] ++ [0] ++ ([84] ++ [0]))) :=
  C2_table_name_bypasses_dedup.2.1 [84] [99] 1 0 (by decide) (by decide)

/-! ### C5: the two offset vectors of AWBBuilder.build -/

/-- The last_end vector tail as a function of the payload sizes: from
unrounded previous end `prev`, the next sub-file starts at
`roundUpAl a prev` and its unrounded end is that start plus its size. -/
def lastEnds (a : Nat) : Nat → List Nat → List Nat
  | _, [] => []
  | prev, n :: ns =>
    (roundUpAl a prev + n) :: lastEnds a (roundUpAl a prev + n) ns

/-- Read back `n` little-endian entries of width `w` from position `pos`. -/
def readLEListN (bs : List Nat) : Nat → Nat → Nat → List Nat
  | _, _, 0 => []
  | pos, w, n + 1 => leVal (sliceAt bs pos w) :: readLEListN bs (pos + w) w n

theorem awbBody_offsets (b : AWBBuilder) :
    ∀ (ps : List (List Nat)) (prev num : Nat),
      (awbBody b ps (roundUpAl b.offset_alignment prev) num).2.1 =
        lastEnds b.offset_alignment prev (ps.map List.length) ∧
      (awbBody b ps (roundUpAl b.offset_alignment prev) num).2.2 =
        (lastEnds b.offset_alignment prev (ps.map List.length)).map
          (roundUpAl b.offset_alignment) := by
  intro ps
  induction ps with
  | nil => intro prev num; exact ⟨rfl, rfl⟩
  | cons sf rest ih =>
    intro prev num
    have h := ih (roundUpAl b.offset_alignment prev + sf.length) (num + 1)
    simp only [awbBody, lastEnds, List.map]
    exact ⟨by rw [h.1], by rw [h.2]⟩

theorem lastEnds_getLastD_default {a : Nat} :
    ∀ (ns : List Nat) (prev d1 d2 : Nat), ns ≠ [] →
      (lastEnds a prev ns).getLastD d1 = (lastEnds a prev ns).getLastD d2 := by
  intro ns
  cases ns with
  | nil => intro prev d1 d2 hne; exact absurd rfl hne
  | cons n ns => intro prev d1 d2 hne; rfl

theorem awbBody_length_mode0 (b : AWBBuilder) (ha : 0 < b.offset_alignment)
    (hm : b.offset_mode = 0) :
    ∀ (ps : List (List Nat)) (prev num : Nat),
      num + ps.length = b.subfiles_count + 1 → ps ≠ [] →
      (awbBody b ps (roundUpAl b.offset_alignment prev) num).1.length +
          roundUpAl b.offset_alignment prev =
        (lastEnds b.offset_alignment prev (ps.map List.length)).getLastD 0 := by
  intro ps
  induction ps with
  | nil => intro prev num hnum hne; exact absurd rfl hne
  | cons sf rest ih =>
    intro prev num hnum hne
    cases rest with
    | nil =>
      have hlast : ¬ (num < b.subfiles_count ∨ b.offset_mode = 1) := by
        simp only [List.length_cons, List.length_nil] at hnum
        omega
      simp only [awbBody, lastEnds, List.map]
      rw [if_neg hlast]
      have hg : ([roundUpAl b.offset_alignment prev + sf.length] :
          List Nat).getLastD 0 =
          roundUpAl b.offset_alignment prev + sf.length := rfl
      rw [hg]
      simp only [List.append_nil, List.length_append, List.length_nil]
      omega
    | cons sf2 rest2 =>
      have hpad : (num < b.subfiles_count ∨ b.offset_mode = 1) := by
        simp only [List.length_cons] at hnum
        left
        omega
      have hge : roundUpAl b.offset_alignment prev + sf.length ≤
          roundUpAl b.offset_alignment
            (roundUpAl b.offset_alignment prev + sf.length) :=
        roundUpAl_ge _ ha
      have ih2 := ih (roundUpAl b.offset_alignment prev + sf.length) (num + 1)
        (by simp only [List.length_cons] at hnum ⊢; omega) (by simp)
      have hstep : (awbBody b (sf :: sf2 :: rest2)
          (roundUpAl b.offset_alignment prev) num).1 =
          (sf ++ List.replicate
            (roundUpAl b.offset_alignment
                (roundUpAl b.offset_alignment prev + sf.length) -
              (roundUpAl b.offset_alignment prev + sf.length)) 0) ++
          (awbBody b (sf2 :: rest2)
            (roundUpAl b.offset_alignment
              (roundUpAl b.offset_alignment prev + sf.length)) (num + 1)).1 := by
        conv =>
          lhs
          rw [awbBody]
        rw [if_pos hpad]
      have hrhs : (lastEnds b.offset_alignment prev
            ((sf :: sf2 :: rest2).map List.length)).getLastD 0 =
          (lastEnds b.offset_alignment
            (roundUpAl b.offset_alignment prev + sf.length)
            ((sf2 :: rest2).map List.length)).getLastD 0 := by
        simp only [List.map, lastEnds, List.getLastD_cons]
      rw [hstep, hrhs, ← ih2]
      simp only [List.length_append, List.length_replicate]
      omega

theorem awbBody_length_mode1 (b : AWBBuilder) (ha : 0 < b.offset_alignment)
    (hm : b.offset_mode = 1) :
    ∀ (ps : List (List Nat)) (prev num : Nat),
      (awbBody b ps (roundUpAl b.offset_alignment prev) num).1.length +
          roundUpAl b.offset_alignment prev =
        roundUpAl b.offset_alignment
          ((lastEnds b.offset_alignment prev
            (ps.map List.length)).getLastD prev) := by
  intro ps
  induction ps with
  | nil => intro prev num; simp [awbBody, lastEnds]
  | cons sf rest ih =>
    intro prev num
    have hpad : (num < b.subfiles_count ∨ b.offset_mode = 1) := Or.inr hm
    have hge : roundUpAl b.offset_alignment prev + sf.length ≤
        roundUpAl b.offset_alignment
          (roundUpAl b.offset_alignment prev + sf.length) :=
      roundUpAl_ge _ ha
    have ih2 := ih (roundUpAl b.offset_alignment prev + sf.length) (num + 1)
    have hstep : (awbBody b (sf :: rest)
        (roundUpAl b.offset_alignment prev) num).1 =
        (sf ++ List.replicate
          (roundUpAl b.offset_alignment
              (roundUpAl b.offset_alignment prev + sf.length) -
            (roundUpAl b.offset_alignment prev + sf.length)) 0) ++
        (awbBody b rest
          (roundUpAl b.offset_alignment
            (roundUpAl b.offset_alignment prev + sf.length)) (num + 1)).1 := by
      conv =>
        lhs
        rw [awbBody]
      rw [if_pos hpad]
    have hrhs : (lastEnds b.offset_alignment prev
          ((sf :: rest).map List.length)).getLastD prev =
        (lastEnds b.offset_alignment
          (roundUpAl b.offset_alignment prev + sf.length)
          (rest.map List.length)).getLastD
          (roundUpAl b.offset_alignment prev + sf.length) := by
      simp only [List.map, lastEnds, List.getLastD_cons]
    rw [hstep, hrhs, ← ih2]
    simp only [List.length_append, List.length_replicate]
    omega

theorem lastEnds_length {a : Nat} :
    ∀ (ns : List Nat) (prev : Nat), (lastEnds a prev ns).length = ns.length := by
  intro ns
  induction ns with
  | nil => intro prev; rfl
  | cons n rest ih => intro prev; simp [lastEnds, ih]

theorem pkLE_ok {w n : Nat} {l : List Nat} (h : pkLE w n = .ok l) :
    l = packLE w n ∧ n < 256 ^ w := by
  unfold pkLE packLEChk at h
  by_cases hlt : n < 256 ^ w
  · rw [if_pos hlt] at h
    simp only [Except.ok.injEq] at h
    exact ⟨h.symm, hlt⟩
  · rw [if_neg hlt] at h
    simp at h

theorem awbIdTable_length {w : Nat} :
    ∀ (n i : Nat) (l : List Nat), awbIdTable w n i = .ok l →
      l.length = w * n := by
  intro n
  induction n with
  | zero =>
    intro i l h
    simp only [awbIdTable, Except.ok.injEq] at h
    subst h
    simp
  | succ n ih =>
    intro i l h
    simp only [awbIdTable, bind, Except.bind] at h
    cases hp : pkLE w i with
    | error e => rw [hp] at h; simp at h
    | ok b =>
      rw [hp] at h
      dsimp only at h
      cases hr : awbIdTable w n (i + 1) with
      | error e => rw [hr] at h; simp at h
      | ok rest =>
        rw [hr] at h
        simp only [Except.ok.injEq] at h
        subst h
        have hb := (pkLE_ok hp).1
        have hrl := ih (i + 1) rest hr
        simp only [List.length_append, hb, packLE_length, hrl, Nat.mul_succ]
        omega

theorem awbHeaderPrepare_decomp {b : AWBBuilder} {hd : List Nat}
    (h : awbHeaderPrepare b = .ok hd) :
    ∃ pre : List Nat,
      hd = pre ++ List.replicate (b.offset_size * (b.subfiles_count + 1)) 0 ∧
      pre.length = 0x10 + b.audioid_size * b.subfiles_count := by
  unfold awbHeaderPrepare at h
  simp only [bind, Except.bind] at h
  cases h1 : pkLE 1 b.version with
  | error e => rw [h1] at h; simp at h
  | ok p1 =>
  rw [h1] at h
  dsimp only at h
  cases h2 : pkLE 1 b.offset_size with
  | error e => rw [h2] at h; simp at h
  | ok p2 =>
  rw [h2] at h
  dsimp only at h
  cases h3 : pkLE 2 b.audioid_size with
  | error e => rw [h3] at h; simp at h
  | ok p3 =>
  rw [h3] at h
  dsimp only at h
  cases h4 : pkLE 4 b.subfiles_count with
  | error e => rw [h4] at h; simp at h
  | ok p4 =>
  rw [h4] at h
  dsimp only at h
  cases h5 : pkLE 2 b.offset_alignment with
  | error e => rw [h5] at h; simp at h
  | ok p5 =>
  rw [h5] at h
  dsimp only at h
  cases h6 : pkLE 2 b.subkey with
  | error e => rw [h6] at h; simp at h
  | ok p6 =>
  rw [h6] at h
  dsimp only at h
  have hidw : (if b.audioid_size = 2 then (Except.ok 2 : Except AwbErr Nat)
      else if b.audioid_size = 4 then Except.ok 4
      else Except.error AwbErr.idSizeErr) = .ok b.audioid_size ∨
      (if b.audioid_size = 2 then (Except.ok 2 : Except AwbErr Nat)
      else if b.audioid_size = 4 then Except.ok 4
      else Except.error AwbErr.idSizeErr) = .error .idSizeErr := by
    split_ifs with hA hB
    · left; rw [hA]
    · left; rw [hB]
    · right; rfl
  rcases hidw with hidw | hidw
  · rw [hidw] at h
    dsimp only at h
    cases h7 : awbIdTable b.audioid_size b.subfiles_count 0 with
    | error e => rw [h7] at h; simp at h
    | ok ids =>
      rw [h7] at h
      simp only [Except.ok.injEq] at h
      refine ⟨[65, 70, 83, 50] ++ p1 ++ p2 ++ p3 ++ p4 ++ p5 ++ p6 ++ ids, ?_, ?_⟩
      · rw [← h]
      · have e1 := (pkLE_ok h1).1
        have e2 := (pkLE_ok h2).1
        have e3 := (pkLE_ok h3).1
        have e4 := (pkLE_ok h4).1
        have e5 := (pkLE_ok h5).1
        have e6 := (pkLE_ok h6).1
        have e7 := awbIdTable_length b.subfiles_count 0 ids h7
        simp only [List.length_append, e1, e2, e3, e4, e5, e6, e7,
          packLE_length, List.length_cons, List.length_nil]
  · rw [hidw] at h
    simp at h

theorem packOffsets_spec {w : Nat} :
    ∀ (vs tb : List Nat), packOffsets w vs = .ok tb →
      tb.length = w * vs.length ∧
      ∀ (A B : List Nat),
        readLEListN (A ++ (tb ++ B)) A.length w vs.length = vs := by
  intro vs
  induction vs with
  | nil =>
    intro tb h
    simp only [packOffsets, Except.ok.injEq] at h
    subst h
    exact ⟨by simp, fun A B => rfl⟩
  | cons v rest ih =>
    intro tb h
    simp only [packOffsets, bind, Except.bind] at h
    cases h1 : pkLE w v with
    | error e => rw [h1] at h; simp at h
    | ok bseg =>
      rw [h1] at h
      dsimp only at h
      cases h2 : packOffsets w rest with
      | error e => rw [h2] at h; simp at h
      | ok tbr =>
        rw [h2] at h
        simp only [Except.ok.injEq] at h
        subst h
        obtain ⟨hbe, hlt⟩ := pkLE_ok h1
        obtain ⟨hlen, hread⟩ := ih tbr h2
        refine ⟨?_, ?_⟩
        · simp only [List.length_append, hbe, packLE_length, hlen,
            List.length_cons, Nat.mul_succ]
          omega
        · intro A B
          rw [List.length_cons, readLEListN]
          have hbw : bseg.length = w := by rw [hbe]; exact packLE_length w v
          congr 1
          · have hre : A ++ ((bseg ++ tbr) ++ B) =
                A ++ (bseg ++ (tbr ++ B)) := by
              simp [List.append_assoc]
            rw [hre, sliceAt_exact bseg (tbr ++ B) rfl hbw, hbe,
              leVal_packLE hlt]
          · have hre : A ++ ((bseg ++ tbr) ++ B) =
                (A ++ bseg) ++ (tbr ++ B) := by
              simp [List.append_assoc]
            have hAl : A.length + w = (A ++ bseg).length := by
              simp [hbw]
            rw [hre, hAl]
            exact hread (A ++ bseg) B

theorem spliceAt_parts {A Z B seg : List Nat} (hz : Z.length = seg.length) :
    spliceAt (A ++ (Z ++ B)) A.length seg = A ++ (seg ++ B) := by
  unfold spliceAt
  rw [List.take_left]
  have hdrop : (A ++ (Z ++ B)).drop (A.length + seg.length) = B := by
    rw [List.drop_append, ← hz, List.drop_left]
  rw [hdrop, List.append_assoc]

theorem awbBuild_offset_table (cfg : AWBBuilder) (f : List Nat)
    (ha : 0 < cfg.offset_alignment)
    (hcnt : cfg.sunfiles.length = cfg.subfiles_count)
    (hok : awbBuild cfg = .ok f) :
    (cfg.offset_mode = 0 →
      readLEListN f (0x10 + cfg.audioid_size * cfg.subfiles_count)
          cfg.offset_size (cfg.subfiles_count + 1) =
        (0x10 + cfg.audioid_size * cfg.subfiles_count +
            cfg.offset_size * (cfg.subfiles_count + 1)) ::
          lastEnds cfg.offset_alignment
            (0x10 + cfg.audioid_size * cfg.subfiles_count +
              cfg.offset_size * (cfg.subfiles_count + 1))
            (cfg.sunfiles.map List.length)) ∧
    (cfg.offset_mode = 1 →
      readLEListN f (0x10 + cfg.audioid_size * cfg.subfiles_count)
          cfg.offset_size (cfg.subfiles_count + 1) =
        ((0x10 + cfg.audioid_size * cfg.subfiles_count +
            cfg.offset_size * (cfg.subfiles_count + 1)) ::
          lastEnds cfg.offset_alignment
            (0x10 + cfg.audioid_size * cfg.subfiles_count +
              cfg.offset_size * (cfg.subfiles_count + 1))
            (cfg.sunfiles.map List.length)).map
          (roundUpAl cfg.offset_alignment)) ∧
    (cfg.offset_mode = 0 → cfg.sunfiles ≠ [] →
      f.length = ((0x10 + cfg.audioid_size * cfg.subfiles_count +
            cfg.offset_size * (cfg.subfiles_count + 1)) ::
          lastEnds cfg.offset_alignment
            (0x10 + cfg.audioid_size * cfg.subfiles_count +
              cfg.offset_size * (cfg.subfiles_count + 1))
            (cfg.sunfiles.map List.length)).getLastD 0) ∧
    (cfg.offset_mode = 1 →
      f.length = roundUpAl cfg.offset_alignment
        (((0x10 + cfg.audioid_size * cfg.subfiles_count +
            cfg.offset_size * (cfg.subfiles_count + 1)) ::
          lastEnds cfg.offset_alignment
            (0x10 + cfg.audioid_size * cfg.subfiles_count +
              cfg.offset_size * (cfg.subfiles_count + 1))
            (cfg.sunfiles.map List.length)).getLastD 0)) := by
  unfold awbBuild at hok
  simp only [bind, Except.bind] at hok
  cases hhd : awbHeaderPrepare cfg with
  | error e => rw [hhd] at hok; simp at hok
  | ok hd =>
  rw [hhd] at hok
  dsimp only at hok
  obtain ⟨pre, hdec, hprelen⟩ := awbHeaderPrepare_decomp hhd
  have hdlen : hd.length = 0x10 + cfg.audioid_size * cfg.subfiles_count +
      cfg.offset_size * (cfg.subfiles_count + 1) := by
    rw [hdec]
    simp only [List.length_append, List.length_replicate, hprelen]
  have hos24 : cfg.offset_size = 2 ∨ cfg.offset_size = 4 := by
    by_contra hno
    push_neg at hno
    rw [if_neg hno.1, if_neg hno.2] at hok
    simp at hok
  have hfcw : (if cfg.offset_size = 2 then (Except.ok 2 : Except AwbErr Nat)
      else if cfg.offset_size = 4 then Except.ok 4
      else Except.error AwbErr.offSizeErr) = .ok cfg.offset_size := by
    rcases hos24 with h2 | h4
    · rw [if_pos h2, h2]
    · rw [if_neg (by omega), if_pos h4, h4]
  rw [hfcw] at hok
  dsimp only at hok
  have hmode01 : cfg.offset_mode = 0 ∨ cfg.offset_mode = 1 := by
    by_contra hno
    push_neg at hno
    rw [if_neg hno.1, if_neg hno.2] at hok
    simp at hok
  have hb := awbBody_offsets cfg cfg.sunfiles hd.length 1
  have hsizlen : (cfg.sunfiles.map List.length).length = cfg.subfiles_count := by
    rw [List.length_map, hcnt]
  refine ⟨?_, ?_, ?_, ?_⟩
  all_goals intro hmode
  -- mode 0 readback
  case refine_1 =>
    rw [hmode] at hok
    rw [if_pos rfl] at hok
    dsimp only at hok
    rw [hb.1] at hok
    cases hpo : packOffsets cfg.offset_size
        (hd.length :: lastEnds cfg.offset_alignment hd.length
          (cfg.sunfiles.map List.length)) with
    | error e => rw [hpo] at hok; simp at hok
    | ok tb =>
      rw [hpo] at hok
      simp only [Except.ok.injEq] at hok
      obtain ⟨htblen, htbread⟩ := packOffsets_spec _ tb hpo
      have hollen : (hd.length :: lastEnds cfg.offset_alignment hd.length
          (cfg.sunfiles.map List.length)).length = cfg.subfiles_count + 1 := by
        simp [lastEnds_length, hsizlen]
      have hzlen : (List.replicate
          (cfg.offset_size * (cfg.subfiles_count + 1)) 0).length = tb.length := by
        rw [htblen, hollen, List.length_replicate]
      have hfb : (hd ++ List.replicate
            (roundUpAl cfg.offset_alignment hd.length - hd.length) 0) ++
          (awbBody cfg cfg.sunfiles
            (roundUpAl cfg.offset_alignment hd.length) 1).1 =
          pre ++ (List.replicate
              (cfg.offset_size * (cfg.subfiles_count + 1)) 0 ++
            (List.replicate
                (roundUpAl cfg.offset_alignment hd.length - hd.length) 0 ++
              (awbBody cfg cfg.sunfiles
                (roundUpAl cfg.offset_alignment hd.length) 1).1)) := by
        rw [hdec, List.append_assoc, List.append_assoc]
      rw [hfb] at hok
      rw [← hprelen, spliceAt_parts hzlen] at hok
      rw [← hok]
      rw [← hprelen]
      have hr := htbread pre
        (List.replicate (roundUpAl cfg.offset_alignment hd.length -
            hd.length) 0 ++
          (awbBody cfg cfg.sunfiles
            (roundUpAl cfg.offset_alignment hd.length) 1).1)
      rw [hollen] at hr
      rw [hr, hdlen, hprelen]
  -- mode 1 readback
  case refine_2 =>
    rw [hmode] at hok
    rw [if_neg (by omega), if_pos rfl] at hok
    dsimp only at hok
    rw [hb.2] at hok
    cases hpo : packOffsets cfg.offset_size
        (roundUpAl cfg.offset_alignment hd.length ::
          (lastEnds cfg.offset_alignment hd.length
            (cfg.sunfiles.map List.length)).map
            (roundUpAl cfg.offset_alignment)) with
    | error e => rw [hpo] at hok; simp at hok
    | ok tb =>
      rw [hpo] at hok
      simp only [Except.ok.injEq] at hok
      obtain ⟨htblen, htbread⟩ := packOffsets_spec _ tb hpo
      have hollen : (roundUpAl cfg.offset_alignment hd.length ::
          (lastEnds cfg.offset_alignment hd.length
            (cfg.sunfiles.map List.length)).map
            (roundUpAl cfg.offset_alignment)).length =
          cfg.subfiles_count + 1 := by
        simp [lastEnds_length, hsizlen]
      have hzlen : (List.replicate
          (cfg.offset_size * (cfg.subfiles_count + 1)) 0).length = tb.length := by
        rw [htblen, hollen, List.length_replicate]
      have hfb : (hd ++ List.replicate
            (roundUpAl cfg.offset_alignment hd.length - hd.length) 0) ++
          (awbBody cfg cfg.sunfiles
            (roundUpAl cfg.offset_alignment hd.length) 1).1 =
          pre ++ (List.replicate
              (cfg.offset_size * (cfg.subfiles_count + 1)) 0 ++
            (List.replicate
                (roundUpAl cfg.offset_alignment hd.length - hd.length) 0 ++
              (awbBody cfg cfg.sunfiles
                (roundUpAl cfg.offset_alignment hd.length) 1).1)) := by
        rw [hdec, List.append_assoc, List.append_assoc]
      rw [hfb] at hok
      rw [← hprelen, spliceAt_parts hzlen] at hok
      rw [← hok]
      rw [← hprelen]
      have hr := htbread pre
        (List.replicate (roundUpAl cfg.offset_alignment hd.length -
            hd.length) 0 ++
          (awbBody cfg cfg.sunfiles
            (roundUpAl cfg.offset_alignment hd.length) 1).1)
      rw [hollen] at hr
      rw [hr, hdlen, List.map_cons, hprelen]
  -- mode 0 length
  case refine_3 =>
    intro hne
    rw [hmode] at hok
    rw [if_pos rfl] at hok
    dsimp only at hok
    cases hpo : packOffsets cfg.offset_size
        (hd.length ::
          (awbBody cfg cfg.sunfiles
            (roundUpAl cfg.offset_alignment hd.length) 1).2.1) with
    | error e => rw [hpo] at hok; simp at hok
    | ok tb =>
      rw [hpo] at hok
      simp only [Except.ok.injEq] at hok
      obtain ⟨htblen, htbread⟩ := packOffsets_spec _ tb hpo
      have hollen : (hd.length ::
          (awbBody cfg cfg.sunfiles
            (roundUpAl cfg.offset_alignment hd.length) 1).2.1).length =
          cfg.subfiles_count + 1 := by
        simp [hb.1, lastEnds_length, hsizlen]
      have hzlen : (List.replicate
          (cfg.offset_size * (cfg.subfiles_count + 1)) 0).length = tb.length := by
        rw [htblen, hollen, List.length_replicate]
      have hfb : (hd ++ List.replicate
            (roundUpAl cfg.offset_alignment hd.length - hd.length) 0) ++
          (awbBody cfg cfg.sunfiles
            (roundUpAl cfg.offset_alignment hd.length) 1).1 =
          pre ++ (List.replicate
              (cfg.offset_size * (cfg.subfiles_count + 1)) 0 ++
            (List.replicate
                (roundUpAl cfg.offset_alignment hd.length - hd.length) 0 ++
              (awbBody cfg cfg.sunfiles
                (roundUpAl cfg.offset_alignment hd.length) 1).1)) := by
        rw [hdec, List.append_assoc, List.append_assoc]
      rw [hfb] at hok
      rw [← hprelen, spliceAt_parts hzlen] at hok
      have hbl := awbBody_length_mode0 cfg ha hmode cfg.sunfiles hd.length 1
        (by rw [hcnt]; omega) hne
      have hgeH := roundUpAl_ge (a := cfg.offset_alignment) hd.length ha
      have hlast0 : ((0x10 + cfg.audioid_size * cfg.subfiles_count +
            cfg.offset_size * (cfg.subfiles_count + 1)) ::
          lastEnds cfg.offset_alignment
            (0x10 + cfg.audioid_size * cfg.subfiles_count +
              cfg.offset_size * (cfg.subfiles_count + 1))
            (cfg.sunfiles.map List.length)).getLastD 0 =
          (lastEnds cfg.offset_alignment hd.length
            (cfg.sunfiles.map List.length)).getLastD 0 := by
        rw [List.getLastD_cons, ← hdlen]
        exact lastEnds_getLastD_default _ _ _ 0
          (by intro hemp; rw [List.map_eq_nil_iff] at hemp; exact hne hemp)
      rw [← hok]
      rw [hlast0, ← hbl]
      simp only [List.length_append, List.length_replicate, hprelen, htblen,
        hollen]
      omega
  -- mode 1 length
  case refine_4 =>
    rw [hmode] at hok
    rw [if_neg (by omega), if_pos rfl] at hok
    dsimp only at hok
    cases hpo : packOffsets cfg.offset_size
        (roundUpAl cfg.offset_alignment hd.length ::
          (awbBody cfg cfg.sunfiles
            (roundUpAl cfg.offset_alignment hd.length) 1).2.2) with
    | error e => rw [hpo] at hok; simp at hok
    | ok tb =>
      rw [hpo] at hok
      simp only [Except.ok.injEq] at hok
      obtain ⟨htblen, htbread⟩ := packOffsets_spec _ tb hpo
      have hollen : (roundUpAl cfg.offset_alignment hd.length ::
          (awbBody cfg cfg.sunfiles
            (roundUpAl cfg.offset_alignment hd.length) 1).2.2).length =
          cfg.subfiles_count + 1 := by
        simp [hb.2, lastEnds_length, hsizlen]
      have hzlen : (List.replicate
          (cfg.offset_size * (cfg.subfiles_count + 1)) 0).length = tb.length := by
        rw [htblen, hollen, List.length_replicate]
      have hfb : (hd ++ List.replicate
            (roundUpAl cfg.offset_alignment hd.length - hd.length) 0) ++
          (awbBody cfg cfg.sunfiles
            (roundUpAl cfg.offset_alignment hd.length) 1).1 =
          pre ++ (List.replicate
              (cfg.offset_size * (cfg.subfiles_count + 1)) 0 ++
            (List.replicate
                (roundUpAl cfg.offset_alignment hd.length - hd.length) 0 ++
              (awbBody cfg cfg.sunfiles
                (roundUpAl cfg.offset_alignment hd.length) 1).1)) := by
        rw [hdec, List.append_assoc, List.append_assoc]
      rw [hfb] at hok
      rw [← hprelen, spliceAt_parts hzlen] at hok
      have hbl := awbBody_length_mode1 cfg ha hmode cfg.sunfiles hd.length 1
      have hgeH := roundUpAl_ge (a := cfg.offset_alignment) hd.length ha
      have hlast0 : roundUpAl cfg.offset_alignment
          (((0x10 + cfg.audioid_size * cfg.subfiles_count +
              cfg.offset_size * (cfg.subfiles_count + 1)) ::
            lastEnds cfg.offset_alignment
              (0x10 + cfg.audioid_size * cfg.subfiles_count +
                cfg.offset_size * (cfg.subfiles_count + 1))
              (cfg.sunfiles.map List.length)).getLastD 0) =
          roundUpAl cfg.offset_alignment
            ((lastEnds cfg.offset_alignment hd.length
              (cfg.sunfiles.map List.length)).getLastD hd.length) := by
        rw [List.getLastD_cons, ← hdlen]
      rw [← hok]
      rw [hlast0, ← hbl]
      simp only [List.length_append, List.length_replicate, hprelen, htblen,
        hollen]
      omega

/-- The worked example of the claim: 2 payloads of sizes 5 and 7,
`offset_size = 4`, `audioid_size = 2`, `alignment = 0x20`, LastEnd mode. -/
def awbCfg5LE : AWBBuilder :=
  ⟨[[1, 2, 3, 4, 5], [6, 7, 8, 9, 10, 11, 12]], 2, 2, 4, 2, 0x20, 0, 0,
    0xFFFFFFFF⟩

/-- Same input with `offset_mode = Start`. -/
def awbCfg5St : AWBBuilder :=
  ⟨[[1, 2, 3, 4, 5], [6, 7, 8, 9, 10, 11, 12]], 2, 2, 4, 2, 0x20, 0, 1,
    0xFFFFFFFF⟩

/-- The archive `AWBBuilder.build` produces from `awbCfg5LE`. -/
def awbFile5LE : List Nat :=
  [65, 70, 83, 50, 2, 4, 2, 0, 2, 0, 0, 0, 32, 0, 0, 0] ++ [0, 0, 1, 0] ++
  [32, 0, 0, 0, 37, 0, 0, 0, 71, 0, 0, 0] ++
  [1, 2, 3, 4, 5] ++ List.replicate 27 0 ++ [6, 7, 8, 9, 10, 11, 12]

/-- The archive `AWBBuilder.build` produces from `awbCfg5St`. -/
def awbFile5St : List Nat :=
  [65, 70, 83, 50, 2, 4, 2, 0, 2, 0, 0, 0, 32, 0, 0, 0] ++ [0, 0, 1, 0] ++
  [32, 0, 0, 0, 64, 0, 0, 0, 96, 0, 0, 0] ++
  [1, 2, 3, 4, 5] ++ List.replicate 27 0 ++ [6, 7, 8, 9, 10, 11, 12] ++
  List.replicate 25 0

/-- On the claim's worked LastEnd example the offset table `build` writes is
`[0x20, 0x25, 0x47]`, not the claimed `[0x20, 0x25, 0x2C]`: `last_end[2]` is
the unrounded end of payload 1, which starts at the rounded-up position 0x40,
so it is `0x40 + 7 = 0x47`, not `0x25 + 7 = 0x2C`.  (The claimed file size
0x47 is nevertheless correct.) -/
theorem C5_counterexample :
    awbBuild awbCfg5LE = .ok awbFile5LE ∧
    readLEListN awbFile5LE 0x14 4 3 = [0x20, 0x25, 0x47] ∧
    [0x20, 0x25, 0x47] ≠ [0x20, 0x25, 0x2C] := by
  refine ⟨by decide, by decide, by decide⟩

/-- C5 (amended): for every successful AFS2 build with positive alignment,
under LastEnd mode the offset table written is
`table_end :: last_end` where `last_end[i]` is the unrounded end of payload
`i` placed at its rounded-up start (each non-final payload is trailing-padded
to the alignment), and the file ends exactly at the last `last_end` (no
trailing pad); under Start mode the table is that same vector rounded up
entry-wise and the file is trailing-padded to the rounded-up last end.  On
the claim's worked example (payload sizes 5 and 7, alignment 0x20,
`offset_size` 4, `audioid_size` 2), LastEnd yields offsets
`[0x20, 0x25, 0x47]` (not `[0x20, 0x25, 0x2C]` as claimed) and file size
0x47, while Start yields offsets `[0x20, 0x40, 0x60]` and file size 0x60;
in both modes the payloads sit at 0x20 and 0x40. -/
theorem C5_offset_modes :
    (∀ (cfg : AWBBuilder) (f : List Nat),
      0 < cfg.offset_alignment →
      cfg.sunfiles.length = cfg.subfiles_count →
      awbBuild cfg = .ok f →
      (cfg.offset_mode = 0 →
        readLEListN f (0x10 + cfg.audioid_size * cfg.subfiles_count)
            cfg.offset_size (cfg.subfiles_count + 1) =
          (0x10 + cfg.audioid_size * cfg.subfiles_count +
              cfg.offset_size * (cfg.subfiles_count + 1)) ::
            lastEnds cfg.offset_alignment
              (0x10 + cfg.audioid_size * cfg.subfiles_count +
                cfg.offset_size * (cfg.subfiles_count + 1))
              (cfg.sunfiles.map List.length)) ∧
      (cfg.offset_mode = 1 →
        readLEListN f (0x10 + cfg.audioid_size * cfg.subfiles_count)
            cfg.offset_size (cfg.subfiles_count + 1) =
          ((0x10 + cfg.audioid_size * cfg.subfiles_count +
              cfg.offset_size * (cfg.subfiles_count + 1)) ::
            lastEnds cfg.offset_alignment
              (0x10 + cfg.audioid_size * cfg.subfiles_count +
                cfg.offset_size * (cfg.subfiles_count + 1))
              (cfg.sunfiles.map List.length)).map
            (roundUpAl cfg.offset_alignment)) ∧
      (cfg.offset_mode = 0 → cfg.sunfiles ≠ [] →
        f.length = ((0x10 + cfg.audioid_size * cfg.subfiles_count +
              cfg.offset_size * (cfg.subfiles_count + 1)) ::
            lastEnds cfg.offset_alignment
              (0x10 + cfg.audioid_size * cfg.subfiles_count +
                cfg.offset_size * (cfg.subfiles_count + 1))
              (cfg.sunfiles.map List.length)).getLastD 0) ∧
      (cfg.offset_mode = 1 →
        f.length = roundUpAl cfg.offset_alignment
          (((0x10 + cfg.audioid_size * cfg.subfiles_count +
              cfg.offset_size * (cfg.subfiles_count + 1)) ::
            lastEnds cfg.offset_alignment
              (0x10 + cfg.audioid_size * cfg.subfiles_count +
                cfg.offset_size * (cfg.subfiles_count + 1))
              (cfg.sunfiles.map List.length)).getLastD 0))) ∧
    awbBuild awbCfg5LE = .ok awbFile5LE ∧
    awbBuild awbCfg5St = .ok awbFile5St ∧
    readLEListN awbFile5LE 0x14 4 3 = [0x20, 0x25, 0x47] ∧
    awbFile5LE.length = 0x47 ∧
    readLEListN awbFile5St 0x14 4 3 = [0x20, 0x40, 0x60] ∧
    awbFile5St.length = 0x60 ∧
    sliceAt awbFile5LE 0x20 5 = [1, 2, 3, 4, 5] ∧
    sliceAt awbFile5LE 0x40 7 = [6, 7, 8, 9, 10, 11, 12] ∧
    sliceAt awbFile5St 0x20 5 = [1, 2, 3, 4, 5] ∧
    sliceAt awbFile5St 0x40 7 = [6, 7, 8, 9, 10, 11, 12] := by
  refine ⟨fun cfg f ha hc hb => awbBuild_offset_table cfg f ha hc hb,
    ?_, ?_, ?_, ?_, ?_, ?_, ?_, ?_, ?_, ?_⟩
  all_goals decide

theorem C5_offset_modes_witness :
    0 < awbCfg5LE.offset_alignment ∧
    awbCfg5LE.sunfiles.length = awbCfg5LE.subfiles_count ∧
    awbBuild awbCfg5LE = Except.ok awbFile5LE ∧
    readLEListN awbFile5LE
        (0x10 + awbCfg5LE.audioid_size * awbCfg5LE.subfiles_count)
        awbCfg5LE.offset_size (awbCfg5LE.subfiles_count + 1) =
      (0x10 + awbCfg5LE.audioid_size * awbCfg5LE.subfiles_count +
          awbCfg5LE.offset_size * (awbCfg5LE.subfiles_count + 1)) ::
        lastEnds awbCfg5LE.offset_alignment
          (0x10 + awbCfg5LE.audioid_size * awbCfg5LE.subfiles_count +
            awbCfg5LE.offset_size * (awbCfg5LE.subfiles_count + 1))
          (awbCfg5LE.sunfiles.map List.length) :=
  ⟨by decide, by decide, by decide,
    (C5_offset_modes.1 awbCfg5LE awbFile5LE (by decide) (by decide)
      (by decide)).1 rfl⟩

/-! ## C1: the build/parse round trip.

The remaining development relates `utfBuild` to `utfParse`: the byte level
encoding each column emits is decoded by the corresponding parse step. -/

/-- The byte width a format code occupies in a row slot or as a constant. -/
def fcWidth : PackFc → Nat
  | .scal f => f.width
  | .strFc => 4
  | .vldFc => 8

theorem typeFc_fcWidth {vt : UTFTableValueType} {vsize : Nat} {fc : PackFc}
    (h : typeFc vt = some (vsize, fc)) : fcWidth fc = vsize := by
  cases vt
  case uint128 => simp [typeFc] at h
  all_goals
    (simp only [typeFc, Option.some.injEq, Prod.mk.injEq] at h
     obtain ⟨h1, h2⟩ := h
     subst h1
     subst h2
     rfl)

theorem typeFc_width_pos {vt : UTFTableValueType} {vsize : Nat} {fc : PackFc}
    (h : typeFc vt = some (vsize, fc)) :
    (∀ f, fc = .scal f → 0 < f.width) ∧ 0 < vsize := by
  cases vt
  case uint128 => simp [typeFc] at h
  all_goals
    (simp only [typeFc, Option.some.injEq, Prod.mk.injEq] at h
     obtain ⟨h1, h2⟩ := h
     subst h1
     subst h2
     refine ⟨?_, by decide⟩
     intro f hf
     first
       | (injection hf with hh
          subst hh
          decide)
       | simp at hf)

theorem typeTag_lt16 (vt : UTFTableValueType) : typeTag vt < 16 := by
  cases vt <;> decide

theorem typeOfTag_typeTag (vt : UTFTableValueType) :
    typeOfTag (typeTag vt) = some vt := by
  cases vt <;> rfl

theorem sliceAt_mono {l l' : List Nat} {pos w : Nat} (hp : l <+: l')
    (h : pos + w ≤ l.length) : sliceAt l' pos w = sliceAt l pos w := by
  obtain ⟨t, rfl⟩ := hp
  unfold sliceAt
  rw [List.drop_append_eq_append_drop, List.take_append_eq_append_take]
  have h1 : pos - l.length = 0 := by omega
  have h2 : w - (l.drop pos).length = 0 := by
    rw [List.length_drop]
    omega
  rw [h1, h2]
  simp

theorem drop_eq_slice_append {l : List Nat} {off m : Nat}
    (h : off + m ≤ l.length) :
    l.drop off = sliceAt l off m ++ l.drop (off + m) := by
  unfold sliceAt
  have hd : (l.drop off).drop m = l.drop (off + m) := by
    rw [List.drop_drop, Nat.add_comm]
  rw [← hd]
  exact (List.take_append_drop m (l.drop off)).symm

theorem pkChk_ok {w n : Nat} {l : List Nat} (h : pkChk w n = .ok l) :
    l = packBE w n ∧ n < 256 ^ w := by
  unfold pkChk at h
  cases hb : packBEChk w n with
  | none => rw [hb] at h; simp at h
  | some x =>
    rw [hb] at h
    simp only [Except.ok.injEq] at h
    unfold packBEChk at hb
    split at hb
    · simp only [Option.some.injEq] at hb
      subst h
      exact ⟨hb.symm, by assumption⟩
    · simp at hb

theorem rdBE_exact {a : List Nat} (x b : List Nat) {pos w : Nat}
    (hp : a.length = pos) (hw : x.length = w) :
    rdBE (a ++ (x ++ b)) pos w = .ok (beVal x) := by
  rw [rdBE, readAtChk_exact x b hp hw]

/-- Scalar encode/decode round trip: a value `struct.pack` accepted is
recovered exactly by the parser-side interpretation. -/
theorem readScal_packScalChk {f : ScalFmt} {i : Int} {l : List Nat}
    (hw : 0 < f.width) (h : packScalChk f i = some l) :
    ∃ n, l = packBE f.width n ∧ n < 256 ^ f.width ∧ readScal f n = i := by
  have hpow : (256 : Nat) ^ f.width = 2 ^ (8 * f.width) := by
    rw [Nat.pow_mul]
  have hsucc : 8 * f.width - 1 + 1 = 8 * f.width := by omega
  have hsplitN : (2 : Nat) ^ (8 * f.width) = 2 ^ (8 * f.width - 1) * 2 := by
    rw [← pow_succ, hsucc]
  have hsplitI : (2 : Int) ^ (8 * f.width) = 2 ^ (8 * f.width - 1) * 2 := by
    rw [← pow_succ, hsucc]
  have hcastI : ((2 ^ (8 * f.width - 1) : Nat) : Int) =
      (2 : Int) ^ (8 * f.width - 1) := by
    push_cast
    rfl
  have hcastW : ((2 ^ (8 * f.width) : Nat) : Int) =
      (2 : Int) ^ (8 * f.width) := by
    push_cast
    rfl
  have hposI : (0 : Int) < 2 ^ (8 * f.width - 1) := by positivity
  unfold packScalChk at h
  by_cases hs : f.sgn
  · rw [if_pos hs] at h
    split at h
    · rename_i hrange
      simp only [Option.some.injEq] at h
      refine ⟨(i.emod (2 ^ (8 * f.width))).toNat, h.symm, ?_, ?_⟩
      · have h0 : 0 ≤ i.emod (2 ^ (8 * f.width)) :=
          Int.emod_nonneg i (by positivity)
        have h1 : i.emod (2 ^ (8 * f.width)) < 2 ^ (8 * f.width) :=
          Int.emod_lt_of_pos i (by positivity)
        rw [hpow]
        omega
      · rcases Int.lt_or_le i 0 with hneg | hpos
        · have hmod : i.emod (2 ^ (8 * f.width)) = i + 2 ^ (8 * f.width) := by
            have he : (i + 2 ^ (8 * f.width)).emod (2 ^ (8 * f.width)) =
                i.emod (2 ^ (8 * f.width)) := by
              have h2 := Int.add_mul_emod_self_left (a := i)
                (b := (2 : Int) ^ (8 * f.width)) (c := 1)
              rw [mul_one] at h2
              exact h2
            rw [← he]
            exact Int.emod_eq_of_lt (by omega) (by omega)
          unfold readScal
          rw [if_pos ?hc]
          case hc =>
            refine ⟨hs, ?_⟩
            have : (2 : Int) ^ (8 * f.width - 1) ≤
                (i.emod (2 ^ (8 * f.width))) := by omega
            omega
          omega
        · have hmod : i.emod (2 ^ (8 * f.width)) = i :=
            Int.emod_eq_of_lt hpos (by omega)
          unfold readScal
          rw [if_neg ?hc]
          case hc =>
            intro hcon
            have := hcon.2
            omega
          omega
    · simp at h
  · rw [if_neg hs] at h
    split at h
    · rename_i hrange
      simp only [Option.some.injEq] at h
      refine ⟨i.toNat, h.symm, ?_, ?_⟩
      · rw [hpow]
        omega
      · unfold readScal
        rw [if_neg (fun hcon => hs hcon.1)]
        omega
    · simp at h

/-- What the builder leaves in the file for one cell of format `fc`,
relative to the final strings pool and blob region: enough to decode the
cell back.  Scalars are packed in place; strings are a pool offset; blobs
are an (offset, size) pair into the blob region. -/
def CellEnc (poolF binF : List Nat) : PackFc → List Nat → UTFCell → Prop
  | .scal f, enc, .cInt i =>
      ∃ n, enc = packBE f.width n ∧ n < 256 ^ f.width ∧ readScal f n = i
  | .strFc, enc, .cStr s =>
      ∃ off, enc = packBE 4 off ∧ off < 256 ^ 4 ∧
        off + s.length + 1 ≤ poolF.length ∧
        sliceAt poolF off (s.length + 1) = s ++ [0] ∧ NulFree s
  | .vldFc, enc, .cBlob bb =>
      ∃ off, enc = packBE 4 off ++ packBE 4 bb.length ∧ off < 256 ^ 4 ∧
        bb.length < 256 ^ 4 ∧ off + bb.length ≤ binF.length ∧
        sliceAt binF off bb.length = bb
  | _, _, _ => False

theorem CellEnc_mono {poolF binF poolG binG : List Nat} {fc : PackFc}
    {enc : List Nat} {cell : UTFCell} (hp : poolF <+: poolG)
    (hb : binF <+: binG) (h : CellEnc poolF binF fc enc cell) :
    CellEnc poolG binG fc enc cell := by
  cases fc with
  | scal f => cases cell <;> simp only [CellEnc] at h ⊢ <;> exact h
  | strFc =>
    cases cell <;> simp only [CellEnc] at h ⊢
    obtain ⟨off, he, hlt, hle, hsl, hnf⟩ := h
    refine ⟨off, he, hlt, le_trans hle hp.length_le, ?_, hnf⟩
    rw [sliceAt_mono hp (by omega)]
    exact hsl
  | vldFc =>
    cases cell <;> simp only [CellEnc] at h ⊢
    obtain ⟨off, he, hlt, hlt2, hle, hsl⟩ := h
    refine ⟨off, he, hlt, hlt2, le_trans hle hb.length_le, ?_⟩
    rw [sliceAt_mono hb (by omega)]
    exact hsl

/-- The invariant of the strings pool and its de-duplication map: every
recorded offset points at a NUL-terminated copy of its string, entirely
inside the pool. -/
def DictOK (pool : List Nat) (dict : List (List Nat × Nat)) : Prop :=
  ∀ kv ∈ dict, NulFree kv.1 ∧ kv.2 + kv.1.length + 1 ≤ pool.length ∧
    sliceAt pool kv.2 (kv.1.length + 1) = kv.1 ++ [0]

theorem dictFind_mem {d : List (List Nat × Nat)} {s : List Nat} {off : Nat}
    (h : dictFind d s = some off) : (s, off) ∈ d := by
  induction d with
  | nil => simp [dictFind] at h
  | cons kv rest ih =>
    unfold dictFind at h
    split at h
    · rename_i heq
      simp only [Option.some.injEq] at h
      cases kv with
      | mk k v =>
        simp only at heq h
        subst heq
        subst h
        exact List.mem_cons_self _ _
    · exact List.mem_cons_of_mem _ (ih h)

/-- `stringsAdd` preserves the pool invariant and returns an offset from
which the added string reads back, whether it was a de-duplication hit or a
fresh append. -/
theorem stringsAdd_spec {pool : List Nat} {dict : List (List Nat × Nat)}
    {s : List Nat} (hd : DictOK pool dict) (hs : NulFree s) :
    pool <+: (stringsAdd pool dict s).2.1 ∧
    DictOK (stringsAdd pool dict s).2.1 (stringsAdd pool dict s).2.2 ∧
    (stringsAdd pool dict s).1 + s.length + 1 ≤
      (stringsAdd pool dict s).2.1.length ∧
    sliceAt (stringsAdd pool dict s).2.1 (stringsAdd pool dict s).1
      (s.length + 1) = s ++ [0] := by
  unfold stringsAdd
  cases hf : dictFind dict s with
  | some off =>
    simp only
    have hm := hd _ (dictFind_mem hf)
    exact ⟨List.prefix_refl _, hd, hm.2.1, hm.2.2⟩
  | none =>
    simp only
    have hpre : pool <+: pool ++ s ++ [0] :=
      ⟨s ++ [0], (List.append_assoc pool s [0]).symm⟩
    have hself : sliceAt (pool ++ s ++ [0]) pool.length (s.length + 1) =
        s ++ [0] := by
      have h1 : pool ++ s ++ [0] = pool ++ ((s ++ [0]) ++ []) := by
        simp
      rw [h1, sliceAt_exact (s ++ [0]) [] rfl (by simp)]
    refine ⟨hpre, ?_, ?_, hself⟩
    · intro kv hkv
      rcases List.mem_cons.mp hkv with hnew | hold
      · subst hnew
        refine ⟨hs, by simp; omega, hself⟩
      · obtain ⟨hnf, hle, hsl⟩ := hd _ hold
        refine ⟨hnf, le_trans hle hpre.length_le, ?_⟩
        rw [sliceAt_mono hpre (by omega)]
        exact hsl
    · simp
      omega

/-- Reading a pool string from the assembled file: the strings region
starts at `strings_offset` and the recorded copy is NUL-terminated. -/
theorem stringDataGet_pool {bs : List Nat} {h : UTFHeader} {sz : UTFSizes}
    {poolF binF : List Nat} {off : Nat} {s : List Nat}
    (hdrop : bs.drop h.strings_offset = poolF ++ binF)
    (hss : sz.strings_size = poolF.length)
    (hb : off + s.length + 1 ≤ poolF.length)
    (hsl : sliceAt poolF off (s.length + 1) = s ++ [0])
    (hnf : NulFree s) :
    stringDataGet bs h sz off = .ok s := by
  unfold stringDataGet
  rw [if_neg (by omega)]
  have hd2 : bs.drop (h.strings_offset + off) = (poolF ++ binF).drop off := by
    rw [← hdrop, List.drop_drop, Nat.add_comm]
  have hd3 : (poolF ++ binF).drop off = poolF.drop off ++ binF := by
    rw [List.drop_append_eq_append_drop]
    have : off - poolF.length = 0 := by omega
    rw [this, List.drop_zero]
  have hd4 : poolF.drop off =
      (s ++ [0]) ++ poolF.drop (off + (s.length + 1)) := by
    rw [← hsl]
    exact drop_eq_slice_append (by omega)
  have hterm : readNulTerm bs (h.strings_offset + off) = some s := by
    rw [readNulTerm, hd2, hd3, hd4]
    have hshape : (s ++ [0]) ++ poolF.drop (off + (s.length + 1)) ++ binF =
        s ++ 0 :: (poolF.drop (off + (s.length + 1)) ++ binF) := by
      simp
    rw [hshape]
    exact takeUntilNul_exact _ hnf
  rw [hterm]

/-- Length of a flatten of equal-length slots. -/
theorem flatten_length_const {L : List (List Nat)} {rwv : Nat}
    (h : ∀ s ∈ L, s.length = rwv) : L.flatten.length = L.length * rwv := by
  induction L with
  | nil => simp
  | cons a L ih =>
    simp only [List.flatten_cons, List.length_append, List.length_cons]
    rw [ih (fun s hs => h s (List.mem_cons_of_mem a hs)),
        h a (List.mem_cons_self a L)]
    ring

/-- A slice inside slot `k` of a flatten of equal-width slots. -/
theorem flatten_slice {L : List (List Nat)} {rwv j w : Nat} {slot : List Nat}
    (hall : ∀ s ∈ L, s.length = rwv) (hjw : j + w ≤ rwv) :
    ∀ {k : Nat}, L[k]? = some slot →
      sliceAt L.flatten (k * rwv + j) w = sliceAt slot j w := by
  induction L with
  | nil => intro k hk; simp at hk
  | cons a L ih =>
    intro k hk
    cases k with
    | zero =>
      simp only [List.getElem?_cons_zero, Option.some.injEq] at hk
      have hlen : a.length = rwv := hall _ (List.mem_cons_self _ _)
      rw [List.flatten_cons, Nat.zero_mul, Nat.zero_add, ← hk]
      exact sliceAt_mono ⟨L.flatten, rfl⟩ (by omega)
    | succ k =>
      simp only [List.getElem?_cons_succ] at hk
      have hlen : a.length = rwv := hall _ (List.mem_cons_self _ _)
      have hpos : (k + 1) * rwv + j = a.length + (k * rwv + j) := by
        rw [hlen]
        ring
      rw [List.flatten_cons, hpos, sliceAt_shift]
      exact ih (fun s hs => hall s (List.mem_cons_of_mem a hs)) hk

/-- Decoding one built cell: if the bytes at `pos` are a `CellEnc` encoding
of `cell` relative to the file's strings pool and blob region, the parser's
cell read returns exactly `cell`. -/
theorem parseCellAt_enc {bs : List Nat} {h : UTFHeader} {sz : UTFSizes}
    {poolF binF : List Nat} {fc : PackFc} {enc : List Nat} {cell : UTFCell}
    {pos : Nat}
    (hslice : sliceAt bs pos (fcWidth fc) = enc)
    (hin : pos + fcWidth fc ≤ bs.length)
    (henc : CellEnc poolF binF fc enc cell)
    (hpool : bs.drop h.strings_offset = poolF ++ binF)
    (hss : sz.strings_size = poolF.length)
    (hbin : bs.drop h.data_offset = binF)
    (hds : sz.data_size = binF.length) :
    parseCellAt bs h sz fc pos = .ok cell := by
  cases fc with
  | scal f =>
    cases cell with
    | cStr s => simp [CellEnc] at henc
    | cBlob b => simp [CellEnc] at henc
    | cInt i =>
      obtain ⟨n, he, hlt, hrs⟩ := henc
      have hslicew : sliceAt bs pos f.width = enc := hslice
      have hinw : pos + f.width ≤ bs.length := hin
      have hr : readAtChk bs pos f.width = some n := by
        rw [readAtChk, if_pos hinw, hslicew, he, beVal_packBE hlt]
      unfold parseCellAt
      dsimp only
      rw [hr]
      dsimp only
      rw [hrs]
  | strFc =>
    cases cell with
    | cInt i => simp [CellEnc] at henc
    | cBlob b => simp [CellEnc] at henc
    | cStr s =>
      obtain ⟨off, he, hlt, hle, hsl, hnf⟩ := henc
      have hslicew : sliceAt bs pos 4 = enc := hslice
      have hinw : pos + 4 ≤ bs.length := hin
      have hr : readAtChk bs pos 4 = some off := by
        rw [readAtChk, if_pos hinw, hslicew, he, beVal_packBE hlt]
      unfold parseCellAt
      dsimp only
      rw [hr]
      dsimp only
      rw [stringDataGet_pool hpool hss hle hsl hnf]
      rfl
  | vldFc =>
    cases cell with
    | cInt i => simp [CellEnc] at henc
    | cStr s => simp [CellEnc] at henc
    | cBlob bb =>
      obtain ⟨off, he, hlt, hlt2, hle, hsl⟩ := henc
      have hslicew : sliceAt bs pos 8 = enc := hslice
      have hinw : pos + 8 ≤ bs.length := hin
      have hlen1 : (packBE 4 off).length = 4 := packBE_length _ _
      have hlen2 : (packBE 4 bb.length).length = 4 := packBE_length _ _
      have hdec : bs.drop pos = enc ++ bs.drop (pos + 8) := by
        rw [← hslicew]
        exact drop_eq_slice_append (by omega)
      have hx : bs.drop pos = packBE 4 off ++
          (packBE 4 bb.length ++ bs.drop (pos + 8)) := by
        rw [hdec, he]
        simp
      have ht1 : List.take 4 (packBE 4 off) = packBE 4 off :=
        List.take_of_length_le (le_of_eq hlen1)
      have ht2 : (4 : Nat) - (packBE 4 off).length = 0 := by
        rw [hlen1]
      have h1 : sliceAt bs pos 4 = packBE 4 off := by
        unfold sliceAt
        rw [hx, List.take_append_eq_append_take, ht1, ht2, List.take_zero,
            List.append_nil]
      have hdrop4 : List.drop 4 (packBE 4 off ++
          (packBE 4 bb.length ++ bs.drop (pos + 8))) =
          packBE 4 bb.length ++ bs.drop (pos + 8) := by
        have hdl := List.drop_left (packBE 4 off)
          (packBE 4 bb.length ++ bs.drop (pos + 8))
        rw [hlen1] at hdl
        exact hdl
      have ht3 : List.take 4 (packBE 4 bb.length) = packBE 4 bb.length :=
        List.take_of_length_le (le_of_eq hlen2)
      have ht4 : (4 : Nat) - (packBE 4 bb.length).length = 0 := by
        rw [hlen2]
      have h2 : sliceAt bs (pos + 4) 4 = packBE 4 bb.length := by
        unfold sliceAt
        have hd : List.drop (pos + 4) bs = (List.drop pos bs).drop 4 := by
          rw [List.drop_drop, Nat.add_comm]
        rw [hd, hx, hdrop4, List.take_append_eq_append_take, ht3, ht4,
            List.take_zero, List.append_nil]
      have hr1 : readAtChk bs pos 4 = some off := by
        rw [readAtChk, if_pos (by omega), h1, beVal_packBE hlt]
      have hr2 : readAtChk bs (pos + 4) 4 = some bb.length := by
        rw [readAtChk, if_pos (by omega), h2, beVal_packBE hlt2]
      unfold parseCellAt
      dsimp only
      rw [hr1, hr2]
      dsimp only
      unfold binaryDataGet
      rw [if_neg (by omega)]
      have hsl2 : sliceAt bs (h.data_offset + off) bb.length = bb := by
        unfold sliceAt
        have hd : List.drop (h.data_offset + off) bs =
            (List.drop h.data_offset bs).drop off := by
          rw [List.drop_drop, Nat.add_comm]
        rw [hd, hbin]
        exact hsl
      rw [hsl2]
      rfl

/-- The per-row read loop succeeds cell-wise: if every row's cell of this
column parses to the corresponding built value, the loop returns the
original per-row list. -/
theorem parseRowCells_forall {bs : List Nat} {h : UTFHeader} {sz : UTFSizes}
    {fc : PackFc} {colOff : Nat} :
    ∀ (cnt idx : Nat) (cells : List UTFCell),
      cells.length = cnt →
      (∀ k c, cells[k]? = some c →
        parseCellAt bs h sz fc
          (h.rows_offset + (idx + k) * h.row_width + colOff) = .ok c) →
      parseRowCells bs h sz fc colOff cnt idx = .ok cells := by
  intro cnt
  induction cnt with
  | zero =>
    intro idx cells hlen _
    cases cells with
    | nil => rfl
    | cons c cs => simp at hlen
  | succ n ih =>
    intro idx cells hlen hall
    cases cells with
    | nil => simp at hlen
    | cons c cs =>
      have h0 : parseCellAt bs h sz fc
          (h.rows_offset + idx * h.row_width + colOff) = .ok c := by
        have := hall 0 c (by simp)
        rw [Nat.add_zero] at this
        exact this
      have hrest : parseRowCells bs h sz fc colOff n (idx + 1) = .ok cs := by
        refine ih (idx + 1) cs (by simpa using hlen) ?_
        intro k c2 hk
        have := hall (k + 1) c2 (by simpa using hk)
        have harith : idx + (k + 1) = idx + 1 + k := by omega
        rw [harith] at this
        exact this
      unfold parseRowCells
      simp only [bind, Except.bind]
      rw [h0]
      simp only
      rw [hrest]

/-- A string cell must be NUL-free to survive the NUL-terminated pool
encoding; other cells are unconstrained. -/
def cellNulFree : UTFCell → Prop
  | .cStr s => NulFree s
  | _ => True

instance : (c : UTFCell) → Decidable (cellNulFree c)
  | .cInt _ => isTrue True.intro
  | .cStr s => inferInstanceAs (Decidable (NulFree s))
  | .cBlob _ => isTrue True.intro

def cellNulFreeOpt : Option UTFCell → Prop
  | some c => cellNulFree c
  | none => True

instance : (o : Option UTFCell) → Decidable (cellNulFreeOpt o)
  | some c => inferInstanceAs (Decidable (cellNulFree c))
  | none => isTrue True.intro

def rowsNulFree : Option (List UTFCell) → Prop
  | some l => ∀ c ∈ l, cellNulFree c
  | none => True

instance : (o : Option (List UTFCell)) → Decidable (rowsNulFree o)
  | some l => inferInstanceAs (Decidable (∀ c ∈ l, cellNulFree c))
  | none => isTrue True.intro

/-- The presence pattern the storage flag dictates on a column's data, plus
NUL-freedom of every string the column carries.  `dataFlag = 5` moreover
requires a non-empty table: the builder accepts a per-row column of an
empty table (its rows list is empty), but the written file then has
`row_width = 0` and parsing fails with the per-row bounds check. -/
def colShapeOK (rc : Nat) (c : UTFColumn) : Prop :=
  (c.dataFlag = 1 → c.columnDataConstant = none ∧ c.columnDataRows = none) ∧
  (c.dataFlag = 3 → c.columnDataRows = none) ∧
  (c.dataFlag = 5 → c.columnDataConstant = none ∧ 0 < rc) ∧
  NulFree c.columnName ∧
  cellNulFreeOpt c.columnDataConstant ∧
  rowsNulFree c.columnDataRows

instance (rc : Nat) (c : UTFColumn) : Decidable (colShapeOK rc c) :=
  inferInstanceAs (Decidable
    ((c.dataFlag = 1 → c.columnDataConstant = none ∧
        c.columnDataRows = none) ∧
     (c.dataFlag = 3 → c.columnDataRows = none) ∧
     (c.dataFlag = 5 → c.columnDataConstant = none ∧ 0 < rc) ∧
     NulFree c.columnName ∧
     cellNulFreeOpt c.columnDataConstant ∧
     rowsNulFree c.columnDataRows))

/-- The consistency hypotheses of the round trip: a NUL-free table name and
per-column shape consistency. -/
def ShapeOK (T : UTFTable) : Prop :=
  NulFree T.table_name ∧ ∀ c ∈ T.columns, colShapeOK T.rows_count c

instance (T : UTFTable) : Decidable (ShapeOK T) :=
  inferInstanceAs (Decidable
    (NulFree T.table_name ∧ ∀ c ∈ T.columns, colShapeOK T.rows_count c))

/-- What one constant-data emission leaves behind: the schema grows by one
`CellEnc` encoding of the constant cell, the pools only grow, and the row
buffers are untouched. -/
theorem buildConstPart_spec {fc : PackFc} {st : BuildSt} {col : UTFColumn}
    {st' : BuildSt} (h : buildConstPart fc st col = .ok st')
    (hd : DictOK st.strings_data st.strings_offset_dict)
    (hwpos : ∀ f, fc = .scal f → 0 < f.width)
    (hnf : cellNulFreeOpt col.columnDataConstant) :
    ∃ cell enc, col.columnDataConstant = some cell ∧
      st'.schema_data = st.schema_data ++ enc ∧
      enc.length = fcWidth fc ∧
      CellEnc st'.strings_data st'.binary_data fc enc cell ∧
      st.strings_data <+: st'.strings_data ∧
      DictOK st'.strings_data st'.strings_offset_dict ∧
      st.binary_data <+: st'.binary_data ∧
      st'.rows_data_list = st.rows_data_list := by
  unfold buildConstPart at h
  simp only [bind, Except.bind] at h
  cases hconst : col.columnDataConstant with
  | none => rw [hconst] at h; simp at h
  | some cell =>
    rw [hconst] at h
    dsimp only at h
    rw [hconst] at hnf
    cases fc with
    | strFc =>
      cases cell with
      | cInt i => simp at h
      | cBlob b => simp at h
      | cStr str =>
        dsimp only at h
        have hnfs : NulFree str := hnf
        obtain ⟨hpre, hdk, hle, hsl⟩ := stringsAdd_spec hd hnfs
        cases hpk : pkChk 4
            (stringsAdd st.strings_data st.strings_offset_dict str).1 with
        | error e => rw [hpk] at h; simp at h
        | ok b =>
          rw [hpk] at h
          dsimp only at h
          obtain ⟨hb, hblt⟩ := pkChk_ok hpk
          simp only [Except.ok.injEq] at h
          subst h
          refine ⟨.cStr str, b, rfl, rfl, by rw [hb, packBE_length]; rfl,
            ?_, hpre, hdk, List.prefix_refl _, rfl⟩
          exact ⟨_, hb, hblt, hle, hsl, hnfs⟩
    | vldFc =>
      cases cell with
      | cInt i => simp at h
      | cStr str => simp at h
      | cBlob bb =>
        dsimp only at h
        cases hpk1 : pkChk 4 st.binary_data.length with
        | error e => rw [hpk1] at h; simp at h
        | ok b1 =>
          rw [hpk1] at h
          dsimp only at h
          cases hpk2 : pkChk 4 bb.length with
          | error e => rw [hpk2] at h; simp at h
          | ok b2 =>
            rw [hpk2] at h
            dsimp only at h
            obtain ⟨hb1, hlt1⟩ := pkChk_ok hpk1
            obtain ⟨hb2, hlt2⟩ := pkChk_ok hpk2
            simp only [Except.ok.injEq] at h
            subst h
            refine ⟨.cBlob bb, b1 ++ b2, rfl, rfl,
              by rw [hb1, hb2]; simp [packBE_length, fcWidth],
              ?_, List.prefix_refl _, hd, ⟨bb, rfl⟩, rfl⟩
            refine ⟨st.binary_data.length, by rw [hb1, hb2], hlt1, hlt2,
              by simp, ?_⟩
            have hsh : st.binary_data ++ bb =
                st.binary_data ++ (bb ++ []) := by simp
            rw [hsh, sliceAt_exact bb [] rfl rfl]
    | scal f =>
      dsimp only at h
      cases cell with
      | cStr str => simp [pkScal] at h
      | cBlob b => simp [pkScal] at h
      | cInt i =>
        cases hps : packScalChk f i with
        | none => rw [pkScal, hps] at h; simp at h
        | some l =>
          rw [pkScal, hps] at h
          dsimp only at h
          simp only [Except.ok.injEq] at h
          subst h
          obtain ⟨n, hl, hlt, hrs⟩ :=
            readScal_packScalChk (hwpos f rfl) hps
          refine ⟨.cInt i, l, rfl, rfl, by rw [hl, packBE_length]; rfl,
            ⟨n, hl, hlt, hrs⟩, List.prefix_refl _, hd,
            List.prefix_refl _, rfl⟩

/-- The per-row string emission loop: pools only grow, the invariant is
kept, and each slot gains a 4-byte offset that decodes back to its cell. -/
theorem buildRowsStr_spec :
    ∀ (slots : List (List Nat)) (cells : List UTFCell) (pool : List Nat)
      (dict : List (List Nat × Nat))
      (res : List (List Nat) × List Nat × List (List Nat × Nat)),
      buildRowsStr pool dict slots cells = .ok res →
      DictOK pool dict →
      (∀ c ∈ cells, cellNulFree c) →
      pool <+: res.2.1 ∧ DictOK res.2.1 res.2.2 ∧
      res.1.length = slots.length ∧
      (∀ (k : Nat) (slot : List Nat), slots[k]? = some slot →
        ∃ enc cellr, cells[k]? = some cellr ∧
          res.1[k]? = some (slot ++ enc) ∧ enc.length = 4 ∧
          CellEnc res.2.1 [] .strFc enc cellr) := by
  intro slots
  induction slots with
  | nil =>
    intro cells pool dict res h hd hnf
    cases cells with
    | nil =>
      unfold buildRowsStr at h
      simp only [Except.ok.injEq] at h
      subst h
      refine ⟨List.prefix_refl _, hd, rfl, ?_⟩
      intro k slot hk
      simp at hk
    | cons c cs =>
      unfold buildRowsStr at h
      simp at h
  | cons slot ss ih =>
    intro cells pool dict res h hd hnf
    cases cells with
    | nil =>
      unfold buildRowsStr at h
      simp at h
    | cons c cs =>
      unfold buildRowsStr at h
      cases c with
      | cInt i => simp at h
      | cBlob b => simp at h
      | cStr s =>
        simp only [bind, Except.bind] at h
        have hnfs : NulFree s := hnf _ (List.mem_cons_self _ _)
        obtain ⟨hpre1, hd1, hle1, hsl1⟩ := stringsAdd_spec hd hnfs
        cases hpk : pkChk 4 (stringsAdd pool dict s).1 with
        | error e => rw [hpk] at h; simp at h
        | ok b =>
          rw [hpk] at h
          dsimp only at h
          cases hrest : buildRowsStr (stringsAdd pool dict s).2.1
              (stringsAdd pool dict s).2.2 ss cs with
          | error e => rw [hrest] at h; simp at h
          | ok rest =>
            rw [hrest] at h
            dsimp only at h
            simp only [Except.ok.injEq] at h
            subst h
            obtain ⟨hb, hblt⟩ := pkChk_ok hpk
            obtain ⟨hpre2, hd2, hlen2, hidx⟩ := ih cs _ _ rest hrest hd1
              (fun c hc => hnf c (List.mem_cons_of_mem _ hc))
            refine ⟨hpre1.trans hpre2, hd2, by simp [hlen2], ?_⟩
            intro k slotk hk
            cases k with
            | zero =>
              simp only [List.getElem?_cons_zero, Option.some.injEq] at hk
              refine ⟨b, .cStr s, by simp, by simp [hk],
                by rw [hb, packBE_length], ?_⟩
              refine ⟨_, hb, hblt, le_trans hle1 hpre2.length_le, ?_, hnfs⟩
              rw [sliceAt_mono hpre2 (by omega)]
              exact hsl1
            | succ k =>
              simp only [List.getElem?_cons_succ] at hk ⊢
              exact hidx k slotk hk

/-- The per-row blob emission loop: the blob pool only grows and each slot
gains an 8-byte (offset, size) pair that decodes back to its cell. -/
theorem buildRowsVld_spec :
    ∀ (slots : List (List Nat)) (cells : List UTFCell) (bin : List Nat)
      (res : List (List Nat) × List Nat),
      buildRowsVld bin slots cells = .ok res →
      bin <+: res.2 ∧
      res.1.length = slots.length ∧
      (∀ (k : Nat) (slot : List Nat), slots[k]? = some slot →
        ∃ enc cellr, cells[k]? = some cellr ∧
          res.1[k]? = some (slot ++ enc) ∧ enc.length = 8 ∧
          CellEnc [] res.2 .vldFc enc cellr) := by
  intro slots
  induction slots with
  | nil =>
    intro cells bin res h
    cases cells with
    | nil =>
      unfold buildRowsVld at h
      simp only [Except.ok.injEq] at h
      subst h
      refine ⟨List.prefix_refl _, rfl, ?_⟩
      intro k slot hk
      simp at hk
    | cons c cs =>
      unfold buildRowsVld at h
      simp at h
  | cons slot ss ih =>
    intro cells bin res h
    cases cells with
    | nil =>
      unfold buildRowsVld at h
      simp at h
    | cons c cs =>
      unfold buildRowsVld at h
      cases c with
      | cInt i => simp at h
      | cStr s => simp at h
      | cBlob bb =>
        simp only [bind, Except.bind] at h
        cases hpk1 : pkChk 4 bin.length with
        | error e => rw [hpk1] at h; simp at h
        | ok b1 =>
          rw [hpk1] at h
          dsimp only at h
          cases hpk2 : pkChk 4 bb.length with
          | error e => rw [hpk2] at h; simp at h
          | ok b2 =>
            rw [hpk2] at h
            dsimp only at h
            cases hrest : buildRowsVld (bin ++ bb) ss cs with
            | error e => rw [hrest] at h; simp at h
            | ok rest =>
              rw [hrest] at h
              dsimp only at h
              simp only [Except.ok.injEq] at h
              subst h
              obtain ⟨hb1, hlt1⟩ := pkChk_ok hpk1
              obtain ⟨hb2, hlt2⟩ := pkChk_ok hpk2
              obtain ⟨hpre2, hlen2, hidx⟩ := ih cs _ rest hrest
              have hpre0 : bin <+: bin ++ bb := ⟨bb, rfl⟩
              refine ⟨hpre0.trans hpre2, by simp [hlen2], ?_⟩
              intro k slotk hk
              cases k with
              | zero =>
                simp only [List.getElem?_cons_zero, Option.some.injEq] at hk
                refine ⟨b1 ++ b2, .cBlob bb, by simp, by simp [hk],
                  by rw [hb1, hb2]; simp [packBE_length], ?_⟩
                refine ⟨bin.length, by rw [hb1, hb2], hlt1, hlt2,
                  le_trans (by simp) hpre2.length_le, ?_⟩
                rw [sliceAt_mono hpre2 (by simp)]
                have hsh : bin ++ bb = bin ++ (bb ++ []) := by simp
                rw [hsh, sliceAt_exact bb [] rfl rfl]
              | succ k =>
                simp only [List.getElem?_cons_succ] at hk ⊢
                exact hidx k slotk hk

/-- The per-row scalar emission loop: each slot gains a packed scalar that
decodes back to its cell. -/
theorem buildRowsScal_spec {f : ScalFmt} (hw : 0 < f.width) :
    ∀ (slots : List (List Nat)) (cells : List UTFCell)
      (res : List (List Nat)),
      buildRowsScal f slots cells = .ok res →
      res.length = slots.length ∧
      (∀ (k : Nat) (slot : List Nat), slots[k]? = some slot →
        ∃ enc cellr, cells[k]? = some cellr ∧
          res[k]? = some (slot ++ enc) ∧ enc.length = f.width ∧
          CellEnc [] [] (.scal f) enc cellr) := by
  intro slots
  induction slots with
  | nil =>
    intro cells res h
    cases cells with
    | nil =>
      unfold buildRowsScal at h
      simp only [Except.ok.injEq] at h
      subst h
      refine ⟨rfl, ?_⟩
      intro k slot hk
      simp at hk
    | cons c cs =>
      unfold buildRowsScal at h
      simp at h
  | cons slot ss ih =>
    intro cells res h
    cases cells with
    | nil =>
      unfold buildRowsScal at h
      simp at h
    | cons c cs =>
      unfold buildRowsScal at h
      simp only [bind, Except.bind] at h
      cases c with
      | cStr s => simp [pkScal] at h
      | cBlob b => simp [pkScal] at h
      | cInt i =>
        cases hps : packScalChk f i with
        | none => rw [pkScal, hps] at h; simp at h
        | some l =>
          rw [pkScal, hps] at h
          dsimp only at h
          cases hrest : buildRowsScal f ss cs with
          | error e => rw [hrest] at h; simp at h
          | ok rest =>
            rw [hrest] at h
            dsimp only at h
            simp only [Except.ok.injEq] at h
            subst h
            obtain ⟨hlen2, hidx⟩ := ih cs rest hrest
            obtain ⟨n, hl, hlt, hrs⟩ := readScal_packScalChk hw hps
            refine ⟨by simp [hlen2], ?_⟩
            intro k slotk hk
            cases k with
            | zero =>
              simp only [List.getElem?_cons_zero, Option.some.injEq] at hk
              exact ⟨l, .cInt i, by simp, by simp [hk],
                by rw [hl, packBE_length], ⟨n, hl, hlt, hrs⟩⟩
            | succ k =>
              simp only [List.getElem?_cons_succ] at hk ⊢
              exact hidx k slotk hk

/-- The per-row emission dispatch: rows are present with the right count,
the schema is untouched, the pools only grow, and every slot gains a
`fcWidth fc`-byte encoding of its row cell. -/
theorem buildRowsPart_spec {rc : Nat} {fc : PackFc} {st : BuildSt}
    {col : UTFColumn} {st' : BuildSt}
    (h : buildRowsPart rc fc st col = .ok st')
    (hd : DictOK st.strings_data st.strings_offset_dict)
    (hnf : rowsNulFree col.columnDataRows)
    (hwpos : ∀ f, fc = .scal f → 0 < f.width) :
    ∃ rows, col.columnDataRows = some rows ∧ rows.length = rc ∧
      st'.schema_data = st.schema_data ∧
      st.strings_data <+: st'.strings_data ∧
      DictOK st'.strings_data st'.strings_offset_dict ∧
      st.binary_data <+: st'.binary_data ∧
      st'.rows_data_list.length = st.rows_data_list.length ∧
      (∀ (k : Nat) (slot : List Nat), st.rows_data_list[k]? = some slot →
        ∃ enc cellr, rows[k]? = some cellr ∧
          st'.rows_data_list[k]? = some (slot ++ enc) ∧
          enc.length = fcWidth fc ∧
          CellEnc st'.strings_data st'.binary_data fc enc cellr) := by
  unfold buildRowsPart at h
  simp only [bind, Except.bind] at h
  cases hrows : col.columnDataRows with
  | none => rw [hrows] at h; simp at h
  | some rows =>
    rw [hrows] at h
    dsimp only at h
    split at h
    · simp at h
    · rename_i hcnt
      push_neg at hcnt
      cases fc with
      | strFc =>
        dsimp only at h
        cases hbr : buildRowsStr st.strings_data st.strings_offset_dict
            st.rows_data_list rows with
        | error e => rw [hbr] at h; simp at h
        | ok r =>
          rw [hbr] at h
          dsimp only at h
          simp only [Except.ok.injEq] at h
          subst h
          rw [hrows] at hnf
          obtain ⟨hpre, hdk, hlen, hidx⟩ :=
            buildRowsStr_spec _ _ _ _ r hbr hd hnf
          refine ⟨rows, rfl, hcnt, rfl, hpre, hdk, List.prefix_refl _,
            hlen, ?_⟩
          intro k slot hk
          obtain ⟨enc, cellr, hc, hr, he, hce⟩ := hidx k slot hk
          exact ⟨enc, cellr, hc, hr, he,
            CellEnc_mono (List.prefix_refl _) List.nil_prefix hce⟩
      | vldFc =>
        dsimp only at h
        cases hbr : buildRowsVld st.binary_data st.rows_data_list rows with
        | error e => rw [hbr] at h; simp at h
        | ok r =>
          rw [hbr] at h
          dsimp only at h
          simp only [Except.ok.injEq] at h
          subst h
          obtain ⟨hpre, hlen, hidx⟩ := buildRowsVld_spec _ _ _ r hbr
          refine ⟨rows, rfl, hcnt, rfl, List.prefix_refl _, hd, hpre,
            hlen, ?_⟩
          intro k slot hk
          obtain ⟨enc, cellr, hc, hr, he, hce⟩ := hidx k slot hk
          exact ⟨enc, cellr, hc, hr, he,
            CellEnc_mono List.nil_prefix (List.prefix_refl _) hce⟩
      | scal f =>
        dsimp only at h
        cases hbr : buildRowsScal f st.rows_data_list rows with
        | error e => rw [hbr] at h; simp at h
        | ok r =>
          rw [hbr] at h
          dsimp only at h
          simp only [Except.ok.injEq] at h
          subst h
          obtain ⟨hlen, hidx⟩ := buildRowsScal_spec (hwpos f rfl) _ _ r hbr
          refine ⟨rows, rfl, hcnt, rfl, List.prefix_refl _, hd,
            List.prefix_refl _, hlen, ?_⟩
          intro k slot hk
          obtain ⟨enc, cellr, hc, hr, he, hce⟩ := hidx k slot hk
          exact ⟨enc, cellr, hc, hr, he,
            CellEnc_mono List.nil_prefix List.nil_prefix hce⟩

/-- What one column-loop iteration leaves behind: a 5-byte schema record
(info byte, name offset) plus an optional constant encoding; the name reads
back from the pool; pools only grow; per-row columns extend every row slot
by `vsize` bytes that decode back to the row cells. -/
theorem buildColumn_spec {rc : Nat} {st : BuildSt} {col : UTFColumn}
    {st1 : BuildSt} (h : buildColumn rc st col = .ok st1)
    (hd : DictOK st.strings_data st.strings_offset_dict)
    (hshape : colShapeOK rc col) :
    ∃ vsize fc noff constEnc,
      typeFc col.valueType = some (vsize, fc) ∧
      (col.dataFlag = 1 ∨ col.dataFlag = 3 ∨ col.dataFlag = 5) ∧
      col.dataFlag * 16 + typeTag col.valueType < 256 ∧
      st1.schema_data = st.schema_data ++
        (packBE 1 (col.dataFlag * 16 + typeTag col.valueType) ++
          (packBE 4 noff ++ constEnc)) ∧
      noff < 256 ^ 4 ∧
      noff + col.columnName.length + 1 ≤ st1.strings_data.length ∧
      sliceAt st1.strings_data noff (col.columnName.length + 1) =
        col.columnName ++ [0] ∧
      st.strings_data <+: st1.strings_data ∧
      st.binary_data <+: st1.binary_data ∧
      DictOK st1.strings_data st1.strings_offset_dict ∧
      st1.rows_data_list.length = st.rows_data_list.length ∧
      (col.dataFlag = 3 →
        ∃ cell, col.columnDataConstant = some cell ∧
          constEnc.length = vsize ∧
          CellEnc st1.strings_data st1.binary_data fc constEnc cell) ∧
      (col.dataFlag ≠ 3 → constEnc = [] ∧ col.columnDataConstant = none) ∧
      (col.dataFlag = 5 →
        ∃ rows, col.columnDataRows = some rows ∧ rows.length = rc ∧
          (∀ (k : Nat) (slot : List Nat),
            st.rows_data_list[k]? = some slot →
            ∃ enc cellr, rows[k]? = some cellr ∧
              st1.rows_data_list[k]? = some (slot ++ enc) ∧
              enc.length = vsize ∧
              CellEnc st1.strings_data st1.binary_data fc enc cellr)) ∧
      (col.dataFlag ≠ 5 → st1.rows_data_list = st.rows_data_list ∧
        col.columnDataRows = none) := by
  unfold buildColumn at h
  simp only [bind, Except.bind] at h
  obtain ⟨hs1, hs3, hs5, hname, hcellc, hcellr⟩ := hshape
  cases hpk1 : pkChk 1 (col.dataFlag * 16 + typeTag col.valueType) with
  | error e => rw [hpk1] at h; simp at h
  | ok infoB =>
    rw [hpk1] at h
    dsimp only at h
    obtain ⟨hinfoB, hinfoLt⟩ := pkChk_ok hpk1
    split at h
    · simp at h
    · rename_i hflag
      rw [not_not] at hflag
      cases htf : typeFc col.valueType with
      | none => rw [htf] at h; simp at h
      | some p =>
        rw [htf] at h
        dsimp only at h
        obtain ⟨vsize, fc⟩ := p
        dsimp only at h
        obtain ⟨hadd1, hadd2, hadd3, hadd4⟩ :=
          stringsAdd_spec hd hname
        cases hpk2 : pkChk 4
            (stringsAdd st.strings_data st.strings_offset_dict
              col.columnName).1 with
        | error e => rw [hpk2] at h; simp at h
        | ok nb =>
          rw [hpk2] at h
          dsimp only at h
          obtain ⟨hnb, hnbLt⟩ := pkChk_ok hpk2
          have hwpos := (typeFc_width_pos htf).1
          rcases hflag with hf | hf | hf
          · -- dataFlag = 1: no constant, no rows
            rw [hf] at h
            rw [if_neg (by decide)] at h
            dsimp only at h
            rw [if_neg (by decide)] at h
            dsimp only at h
            simp only [Except.ok.injEq] at h
            subst h
            refine ⟨vsize, fc, _, [], rfl, by rw [hf]; left; rfl,
              by rw [hf]; have := typeTag_lt16 col.valueType; omega,
              ?_, hnbLt, hadd3, hadd4, hadd1, List.prefix_refl _,
              hadd2, rfl, ?_, ?_, ?_, ?_⟩
            · rw [hinfoB, hnb]
              simp [List.append_assoc]
            · intro hc; rw [hf] at hc; simp at hc
            · intro hc
              exact ⟨rfl, (hs1 hf).1⟩
            · intro hc; rw [hf] at hc; simp at hc
            · intro hc
              exact ⟨rfl, (hs1 hf).2⟩
          · -- dataFlag = 3: a constant, no rows
            rw [hf] at h
            rw [if_pos rfl] at h
            cases hbc : buildConstPart fc
                { schema_data := st.schema_data ++ infoB ++ nb,
                  rows_data_list := st.rows_data_list,
                  strings_data := (stringsAdd st.strings_data
                    st.strings_offset_dict col.columnName).2.1,
                  strings_offset_dict := (stringsAdd st.strings_data
                    st.strings_offset_dict col.columnName).2.2,
                  binary_data := st.binary_data } col with
            | error e => rw [hbc] at h; simp at h
            | ok st3 =>
              rw [hbc] at h
              dsimp only at h
              rw [if_neg (by decide)] at h
              dsimp only at h
              simp only [Except.ok.injEq] at h
              subst h
              obtain ⟨cell, constEnc, hcell, hsch3, hlen3, hce3, hpre3,
                hdk3, hbin3, hrows3⟩ :=
                buildConstPart_spec hbc hadd2 hwpos hcellc
              have hpre3p : (stringsAdd st.strings_data
                  st.strings_offset_dict col.columnName).2.1 <+:
                  st3.strings_data := hpre3
              refine ⟨vsize, fc, _, constEnc, rfl, by rw [hf]; right; left; rfl,
                by rw [hf]; have := typeTag_lt16 col.valueType; omega,
                ?_, hnbLt, ?_, ?_, hadd1.trans hpre3, hbin3, hdk3,
                by rw [hrows3], ?_, ?_, ?_, ?_⟩
              · rw [hsch3]
                dsimp only
                rw [hinfoB, hnb]
                simp [List.append_assoc]
              · exact le_trans hadd3 hpre3.length_le
              · rw [sliceAt_mono hpre3p (by omega)]
                exact hadd4
              · intro hc
                exact ⟨cell, hcell, by rw [hlen3, typeFc_fcWidth htf], hce3⟩
              · intro hc; rw [hf] at hc; simp at hc
              · intro hc; rw [hf] at hc; simp at hc
              · intro hc
                exact ⟨hrows3, hs3 hf⟩
          · -- dataFlag = 5: per-row data, no constant
            rw [hf] at h
            rw [if_neg (by decide)] at h
            dsimp only at h
            rw [if_pos rfl] at h
            cases hbr : buildRowsPart rc fc
                { schema_data := st.schema_data ++ infoB ++ nb,
                  rows_data_list := st.rows_data_list,
                  strings_data := (stringsAdd st.strings_data
                    st.strings_offset_dict col.columnName).2.1,
                  strings_offset_dict := (stringsAdd st.strings_data
                    st.strings_offset_dict col.columnName).2.2,
                  binary_data := st.binary_data } col with
            | error e => rw [hbr] at h; simp at h
            | ok st4 =>
              rw [hbr] at h
              dsimp only at h
              simp only [Except.ok.injEq] at h
              subst h
              obtain ⟨rows, hrows, hrc, hsch4, hpre4, hdk4, hbin4,
                hlen4, hidx4⟩ :=
                buildRowsPart_spec hbr hadd2 hcellr hwpos
              have hpre4p : (stringsAdd st.strings_data
                  st.strings_offset_dict col.columnName).2.1 <+:
                  st4.strings_data := hpre4
              refine ⟨vsize, fc, _, [], rfl, by rw [hf]; right; right; rfl,
                by rw [hf]; have := typeTag_lt16 col.valueType; omega,
                ?_, hnbLt, ?_, ?_, hadd1.trans hpre4, hbin4, hdk4,
                hlen4, ?_, ?_, ?_, ?_⟩
              · rw [hsch4]
                dsimp only
                rw [hinfoB, hnb]
                simp [List.append_assoc]
              · exact le_trans hadd3 hpre4.length_le
              · rw [sliceAt_mono hpre4p (by omega)]
                exact hadd4
              · intro hc; rw [hf] at hc; simp at hc
              · intro hc
                exact ⟨rfl, (hs5 hf).1⟩
              · intro hc
                refine ⟨rows, hrows, hrc, ?_⟩
                intro k slot hk
                obtain ⟨enc, cellr, hc1, hc2, hc3, hc4⟩ := hidx4 k slot hk
                exact ⟨enc, cellr, hc1, hc2,
                  by rw [hc3, typeFc_fcWidth htf], hc4⟩
              · intro hc; rw [hf] at hc; simp at hc

/-- Monotonicity of the builder state: every buffer of the earlier state is
a prefix of the final state's buffer (row slots pointwise). -/
def StMono (st stF : BuildSt) : Prop :=
  st.schema_data <+: stF.schema_data ∧
  st.strings_data <+: stF.strings_data ∧
  st.binary_data <+: stF.binary_data ∧
  st.rows_data_list.length = stF.rows_data_list.length ∧
  (∀ (k : Nat) (s : List Nat), st.rows_data_list[k]? = some s →
    ∃ s', stF.rows_data_list[k]? = some s' ∧ s <+: s')

/-- The heart of the round trip: the schema walk of `utfParse` recovers,
column by column, exactly the columns the builder's column loop emitted. -/
theorem buildCols_parse
    {bs : List Nat} {h : UTFHeader} {sz : UTFSizes} {stF : BuildSt}
    {rc : Nat} {pre : List Nat}
    (hrowsF : 0 < rc → ∀ s ∈ stF.rows_data_list, s.length = h.row_width)
    (hrc : h.rows_count = rc)
    (hpre : pre.length = 0x20)
    (hro : h.rows_offset = 0x20 + stF.schema_data.length)
    (hbs : bs = pre ++ (stF.schema_data ++ (stF.rows_data_list.flatten ++
      (stF.strings_data ++ stF.binary_data))))
    (hdropR : bs.drop h.rows_offset = stF.rows_data_list.flatten ++
      (stF.strings_data ++ stF.binary_data))
    (hdropP : bs.drop h.strings_offset =
      stF.strings_data ++ stF.binary_data)
    (hdropB : bs.drop h.data_offset = stF.binary_data)
    (hblen : bs.length = 0x20 + stF.schema_data.length +
      (stF.rows_data_list.flatten.length +
        (stF.strings_data.length + stF.binary_data.length)))
    (hszv : sz = ⟨stF.schema_data.length, stF.rows_data_list.flatten.length,
      stF.strings_data.length, stF.binary_data.length⟩) :
    ∀ (cs : List UTFColumn) (st : BuildSt) (oir : Nat),
      buildCols rc st cs = .ok stF →
      DictOK st.strings_data st.strings_offset_dict →
      (∀ c ∈ cs, colShapeOK rc c) →
      st.rows_data_list.length = rc →
      (∀ (k : Nat) (s : List Nat),
        st.rows_data_list[k]? = some s → s.length = oir) →
      StMono st stF ∧
      parseColsAux bs h sz cs.length (0x20 + st.schema_data.length) oir =
        .ok cs := by
  subst hszv
  intro cs
  induction cs with
  | nil =>
    intro st oir h0 hd hsh hlen hslot
    unfold buildCols at h0
    simp only [Except.ok.injEq] at h0
    subst h0
    exact ⟨⟨List.prefix_refl _, List.prefix_refl _, List.prefix_refl _, rfl,
      fun k s hk => ⟨s, hk, List.prefix_refl _⟩⟩, rfl⟩
  | cons c cs ih =>
    intro st oir h0 hd hsh hlen hslot
    obtain ⟨cf, cvt, cnm, ccon, crows⟩ := c
    unfold buildCols at h0
    cases hbc : buildColumn rc st ⟨cf, cvt, cnm, ccon, crows⟩ with
    | error e => rw [hbc] at h0; simp at h0
    | ok st1 =>
      rw [hbc] at h0
      dsimp only at h0
      have hshape0 := hsh _ (List.mem_cons_self _ _)
      obtain ⟨vsize, fc, noff, cE, htf, hflag, hinfoLt, hsch1, hnoffLt,
        hnoffB, hnoffSl, hpoolPre, hbinPre, hdk1, hrlen1, hc3, hc3n, hc5,
        hc5n⟩ := buildColumn_spec hbc hd hshape0
      dsimp only at htf hflag hinfoLt hsch1 hnoffB hnoffSl hc3 hc3n hc5 hc5n
      have hfw : fcWidth fc = vsize := typeFc_fcWidth htf
      have hvpos : 0 < vsize := (typeFc_width_pos htf).2
      have hlen1 : st1.rows_data_list.length = rc := by rw [hrlen1, hlen]
      have hsch1len : st1.schema_data.length =
          st.schema_data.length + (1 + (4 + cE.length)) := by
        rw [hsch1]
        simp [packBE_length]
      have hshapes1 : ∀ c' ∈ cs, colShapeOK rc c' :=
        fun c' hc' => hsh c' (List.mem_cons_of_mem _ hc')
      have hinfoLt1 : cf * 16 + typeTag cvt < 256 ^ 1 := by
        simpa using hinfoLt
      have htag := typeTag_lt16 cvt
      have hdiv : (cf * 16 + typeTag cvt) / 16 = cf := by omega
      have hmod : (cf * 16 + typeTag cvt) % 16 = typeTag cvt := by omega
      have hA : (pre ++ st.schema_data).length =
          0x20 + st.schema_data.length := by
        simp [hpre]
      -- the head column's chunk, located inside the final file
      rcases hflag with hf | hf | hf
      all_goals subst hf
      -- dataFlag = 1 ------------------------------------------------------
      · obtain ⟨hcE, hconstN⟩ := hc3n (by decide)
        subst hcE
        obtain ⟨hrowsEq, hrowsN⟩ := hc5n (by decide)
        try dsimp only at hconstN hrowsN
        subst hconstN
        subst hrowsN
        have hslot1 : ∀ (k : Nat) (s : List Nat),
            st1.rows_data_list[k]? = some s → s.length = oir := by
          intro k s hk
          rw [hrowsEq] at hk
          exact hslot k s hk
        obtain ⟨hmonoT, hparseT⟩ := ih st1 oir h0 hdk1 hshapes1 hlen1 hslot1
        obtain ⟨ext, hext⟩ := hmonoT.1
        have hschFlen : st.schema_data.length + (1 + (4 + ([] : List Nat).length)) ≤
            stF.schema_data.length := by
          have := hmonoT.1.length_le
          omega
        have hbs1 : bs = (pre ++ st.schema_data) ++
            (packBE 1 (1 * 16 + typeTag cvt) ++
              (packBE 4 noff ++ (ext ++ (stF.rows_data_list.flatten ++
                (stF.strings_data ++ stF.binary_data))))) := by
          rw [hbs, ← hext, hsch1]
          simp [List.append_assoc]
        have hinfoRead : rdBE bs (0x20 + st.schema_data.length) 1 =
            .ok (1 * 16 + typeTag cvt) := by
          have h1 := rdBE_exact (a := pre ++ st.schema_data)
            (packBE 1 (1 * 16 + typeTag cvt))
            (packBE 4 noff ++ (ext ++ (stF.rows_data_list.flatten ++
              (stF.strings_data ++ stF.binary_data))))
            hA (packBE_length _ _)
          rw [← hbs1] at h1
          rw [h1, beVal_packBE hinfoLt1]
        have hbs2 : bs = ((pre ++ st.schema_data) ++
            packBE 1 (1 * 16 + typeTag cvt)) ++
            (packBE 4 noff ++ (ext ++ (stF.rows_data_list.flatten ++
              (stF.strings_data ++ stF.binary_data)))) := by
          rw [hbs1]
          simp [List.append_assoc]
        have hA2 : ((pre ++ st.schema_data) ++
            packBE 1 (1 * 16 + typeTag cvt)).length =
            0x20 + st.schema_data.length + 1 := by
          simp [hpre, packBE_length]
          omega
        have hnameRead : rdBE bs (0x20 + st.schema_data.length + 1) 4 =
            .ok noff := by
          have h1 := rdBE_exact
            (a := (pre ++ st.schema_data) ++ packBE 1 (1 * 16 + typeTag cvt))
            (packBE 4 noff)
            (ext ++ (stF.rows_data_list.flatten ++
              (stF.strings_data ++ stF.binary_data)))
            hA2 (packBE_length _ _)
          rw [← hbs2] at h1
          rw [h1, beVal_packBE hnoffLt]
        have hnoffBF : noff + cnm.length + 1 ≤ stF.strings_data.length :=
          le_trans hnoffB hmonoT.2.1.length_le
        have hnoffSlF : sliceAt stF.strings_data noff (cnm.length + 1) =
            cnm ++ [0] := by
          rw [sliceAt_mono hmonoT.2.1 (by omega)]
          exact hnoffSl
        have hnameGet : stringDataGet bs h
            ⟨stF.schema_data.length, stF.rows_data_list.flatten.length,
              stF.strings_data.length, stF.binary_data.length⟩ noff =
            .ok cnm :=
          stringDataGet_pool hdropP rfl hnoffBF hnoffSlF hshape0.2.2.2.1
        have hpc : parseColumn bs h
            ⟨stF.schema_data.length, stF.rows_data_list.flatten.length,
              stF.strings_data.length, stF.binary_data.length⟩
            (0x20 + st.schema_data.length) oir =
            .ok (⟨1, cvt, cnm, none, none⟩,
              0x20 + st.schema_data.length + 5, oir) := by
          unfold parseColumn
          dsimp only
          rw [if_neg (by omega)]
          simp only [bind, Except.bind]
          rw [hinfoRead]
          dsimp only
          rw [hnameRead]
          dsimp only
          rw [hmod, typeOfTag_typeTag]
          dsimp only
          rw [hdiv]
          rw [if_neg (by decide)]
          rw [htf]
          dsimp only
          rw [hnameGet]
          dsimp only
          rw [if_neg (by decide)]
          try dsimp only
          try rw [if_neg (by decide)]
          try dsimp only
          try rfl
        refine ⟨?_, ?_⟩
        · refine ⟨List.IsPrefix.trans ⟨_, hsch1.symm⟩ hmonoT.1,
            hpoolPre.trans hmonoT.2.1, hbinPre.trans hmonoT.2.2.1,
            by rw [← hrlen1]; exact hmonoT.2.2.2.1, ?_⟩
          intro k s hk
          rw [← hrowsEq] at hk
          exact hmonoT.2.2.2.2 k s hk
        · simp only [List.length_cons]
          unfold parseColsAux
          simp only [bind, Except.bind]
          rw [hpc]
          dsimp only
          have hoffEq : 0x20 + st.schema_data.length + 5 =
              0x20 + st1.schema_data.length := by
            simp only [List.length_nil] at hsch1len
            omega
          rw [hoffEq, hparseT]
      -- dataFlag = 3 ------------------------------------------------------
      · obtain ⟨cell, hcell, hcElen, hcEenc⟩ := hc3 rfl
        try dsimp only at hcEenc
        subst hcell
        obtain ⟨hrowsEq, hrowsN⟩ := hc5n (by decide)
        try dsimp only at hrowsN
        subst hrowsN
        have hslot1 : ∀ (k : Nat) (s : List Nat),
            st1.rows_data_list[k]? = some s → s.length = oir := by
          intro k s hk
          rw [hrowsEq] at hk
          exact hslot k s hk
        obtain ⟨hmonoT, hparseT⟩ := ih st1 oir h0 hdk1 hshapes1 hlen1 hslot1
        obtain ⟨ext, hext⟩ := hmonoT.1
        have hschFlen : st.schema_data.length + (1 + (4 + cE.length)) ≤
            stF.schema_data.length := by
          have := hmonoT.1.length_le
          omega
        have hbs1 : bs = (pre ++ st.schema_data) ++
            (packBE 1 (3 * 16 + typeTag cvt) ++
              (packBE 4 noff ++ (cE ++ (ext ++
                (stF.rows_data_list.flatten ++
                  (stF.strings_data ++ stF.binary_data)))))) := by
          rw [hbs, ← hext, hsch1]
          simp [List.append_assoc]
        have hinfoRead : rdBE bs (0x20 + st.schema_data.length) 1 =
            .ok (3 * 16 + typeTag cvt) := by
          have h1 := rdBE_exact (a := pre ++ st.schema_data)
            (packBE 1 (3 * 16 + typeTag cvt))
            (packBE 4 noff ++ (cE ++ (ext ++
              (stF.rows_data_list.flatten ++
                (stF.strings_data ++ stF.binary_data)))))
            hA (packBE_length _ _)
          rw [← hbs1] at h1
          rw [h1, beVal_packBE hinfoLt1]
        have hbs2 : bs = ((pre ++ st.schema_data) ++
            packBE 1 (3 * 16 + typeTag cvt)) ++
            (packBE 4 noff ++ (cE ++ (ext ++
              (stF.rows_data_list.flatten ++
                (stF.strings_data ++ stF.binary_data))))) := by
          rw [hbs1]
          simp [List.append_assoc]
        have hA2 : ((pre ++ st.schema_data) ++
            packBE 1 (3 * 16 + typeTag cvt)).length =
            0x20 + st.schema_data.length + 1 := by
          simp [hpre, packBE_length]
          omega
        have hnameRead : rdBE bs (0x20 + st.schema_data.length + 1) 4 =
            .ok noff := by
          have h1 := rdBE_exact
            (a := (pre ++ st.schema_data) ++ packBE 1 (3 * 16 + typeTag cvt))
            (packBE 4 noff)
            (cE ++ (ext ++ (stF.rows_data_list.flatten ++
              (stF.strings_data ++ stF.binary_data))))
            hA2 (packBE_length _ _)
          rw [← hbs2] at h1
          rw [h1, beVal_packBE hnoffLt]
        have hnoffBF : noff + cnm.length + 1 ≤ stF.strings_data.length :=
          le_trans hnoffB hmonoT.2.1.length_le
        have hnoffSlF : sliceAt stF.strings_data noff (cnm.length + 1) =
            cnm ++ [0] := by
          rw [sliceAt_mono hmonoT.2.1 (by omega)]
          exact hnoffSl
        have hnameGet : stringDataGet bs h
            ⟨stF.schema_data.length, stF.rows_data_list.flatten.length,
              stF.strings_data.length, stF.binary_data.length⟩ noff =
            .ok cnm :=
          stringDataGet_pool hdropP rfl hnoffBF hnoffSlF hshape0.2.2.2.1
        have hbs3 : bs = (((pre ++ st.schema_data) ++
            packBE 1 (3 * 16 + typeTag cvt)) ++ packBE 4 noff) ++
            (cE ++ (ext ++ (stF.rows_data_list.flatten ++
              (stF.strings_data ++ stF.binary_data)))) := by
          rw [hbs2]
          simp [List.append_assoc]
        have hA3 : (((pre ++ st.schema_data) ++
            packBE 1 (3 * 16 + typeTag cvt)) ++ packBE 4 noff).length =
            0x20 + st.schema_data.length + 5 := by
          simp [hpre, packBE_length]
          omega
        have hcEw : cE.length = fcWidth fc := by
          rw [hcElen, hfw]
        have hslice : sliceAt bs (0x20 + st.schema_data.length + 5)
            (fcWidth fc) = cE := by
          have h1 := sliceAt_exact
            (a := ((pre ++ st.schema_data) ++
              packBE 1 (3 * 16 + typeTag cvt)) ++ packBE 4 noff)
            cE
            (ext ++ (stF.rows_data_list.flatten ++
              (stF.strings_data ++ stF.binary_data)))
            hA3 hcEw
          rw [← hbs3] at h1
          exact h1
        have hin : 0x20 + st.schema_data.length + 5 + fcWidth fc ≤
            bs.length := by
          rw [hfw]
          omega
        have hconstCell : parseCellAt bs h
            ⟨stF.schema_data.length, stF.rows_data_list.flatten.length,
              stF.strings_data.length, stF.binary_data.length⟩ fc
            (0x20 + st.schema_data.length + 5) = .ok cell :=
          parseCellAt_enc hslice hin
            (CellEnc_mono hmonoT.2.1 hmonoT.2.2.1 hcEenc)
            hdropP rfl hdropB rfl
        have hpc : parseColumn bs h
            ⟨stF.schema_data.length, stF.rows_data_list.flatten.length,
              stF.strings_data.length, stF.binary_data.length⟩
            (0x20 + st.schema_data.length) oir =
            .ok (⟨3, cvt, cnm, some cell, none⟩,
              0x20 + st.schema_data.length + 5 + vsize, oir) := by
          unfold parseColumn
          dsimp only
          rw [if_neg (by omega)]
          simp only [bind, Except.bind]
          rw [hinfoRead]
          dsimp only
          rw [hnameRead]
          dsimp only
          rw [hmod, typeOfTag_typeTag]
          dsimp only
          rw [hdiv]
          rw [if_neg (by decide)]
          rw [htf]
          dsimp only
          rw [hnameGet]
          dsimp only
          rw [if_pos rfl]
          rw [if_neg (by omega)]
          try simp only [bind, Except.bind]
          rw [hconstCell]
          dsimp only
          try rw [if_neg (by decide)]
          try dsimp only
          try rfl
        refine ⟨?_, ?_⟩
        · refine ⟨List.IsPrefix.trans ⟨_, hsch1.symm⟩ hmonoT.1,
            hpoolPre.trans hmonoT.2.1, hbinPre.trans hmonoT.2.2.1,
            by rw [← hrlen1]; exact hmonoT.2.2.2.1, ?_⟩
          intro k s hk
          rw [← hrowsEq] at hk
          exact hmonoT.2.2.2.2 k s hk
        · simp only [List.length_cons]
          unfold parseColsAux
          simp only [bind, Except.bind]
          rw [hpc]
          dsimp only
          have hoffEq : 0x20 + st.schema_data.length + 5 + vsize =
              0x20 + st1.schema_data.length := by
            omega
          rw [hoffEq, hparseT]
      -- dataFlag = 5 ------------------------------------------------------
      · obtain ⟨hcE, hconstN⟩ := hc3n (by decide)
        subst hcE
        try dsimp only at hconstN
        subst hconstN
        obtain ⟨rows, hrows, hrcnt, hidx⟩ := hc5 rfl
        try dsimp only at hrows
        subst hrows
        have hrcpos : 0 < rc := (hshape0.2.2.1 rfl).2
        have hrowsF5 := hrowsF hrcpos
        have hslot1 : ∀ (k : Nat) (s : List Nat),
            st1.rows_data_list[k]? = some s → s.length = oir + vsize := by
          intro k s hk
          have hklt : k < st.rows_data_list.length := by
            by_contra hcon
            push_neg at hcon
            have hcon2 : st1.rows_data_list.length ≤ k := by omega
            rw [List.getElem?_eq_none hcon2] at hk
            simp at hk
          have hsk : st.rows_data_list[k]? =
              some st.rows_data_list[k] := List.getElem?_eq_getElem hklt
          obtain ⟨enc, cellr, hg1, hg2, hg3, hg4⟩ := hidx k _ hsk
          rw [hk] at hg2
          simp only [Option.some.injEq] at hg2
          subst hg2
          have hso := hslot k _ hsk
          simp [List.length_append, hso, hg3]
        obtain ⟨hmonoT, hparseT⟩ := ih st1 (oir + vsize) h0 hdk1 hshapes1
          hlen1 hslot1
        have hNlen : st1.rows_data_list.length =
            stF.rows_data_list.length := hmonoT.2.2.2.1
        obtain ⟨ext, hext⟩ := hmonoT.1
        have hschFlen : st.schema_data.length +
            (1 + (4 + ([] : List Nat).length)) ≤
            stF.schema_data.length := by
          have := hmonoT.1.length_le
          omega
        have hbs1 : bs = (pre ++ st.schema_data) ++
            (packBE 1 (5 * 16 + typeTag cvt) ++
              (packBE 4 noff ++ (ext ++ (stF.rows_data_list.flatten ++
                (stF.strings_data ++ stF.binary_data))))) := by
          rw [hbs, ← hext, hsch1]
          simp [List.append_assoc]
        have hinfoRead : rdBE bs (0x20 + st.schema_data.length) 1 =
            .ok (5 * 16 + typeTag cvt) := by
          have h1 := rdBE_exact (a := pre ++ st.schema_data)
            (packBE 1 (5 * 16 + typeTag cvt))
            (packBE 4 noff ++ (ext ++ (stF.rows_data_list.flatten ++
              (stF.strings_data ++ stF.binary_data))))
            hA (packBE_length _ _)
          rw [← hbs1] at h1
          rw [h1, beVal_packBE hinfoLt1]
        have hbs2 : bs = ((pre ++ st.schema_data) ++
            packBE 1 (5 * 16 + typeTag cvt)) ++
            (packBE 4 noff ++ (ext ++ (stF.rows_data_list.flatten ++
              (stF.strings_data ++ stF.binary_data)))) := by
          rw [hbs1]
          simp [List.append_assoc]
        have hA2 : ((pre ++ st.schema_data) ++
            packBE 1 (5 * 16 + typeTag cvt)).length =
            0x20 + st.schema_data.length + 1 := by
          simp [hpre, packBE_length]
          omega
        have hnameRead : rdBE bs (0x20 + st.schema_data.length + 1) 4 =
            .ok noff := by
          have h1 := rdBE_exact
            (a := (pre ++ st.schema_data) ++ packBE 1 (5 * 16 + typeTag cvt))
            (packBE 4 noff)
            (ext ++ (stF.rows_data_list.flatten ++
              (stF.strings_data ++ stF.binary_data)))
            hA2 (packBE_length _ _)
          rw [← hbs2] at h1
          rw [h1, beVal_packBE hnoffLt]
        have hnoffBF : noff + cnm.length + 1 ≤ stF.strings_data.length :=
          le_trans hnoffB hmonoT.2.1.length_le
        have hnoffSlF : sliceAt stF.strings_data noff (cnm.length + 1) =
            cnm ++ [0] := by
          rw [sliceAt_mono hmonoT.2.1 (by omega)]
          exact hnoffSl
        have hnameGet : stringDataGet bs h
            ⟨stF.schema_data.length, stF.rows_data_list.flatten.length,
              stF.strings_data.length, stF.binary_data.length⟩ noff =
            .ok cnm :=
          stringDataGet_pool hdropP rfl hnoffBF hnoffSlF hshape0.2.2.2.1
        -- row-width bound via slot 0
        have hs0lt : 0 < st.rows_data_list.length := by omega
        have hsk0 : st.rows_data_list[0]? =
            some st.rows_data_list[0] := List.getElem?_eq_getElem hs0lt
        obtain ⟨enc0, cellr0, hz1, hz2, hz3, hz4⟩ := hidx 0 _ hsk0
        obtain ⟨sF0, hsF0, hp0⟩ := hmonoT.2.2.2.2 0 _ hz2
        have hsF0len : sF0.length = h.row_width := by
          have hmem : sF0 ∈ stF.rows_data_list := by
            have := List.getElem?_eq_some.mp hsF0
            obtain ⟨hlt, heq⟩ := this
            rw [← heq]
            exact List.getElem_mem _
          exact hrowsF5 _ hmem
        have hoirW : oir + vsize ≤ h.row_width := by
          have h1 := hp0.length_le
          have h2 := hslot 0 _ hsk0
          simp only [List.length_append] at h1
          omega
        have hflatlen : stF.rows_data_list.flatten.length =
            stF.rows_data_list.length * h.row_width :=
          flatten_length_const hrowsF5
        -- reading one row cell of this column from the file
        have hrowSlice : ∀ (k : Nat) (sF : List Nat),
            stF.rows_data_list[k]? = some sF → ∀ (m w : Nat),
            m + w ≤ h.row_width →
            sliceAt bs (h.rows_offset + (k * h.row_width + m)) w =
              sliceAt sF m w := by
          intro k sF hk m w hmw
          have hklt : k < stF.rows_data_list.length := by
            by_contra hcon
            push_neg at hcon
            rw [List.getElem?_eq_none hcon] at hk
            simp at hk
          have hmul : (k + 1) * h.row_width ≤
              stF.rows_data_list.length * h.row_width :=
            Nat.mul_le_mul_right _ (by omega)
          have hexp : (k + 1) * h.row_width =
              k * h.row_width + h.row_width := by ring
          have hsl1 : sliceAt bs (h.rows_offset + (k * h.row_width + m)) w =
              sliceAt (stF.rows_data_list.flatten ++
                (stF.strings_data ++ stF.binary_data))
                (k * h.row_width + m) w := by
            unfold sliceAt
            have hd1 : List.drop (h.rows_offset + (k * h.row_width + m)) bs =
                List.drop (k * h.row_width + m)
                  (List.drop h.rows_offset bs) := by
              rw [List.drop_drop, Nat.add_comm]
            rw [hd1, hdropR]
          have hsl2 : sliceAt (stF.rows_data_list.flatten ++
              (stF.strings_data ++ stF.binary_data))
              (k * h.row_width + m) w =
              sliceAt stF.rows_data_list.flatten (k * h.row_width + m) w :=
            sliceAt_mono ⟨stF.strings_data ++ stF.binary_data, rfl⟩
              (by omega)
          rw [hsl1, hsl2]
          exact flatten_slice hrowsF5 hmw hk
        have hprc : parseRowCells bs h
            ⟨stF.schema_data.length, stF.rows_data_list.flatten.length,
              stF.strings_data.length, stF.binary_data.length⟩ fc oir
            h.rows_count 0 = .ok rows := by
          refine parseRowCells_forall h.rows_count 0 rows
            (by rw [hrcnt, hrc]) ?_
          intro k cellr hkc
          have hklt : k < rows.length := by
            by_contra hcon
            push_neg at hcon
            rw [List.getElem?_eq_none hcon] at hkc
            simp at hkc
          have hkst : k < st.rows_data_list.length := by omega
          have hsk : st.rows_data_list[k]? =
              some st.rows_data_list[k] := List.getElem?_eq_getElem hkst
          obtain ⟨enc, cellr2, hg1, hg2, hg3, hg4⟩ := hidx k _ hsk
          rw [hkc] at hg1
          simp only [Option.some.injEq] at hg1
          subst hg1
          obtain ⟨sF, hsF, hpF⟩ := hmonoT.2.2.2.2 k _ hg2
          obtain ⟨tl, htl⟩ := hpF
          have hso := hslot k _ hsk
          have hsliceK : sliceAt bs
              (h.rows_offset + (k * h.row_width + oir)) vsize = enc := by
            rw [hrowSlice k sF hsF oir vsize hoirW]
            have hshp : sF = st.rows_data_list[k] ++ (enc ++ tl) := by
              rw [← htl]
              simp
            rw [hshp]
            exact sliceAt_exact enc tl hso hg3
          have hposEq : h.rows_offset + (0 + k) * h.row_width + oir =
              h.rows_offset + (k * h.row_width + oir) := by ring
          rw [hposEq]
          have hsliceW : sliceAt bs
              (h.rows_offset + (k * h.row_width + oir)) (fcWidth fc) =
              enc := by
            rw [hfw]
            exact hsliceK
          have hinK : h.rows_offset + (k * h.row_width + oir) +
              fcWidth fc ≤ bs.length := by
            rw [hfw]
            have hmul : (k + 1) * h.row_width ≤
                stF.rows_data_list.length * h.row_width :=
              Nat.mul_le_mul_right _ (by omega)
            have hexp : (k + 1) * h.row_width =
                k * h.row_width + h.row_width := by ring
            omega
          exact parseCellAt_enc hsliceW hinK
            (CellEnc_mono hmonoT.2.1 hmonoT.2.2.1 hg4)
            hdropP rfl hdropB rfl
        have hpc : parseColumn bs h
            ⟨stF.schema_data.length, stF.rows_data_list.flatten.length,
              stF.strings_data.length, stF.binary_data.length⟩
            (0x20 + st.schema_data.length) oir =
            .ok (⟨5, cvt, cnm, none, some rows⟩,
              0x20 + st.schema_data.length + 5, oir + vsize) := by
          unfold parseColumn
          dsimp only
          rw [if_neg (by omega)]
          simp only [bind, Except.bind]
          rw [hinfoRead]
          dsimp only
          rw [hnameRead]
          dsimp only
          rw [hmod, typeOfTag_typeTag]
          dsimp only
          rw [hdiv]
          rw [if_neg (by decide)]
          rw [htf]
          dsimp only
          rw [hnameGet]
          dsimp only
          rw [if_neg (by decide)]
          dsimp only
          rw [if_pos rfl]
          rw [if_neg (by omega)]
          try simp only [bind, Except.bind]
          rw [hprc]
          try dsimp only
          try rfl
        refine ⟨?_, ?_⟩
        · refine ⟨List.IsPrefix.trans ⟨_, hsch1.symm⟩ hmonoT.1,
            hpoolPre.trans hmonoT.2.1, hbinPre.trans hmonoT.2.2.1,
            by rw [← hrlen1]; exact hmonoT.2.2.2.1, ?_⟩
          intro k s hk
          obtain ⟨enc, cellr, hg1, hg2, hg3, hg4⟩ := hidx k s hk
          obtain ⟨s', hs', hp⟩ := hmonoT.2.2.2.2 k _ hg2
          exact ⟨s', hs', (List.prefix_append s enc).trans hp⟩
        · simp only [List.length_cons]
          unfold parseColsAux
          simp only [bind, Except.bind]
          rw [hpc]
          dsimp only
          have hoffEq : 0x20 + st.schema_data.length + 5 =
              0x20 + st1.schema_data.length := by
            simp only [List.length_nil] at hsch1len
            omega
          rw [hoffEq, hparseT]


/-- `pkChk` as a single conditional. -/
theorem pkChkE (w n : Nat) : pkChk w n =
    if n < 256 ^ w then .ok (packBE w n) else .error .structErr := by
  unfold pkChk packBEChk
  split
  · rename_i s heq
    split at heq
    · rename_i hlt
      rw [if_pos hlt]
      simp only [Option.some.injEq] at heq
      rw [heq]
    · simp at heq
  · rename_i heq
    split at heq
    · simp at heq
    · rename_i hge
      rw [if_neg hge]

/-- The full build/parse round trip for shape-consistent tables. -/
theorem utfBuild_utfParse (T : UTFTable) (bs : List Nat)
    (hsok : ShapeOK T) (hok : utfBuild T = .ok bs) :
    utfParse bs = .ok T := by
  obtain ⟨tn, ver, rcv, ccv, cols⟩ := T
  unfold utfBuild at hok
  simp only [bind, Except.bind] at hok
  cases hst : utfBuildSt ⟨tn, ver, rcv, ccv, cols⟩ with
  | error e => rw [hst] at hok; simp at hok
  | ok stF =>
    rw [hst] at hok
    dsimp only at hok
    unfold utfBuildSt at hst
    split at hst
    · simp at hst
    · rename_i hccne
      have hcc : cols.length = ccv := by
        dsimp only at hccne
        exact not_not.mp hccne
      dsimp only at hst
      split at hok
      · simp at hok
      · rename_i hwcheck
        try dsimp only at hok hwcheck
        obtain ⟨rwv, hrwv⟩ : ∃ rwv,
            (match stF.rows_data_list with
              | [] => (0 : Nat)
              | r0 :: _ => r0.length) = rwv := ⟨_, rfl⟩
        rw [hrwv] at hok hwcheck
        push_neg at hwcheck
        simp only [pkChkE] at hok
        split at hok
        swap
        · rename_i l1 hB1
          split at hB1
          on_goal 2 => simp at hB1
          rename_i hlt1
          simp only [Except.ok.injEq] at hB1
          subst hB1
          try dsimp only at hok
          split at hok
          swap
          · rename_i l2 hB2
            split at hB2
            on_goal 2 => simp at hB2
            rename_i hlt2
            simp only [Except.ok.injEq] at hB2
            subst hB2
            try dsimp only at hok
            split at hok
            swap
            · rename_i l3 hB3
              split at hB3
              on_goal 2 => simp at hB3
              rename_i hlt3
              simp only [Except.ok.injEq] at hB3
              subst hB3
              try dsimp only at hok
              split at hok
              swap
              · rename_i l4 hB4
                split at hB4
                on_goal 2 => simp at hB4
                rename_i hlt4
                simp only [Except.ok.injEq] at hB4
                subst hB4
                try dsimp only at hok
                split at hok
                swap
                · rename_i l5 hB5
                  split at hB5
                  on_goal 2 => simp at hB5
                  rename_i hlt5
                  simp only [Except.ok.injEq] at hB5
                  subst hB5
                  try dsimp only at hok
                  split at hok
                  swap
                  · rename_i l6 hB6
                    split at hB6
                    on_goal 2 => simp at hB6
                    rename_i hlt6
                    simp only [Except.ok.injEq] at hB6
                    subst hB6
                    try dsimp only at hok
                    split at hok
                    swap
                    · rename_i l7 hB7
                      split at hB7
                      on_goal 2 => simp at hB7
                      rename_i hlt7
                      simp only [Except.ok.injEq] at hB7
                      subst hB7
                      try dsimp only at hok
                      split at hok
                      swap
                      · rename_i l8 hB8
                        split at hB8
                        on_goal 2 => simp at hB8
                        rename_i hlt8
                        simp only [Except.ok.injEq] at hB8
                        subst hB8
                        try dsimp only at hok
                        split at hok
                        swap
                        · rename_i l9 hB9
                          split at hB9
                          on_goal 2 => simp at hB9
                          rename_i hlt9
                          simp only [Except.ok.injEq] at hB9
                          subst hB9
                          try dsimp only at hok
                          simp only [Except.ok.injEq] at hok
                          -- hok : the assembled file equals bs
                          have hbsEq := hok
                          have hD1 : bs = [64, 85, 84, 70] ++
                              (packBE 4 (32 + stF.schema_data.length + stF.rows_data_list.flatten.length + stF.strings_data.length + stF.binary_data.length - 8) ++ (packBE 2 ver ++ (packBE 2 (32 + stF.schema_data.length - 8) ++ (packBE 4 (32 + stF.schema_data.length + stF.rows_data_list.flatten.length - 8) ++ (packBE 4 (32 + stF.schema_data.length + stF.rows_data_list.flatten.length + stF.strings_data.length - 8) ++ (packBE 4 0 ++ (packBE 2 ccv ++ (packBE 2 rwv ++ (packBE 4 rcv ++ (stF.schema_data ++ (stF.rows_data_list.flatten ++ (stF.strings_data ++ (stF.binary_data))))))))))))) := by
                            rw [← hbsEq]
                            simp [List.append_assoc]
                          have hA1 : ([64, 85, 84, 70]).length = 4 := by
                            simp [packBE_length]
                          have hr1 : rdBE bs 4 4 = .ok (32 + stF.schema_data.length + stF.rows_data_list.flatten.length + stF.strings_data.length + stF.binary_data.length - 8) := by
                            have hq := rdBE_exact (a := [64, 85, 84, 70])
                              (packBE 4 (32 + stF.schema_data.length + stF.rows_data_list.flatten.length + stF.strings_data.length + stF.binary_data.length - 8)) (packBE 2 ver ++ (packBE 2 (32 + stF.schema_data.length - 8) ++ (packBE 4 (32 + stF.schema_data.length + stF.rows_data_list.flatten.length - 8) ++ (packBE 4 (32 + stF.schema_data.length + stF.rows_data_list.flatten.length + stF.strings_data.length - 8) ++ (packBE 4 0 ++ (packBE 2 ccv ++ (packBE 2 rwv ++ (packBE 4 rcv ++ (stF.schema_data ++ (stF.rows_data_list.flatten ++ (stF.strings_data ++ (stF.binary_data)))))))))))) hA1 (packBE_length _ _)
                            rw [← hD1] at hq
                            rw [hq, beVal_packBE hlt1]
                          have hD2 : bs = [64, 85, 84, 70] ++ packBE 4 (32 + stF.schema_data.length + stF.rows_data_list.flatten.length + stF.strings_data.length + stF.binary_data.length - 8) ++
                              (packBE 2 ver ++ (packBE 2 (32 + stF.schema_data.length - 8) ++ (packBE 4 (32 + stF.schema_data.length + stF.rows_data_list.flatten.length - 8) ++ (packBE 4 (32 + stF.schema_data.length + stF.rows_data_list.flatten.length + stF.strings_data.length - 8) ++ (packBE 4 0 ++ (packBE 2 ccv ++ (packBE 2 rwv ++ (packBE 4 rcv ++ (stF.schema_data ++ (stF.rows_data_list.flatten ++ (stF.strings_data ++ (stF.binary_data)))))))))))) := by
                            rw [← hbsEq]
                            simp [List.append_assoc]
                          have hA2 : ([64, 85, 84, 70] ++ packBE 4 (32 + stF.schema_data.length + stF.rows_data_list.flatten.length + stF.strings_data.length + stF.binary_data.length - 8)).length = 8 := by
                            simp [packBE_length]
                          have hr2 : rdBE bs 8 2 = .ok (ver) := by
                            have hq := rdBE_exact (a := [64, 85, 84, 70] ++ packBE 4 (32 + stF.schema_data.length + stF.rows_data_list.flatten.length + stF.strings_data.length + stF.binary_data.length - 8))
                              (packBE 2 ver) (packBE 2 (32 + stF.schema_data.length - 8) ++ (packBE 4 (32 + stF.schema_data.length + stF.rows_data_list.flatten.length - 8) ++ (packBE 4 (32 + stF.schema_data.length + stF.rows_data_list.flatten.length + stF.strings_data.length - 8) ++ (packBE 4 0 ++ (packBE 2 ccv ++ (packBE 2 rwv ++ (packBE 4 rcv ++ (stF.schema_data ++ (stF.rows_data_list.flatten ++ (stF.strings_data ++ (stF.binary_data))))))))))) hA2 (packBE_length _ _)
                            rw [← hD2] at hq
                            rw [hq, beVal_packBE hlt2]
                          have hD3 : bs = [64, 85, 84, 70] ++ packBE 4 (32 + stF.schema_data.length + stF.rows_data_list.flatten.length + stF.strings_data.length + stF.binary_data.length - 8) ++ packBE 2 ver ++
                              (packBE 2 (32 + stF.schema_data.length - 8) ++ (packBE 4 (32 + stF.schema_data.length + stF.rows_data_list.flatten.length - 8) ++ (packBE 4 (32 + stF.schema_data.length + stF.rows_data_list.flatten.length + stF.strings_data.length - 8) ++ (packBE 4 0 ++ (packBE 2 ccv ++ (packBE 2 rwv ++ (packBE 4 rcv ++ (stF.schema_data ++ (stF.rows_data_list.flatten ++ (stF.strings_data ++ (stF.binary_data))))))))))) := by
                            rw [← hbsEq]
                            simp [List.append_assoc]
                          have hA3 : ([64, 85, 84, 70] ++ packBE 4 (32 + stF.schema_data.length + stF.rows_data_list.flatten.length + stF.strings_data.length + stF.binary_data.length - 8) ++ packBE 2 ver).length = 10 := by
                            simp [packBE_length]
                          have hr3 : rdBE bs 10 2 = .ok (32 + stF.schema_data.length - 8) := by
                            have hq := rdBE_exact (a := [64, 85, 84, 70] ++ packBE 4 (32 + stF.schema_data.length + stF.rows_data_list.flatten.length + stF.strings_data.length + stF.binary_data.length - 8) ++ packBE 2 ver)
                              (packBE 2 (32 + stF.schema_data.length - 8)) (packBE 4 (32 + stF.schema_data.length + stF.rows_data_list.flatten.length - 8) ++ (packBE 4 (32 + stF.schema_data.length + stF.rows_data_list.flatten.length + stF.strings_data.length - 8) ++ (packBE 4 0 ++ (packBE 2 ccv ++ (packBE 2 rwv ++ (packBE 4 rcv ++ (stF.schema_data ++ (stF.rows_data_list.flatten ++ (stF.strings_data ++ (stF.binary_data)))))))))) hA3 (packBE_length _ _)
                            rw [← hD3] at hq
                            rw [hq, beVal_packBE hlt3]
                          have hD4 : bs = [64, 85, 84, 70] ++ packBE 4 (32 + stF.schema_data.length + stF.rows_data_list.flatten.length + stF.strings_data.length + stF.binary_data.length - 8) ++ packBE 2 ver ++ packBE 2 (32 + stF.schema_data.length - 8) ++
                              (packBE 4 (32 + stF.schema_data.length + stF.rows_data_list.flatten.length - 8) ++ (packBE 4 (32 + stF.schema_data.length + stF.rows_data_list.flatten.length + stF.strings_data.length - 8) ++ (packBE 4 0 ++ (packBE 2 ccv ++ (packBE 2 rwv ++ (packBE 4 rcv ++ (stF.schema_data ++ (stF.rows_data_list.flatten ++ (stF.strings_data ++ (stF.binary_data)))))))))) := by
                            rw [← hbsEq]
                            simp [List.append_assoc]
                          have hA4 : ([64, 85, 84, 70] ++ packBE 4 (32 + stF.schema_data.length + stF.rows_data_list.flatten.length + stF.strings_data.length + stF.binary_data.length - 8) ++ packBE 2 ver ++ packBE 2 (32 + stF.schema_data.length - 8)).length = 12 := by
                            simp [packBE_length]
                          have hr4 : rdBE bs 12 4 = .ok (32 + stF.schema_data.length + stF.rows_data_list.flatten.length - 8) := by
                            have hq := rdBE_exact (a := [64, 85, 84, 70] ++ packBE 4 (32 + stF.schema_data.length + stF.rows_data_list.flatten.length + stF.strings_data.length + stF.binary_data.length - 8) ++ packBE 2 ver ++ packBE 2 (32 + stF.schema_data.length - 8))
                              (packBE 4 (32 + stF.schema_data.length + stF.rows_data_list.flatten.length - 8)) (packBE 4 (32 + stF.schema_data.length + stF.rows_data_list.flatten.length + stF.strings_data.length - 8) ++ (packBE 4 0 ++ (packBE 2 ccv ++ (packBE 2 rwv ++ (packBE 4 rcv ++ (stF.schema_data ++ (stF.rows_data_list.flatten ++ (stF.strings_data ++ (stF.binary_data))))))))) hA4 (packBE_length _ _)
                            rw [← hD4] at hq
                            rw [hq, beVal_packBE hlt4]
                          have hD5 : bs = [64, 85, 84, 70] ++ packBE 4 (32 + stF.schema_data.length + stF.rows_data_list.flatten.length + stF.strings_data.length + stF.binary_data.length - 8) ++ packBE 2 ver ++ packBE 2 (32 + stF.schema_data.length - 8) ++ packBE 4 (32 + stF.schema_data.length + stF.rows_data_list.flatten.length - 8) ++
                              (packBE 4 (32 + stF.schema_data.length + stF.rows_data_list.flatten.length + stF.strings_data.length - 8) ++ (packBE 4 0 ++ (packBE 2 ccv ++ (packBE 2 rwv ++ (packBE 4 rcv ++ (stF.schema_data ++ (stF.rows_data_list.flatten ++ (stF.strings_data ++ (stF.binary_data))))))))) := by
                            rw [← hbsEq]
                            simp [List.append_assoc]
                          have hA5 : ([64, 85, 84, 70] ++ packBE 4 (32 + stF.schema_data.length + stF.rows_data_list.flatten.length + stF.strings_data.length + stF.binary_data.length - 8) ++ packBE 2 ver ++ packBE 2 (32 + stF.schema_data.length - 8) ++ packBE 4 (32 + stF.schema_data.length + stF.rows_data_list.flatten.length - 8)).length = 16 := by
                            simp [packBE_length]
                          have hr5 : rdBE bs 16 4 = .ok (32 + stF.schema_data.length + stF.rows_data_list.flatten.length + stF.strings_data.length - 8) := by
                            have hq := rdBE_exact (a := [64, 85, 84, 70] ++ packBE 4 (32 + stF.schema_data.length + stF.rows_data_list.flatten.length + stF.strings_data.length + stF.binary_data.length - 8) ++ packBE 2 ver ++ packBE 2 (32 + stF.schema_data.length - 8) ++ packBE 4 (32 + stF.schema_data.length + stF.rows_data_list.flatten.length - 8))
                              (packBE 4 (32 + stF.schema_data.length + stF.rows_data_list.flatten.length + stF.strings_data.length - 8)) (packBE 4 0 ++ (packBE 2 ccv ++ (packBE 2 rwv ++ (packBE 4 rcv ++ (stF.schema_data ++ (stF.rows_data_list.flatten ++ (stF.strings_data ++ (stF.binary_data)))))))) hA5 (packBE_length _ _)
                            rw [← hD5] at hq
                            rw [hq, beVal_packBE hlt5]
                          have hD6 : bs = [64, 85, 84, 70] ++ packBE 4 (32 + stF.schema_data.length + stF.rows_data_list.flatten.length + stF.strings_data.length + stF.binary_data.length - 8) ++ packBE 2 ver ++ packBE 2 (32 + stF.schema_data.length - 8) ++ packBE 4 (32 + stF.schema_data.length + stF.rows_data_list.flatten.length - 8) ++ packBE 4 (32 + stF.schema_data.length + stF.rows_data_list.flatten.length + stF.strings_data.length - 8) ++
                              (packBE 4 0 ++ (packBE 2 ccv ++ (packBE 2 rwv ++ (packBE 4 rcv ++ (stF.schema_data ++ (stF.rows_data_list.flatten ++ (stF.strings_data ++ (stF.binary_data)))))))) := by
                            rw [← hbsEq]
                            simp [List.append_assoc]
                          have hA6 : ([64, 85, 84, 70] ++ packBE 4 (32 + stF.schema_data.length + stF.rows_data_list.flatten.length + stF.strings_data.length + stF.binary_data.length - 8) ++ packBE 2 ver ++ packBE 2 (32 + stF.schema_data.length - 8) ++ packBE 4 (32 + stF.schema_data.length + stF.rows_data_list.flatten.length - 8) ++ packBE 4 (32 + stF.schema_data.length + stF.rows_data_list.flatten.length + stF.strings_data.length - 8)).length = 20 := by
                            simp [packBE_length]
                          have hr6 : rdBE bs 20 4 = .ok (0) := by
                            have hq := rdBE_exact (a := [64, 85, 84, 70] ++ packBE 4 (32 + stF.schema_data.length + stF.rows_data_list.flatten.length + stF.strings_data.length + stF.binary_data.length - 8) ++ packBE 2 ver ++ packBE 2 (32 + stF.schema_data.length - 8) ++ packBE 4 (32 + stF.schema_data.length + stF.rows_data_list.flatten.length - 8) ++ packBE 4 (32 + stF.schema_data.length + stF.rows_data_list.flatten.length + stF.strings_data.length - 8))
                              (packBE 4 0) (packBE 2 ccv ++ (packBE 2 rwv ++ (packBE 4 rcv ++ (stF.schema_data ++ (stF.rows_data_list.flatten ++ (stF.strings_data ++ (stF.binary_data))))))) hA6 (packBE_length _ _)
                            rw [← hD6] at hq
                            rw [hq, beVal_packBE hlt6]
                          have hD7 : bs = [64, 85, 84, 70] ++ packBE 4 (32 + stF.schema_data.length + stF.rows_data_list.flatten.length + stF.strings_data.length + stF.binary_data.length - 8) ++ packBE 2 ver ++ packBE 2 (32 + stF.schema_data.length - 8) ++ packBE 4 (32 + stF.schema_data.length + stF.rows_data_list.flatten.length - 8) ++ packBE 4 (32 + stF.schema_data.length + stF.rows_data_list.flatten.length + stF.strings_data.length - 8) ++ packBE 4 0 ++
                              (packBE 2 ccv ++ (packBE 2 rwv ++ (packBE 4 rcv ++ (stF.schema_data ++ (stF.rows_data_list.flatten ++ (stF.strings_data ++ (stF.binary_data))))))) := by
                            rw [← hbsEq]
                            simp [List.append_assoc]
                          have hA7 : ([64, 85, 84, 70] ++ packBE 4 (32 + stF.schema_data.length + stF.rows_data_list.flatten.length + stF.strings_data.length + stF.binary_data.length - 8) ++ packBE 2 ver ++ packBE 2 (32 + stF.schema_data.length - 8) ++ packBE 4 (32 + stF.schema_data.length + stF.rows_data_list.flatten.length - 8) ++ packBE 4 (32 + stF.schema_data.length + stF.rows_data_list.flatten.length + stF.strings_data.length - 8) ++ packBE 4 0).length = 24 := by
                            simp [packBE_length]
                          have hr7 : rdBE bs 24 2 = .ok (ccv) := by
                            have hq := rdBE_exact (a := [64, 85, 84, 70] ++ packBE 4 (32 + stF.schema_data.length + stF.rows_data_list.flatten.length + stF.strings_data.length + stF.binary_data.length - 8) ++ packBE 2 ver ++ packBE 2 (32 + stF.schema_data.length - 8) ++ packBE 4 (32 + stF.schema_data.length + stF.rows_data_list.flatten.length - 8) ++ packBE 4 (32 + stF.schema_data.length + stF.rows_data_list.flatten.length + stF.strings_data.length - 8) ++ packBE 4 0)
                              (packBE 2 ccv) (packBE 2 rwv ++ (packBE 4 rcv ++ (stF.schema_data ++ (stF.rows_data_list.flatten ++ (stF.strings_data ++ (stF.binary_data)))))) hA7 (packBE_length _ _)
                            rw [← hD7] at hq
                            rw [hq, beVal_packBE hlt7]
                          have hD8 : bs = [64, 85, 84, 70] ++ packBE 4 (32 + stF.schema_data.length + stF.rows_data_list.flatten.length + stF.strings_data.length + stF.binary_data.length - 8) ++ packBE 2 ver ++ packBE 2 (32 + stF.schema_data.length - 8) ++ packBE 4 (32 + stF.schema_data.length + stF.rows_data_list.flatten.length - 8) ++ packBE 4 (32 + stF.schema_data.length + stF.rows_data_list.flatten.length + stF.strings_data.length - 8) ++ packBE 4 0 ++ packBE 2 ccv ++
                              (packBE 2 rwv ++ (packBE 4 rcv ++ (stF.schema_data ++ (stF.rows_data_list.flatten ++ (stF.strings_data ++ (stF.binary_data)))))) := by
                            rw [← hbsEq]
                            simp [List.append_assoc]
                          have hA8 : ([64, 85, 84, 70] ++ packBE 4 (32 + stF.schema_data.length + stF.rows_data_list.flatten.length + stF.strings_data.length + stF.binary_data.length - 8) ++ packBE 2 ver ++ packBE 2 (32 + stF.schema_data.length - 8) ++ packBE 4 (32 + stF.schema_data.length + stF.rows_data_list.flatten.length - 8) ++ packBE 4 (32 + stF.schema_data.length + stF.rows_data_list.flatten.length + stF.strings_data.length - 8) ++ packBE 4 0 ++ packBE 2 ccv).length = 26 := by
                            simp [packBE_length]
                          have hr8 : rdBE bs 26 2 = .ok (rwv) := by
                            have hq := rdBE_exact (a := [64, 85, 84, 70] ++ packBE 4 (32 + stF.schema_data.length + stF.rows_data_list.flatten.length + stF.strings_data.length + stF.binary_data.length - 8) ++ packBE 2 ver ++ packBE 2 (32 + stF.schema_data.length - 8) ++ packBE 4 (32 + stF.schema_data.length + stF.rows_data_list.flatten.length - 8) ++ packBE 4 (32 + stF.schema_data.length + stF.rows_data_list.flatten.length + stF.strings_data.length - 8) ++ packBE 4 0 ++ packBE 2 ccv)
                              (packBE 2 rwv) (packBE 4 rcv ++ (stF.schema_data ++ (stF.rows_data_list.flatten ++ (stF.strings_data ++ (stF.binary_data))))) hA8 (packBE_length _ _)
                            rw [← hD8] at hq
                            rw [hq, beVal_packBE hlt8]
                          have hD9 : bs = [64, 85, 84, 70] ++ packBE 4 (32 + stF.schema_data.length + stF.rows_data_list.flatten.length + stF.strings_data.length + stF.binary_data.length - 8) ++ packBE 2 ver ++ packBE 2 (32 + stF.schema_data.length - 8) ++ packBE 4 (32 + stF.schema_data.length + stF.rows_data_list.flatten.length - 8) ++ packBE 4 (32 + stF.schema_data.length + stF.rows_data_list.flatten.length + stF.strings_data.length - 8) ++ packBE 4 0 ++ packBE 2 ccv ++ packBE 2 rwv ++
                              (packBE 4 rcv ++ (stF.schema_data ++ (stF.rows_data_list.flatten ++ (stF.strings_data ++ (stF.binary_data))))) := by
                            rw [← hbsEq]
                            simp [List.append_assoc]
                          have hA9 : ([64, 85, 84, 70] ++ packBE 4 (32 + stF.schema_data.length + stF.rows_data_list.flatten.length + stF.strings_data.length + stF.binary_data.length - 8) ++ packBE 2 ver ++ packBE 2 (32 + stF.schema_data.length - 8) ++ packBE 4 (32 + stF.schema_data.length + stF.rows_data_list.flatten.length - 8) ++ packBE 4 (32 + stF.schema_data.length + stF.rows_data_list.flatten.length + stF.strings_data.length - 8) ++ packBE 4 0 ++ packBE 2 ccv ++ packBE 2 rwv).length = 28 := by
                            simp [packBE_length]
                          have hr9 : rdBE bs 28 4 = .ok (rcv) := by
                            have hq := rdBE_exact (a := [64, 85, 84, 70] ++ packBE 4 (32 + stF.schema_data.length + stF.rows_data_list.flatten.length + stF.strings_data.length + stF.binary_data.length - 8) ++ packBE 2 ver ++ packBE 2 (32 + stF.schema_data.length - 8) ++ packBE 4 (32 + stF.schema_data.length + stF.rows_data_list.flatten.length - 8) ++ packBE 4 (32 + stF.schema_data.length + stF.rows_data_list.flatten.length + stF.strings_data.length - 8) ++ packBE 4 0 ++ packBE 2 ccv ++ packBE 2 rwv)
                              (packBE 4 rcv) (stF.schema_data ++ (stF.rows_data_list.flatten ++ (stF.strings_data ++ (stF.binary_data)))) hA9 (packBE_length _ _)
                            rw [← hD9] at hq
                            rw [hq, beVal_packBE hlt9]
                          have hmag : bs.take 4 = [64, 85, 84, 70] := by
                            rw [hD1]
                            exact List.take_left [64, 85, 84, 70] _
                          have hPre : bs = ([64, 85, 84, 70] ++ packBE 4 (32 + stF.schema_data.length + stF.rows_data_list.flatten.length + stF.strings_data.length + stF.binary_data.length - 8) ++ packBE 2 ver ++ packBE 2 (32 + stF.schema_data.length - 8) ++ packBE 4 (32 + stF.schema_data.length + stF.rows_data_list.flatten.length - 8) ++ packBE 4 (32 + stF.schema_data.length + stF.rows_data_list.flatten.length + stF.strings_data.length - 8) ++ packBE 4 0 ++ packBE 2 ccv ++ packBE 2 rwv ++ packBE 4 rcv) ++ (stF.schema_data ++ (stF.rows_data_list.flatten ++ (stF.strings_data ++ stF.binary_data))) := by
                            rw [← hbsEq]
                            simp [List.append_assoc]
                          have hPreLen : ([64, 85, 84, 70] ++ packBE 4 (32 + stF.schema_data.length + stF.rows_data_list.flatten.length + stF.strings_data.length + stF.binary_data.length - 8) ++ packBE 2 ver ++ packBE 2 (32 + stF.schema_data.length - 8) ++ packBE 4 (32 + stF.schema_data.length + stF.rows_data_list.flatten.length - 8) ++ packBE 4 (32 + stF.schema_data.length + stF.rows_data_list.flatten.length + stF.strings_data.length - 8) ++ packBE 4 0 ++ packBE 2 ccv ++ packBE 2 rwv ++ packBE 4 rcv).length = 32 := by
                            simp [packBE_length]
                          have hPre2 : bs = (([64, 85, 84, 70] ++ packBE 4 (32 + stF.schema_data.length + stF.rows_data_list.flatten.length + stF.strings_data.length + stF.binary_data.length - 8) ++ packBE 2 ver ++ packBE 2 (32 + stF.schema_data.length - 8) ++ packBE 4 (32 + stF.schema_data.length + stF.rows_data_list.flatten.length - 8) ++ packBE 4 (32 + stF.schema_data.length + stF.rows_data_list.flatten.length + stF.strings_data.length - 8) ++ packBE 4 0 ++ packBE 2 ccv ++ packBE 2 rwv ++ packBE 4 rcv) ++ stF.schema_data) ++ (stF.rows_data_list.flatten ++ (stF.strings_data ++ stF.binary_data)) := by
                            rw [← hbsEq]
                            simp [List.append_assoc]
                          have hPre3 : bs = ((([64, 85, 84, 70] ++ packBE 4 (32 + stF.schema_data.length + stF.rows_data_list.flatten.length + stF.strings_data.length + stF.binary_data.length - 8) ++ packBE 2 ver ++ packBE 2 (32 + stF.schema_data.length - 8) ++ packBE 4 (32 + stF.schema_data.length + stF.rows_data_list.flatten.length - 8) ++ packBE 4 (32 + stF.schema_data.length + stF.rows_data_list.flatten.length + stF.strings_data.length - 8) ++ packBE 4 0 ++ packBE 2 ccv ++ packBE 2 rwv ++ packBE 4 rcv) ++ stF.schema_data) ++ stF.rows_data_list.flatten) ++ (stF.strings_data ++ stF.binary_data) := by
                            rw [← hbsEq]
                            simp [List.append_assoc]
                          have hPre4 : bs = (((([64, 85, 84, 70] ++ packBE 4 (32 + stF.schema_data.length + stF.rows_data_list.flatten.length + stF.strings_data.length + stF.binary_data.length - 8) ++ packBE 2 ver ++ packBE 2 (32 + stF.schema_data.length - 8) ++ packBE 4 (32 + stF.schema_data.length + stF.rows_data_list.flatten.length - 8) ++ packBE 4 (32 + stF.schema_data.length + stF.rows_data_list.flatten.length + stF.strings_data.length - 8) ++ packBE 4 0 ++ packBE 2 ccv ++ packBE 2 rwv ++ packBE 4 rcv) ++ stF.schema_data) ++ stF.rows_data_list.flatten) ++ stF.strings_data) ++ stF.binary_data := by
                            rw [← hbsEq]
                          have hDropR : bs.drop (32 + stF.schema_data.length) = stF.rows_data_list.flatten ++ (stF.strings_data ++ stF.binary_data) := by
                            have hdl := List.drop_left (([64, 85, 84, 70] ++ packBE 4 (32 + stF.schema_data.length + stF.rows_data_list.flatten.length + stF.strings_data.length + stF.binary_data.length - 8) ++ packBE 2 ver ++ packBE 2 (32 + stF.schema_data.length - 8) ++ packBE 4 (32 + stF.schema_data.length + stF.rows_data_list.flatten.length - 8) ++ packBE 4 (32 + stF.schema_data.length + stF.rows_data_list.flatten.length + stF.strings_data.length - 8) ++ packBE 4 0 ++ packBE 2 ccv ++ packBE 2 rwv ++ packBE 4 rcv) ++ stF.schema_data) (stF.rows_data_list.flatten ++ (stF.strings_data ++ stF.binary_data))
                            have hl2 : (([64, 85, 84, 70] ++ packBE 4 (32 + stF.schema_data.length + stF.rows_data_list.flatten.length + stF.strings_data.length + stF.binary_data.length - 8) ++ packBE 2 ver ++ packBE 2 (32 + stF.schema_data.length - 8) ++ packBE 4 (32 + stF.schema_data.length + stF.rows_data_list.flatten.length - 8) ++ packBE 4 (32 + stF.schema_data.length + stF.rows_data_list.flatten.length + stF.strings_data.length - 8) ++ packBE 4 0 ++ packBE 2 ccv ++ packBE 2 rwv ++ packBE 4 rcv) ++ stF.schema_data).length = 32 + stF.schema_data.length := by
                              simp [packBE_length]
                              try omega
                            rw [hl2, ← hPre2] at hdl
                            exact hdl
                          have hDropP : bs.drop (32 + stF.schema_data.length + stF.rows_data_list.flatten.length) = stF.strings_data ++ stF.binary_data := by
                            have hdl := List.drop_left ((([64, 85, 84, 70] ++ packBE 4 (32 + stF.schema_data.length + stF.rows_data_list.flatten.length + stF.strings_data.length + stF.binary_data.length - 8) ++ packBE 2 ver ++ packBE 2 (32 + stF.schema_data.length - 8) ++ packBE 4 (32 + stF.schema_data.length + stF.rows_data_list.flatten.length - 8) ++ packBE 4 (32 + stF.schema_data.length + stF.rows_data_list.flatten.length + stF.strings_data.length - 8) ++ packBE 4 0 ++ packBE 2 ccv ++ packBE 2 rwv ++ packBE 4 rcv) ++ stF.schema_data) ++ stF.rows_data_list.flatten) (stF.strings_data ++ stF.binary_data)
                            have hl2 : ((([64, 85, 84, 70] ++ packBE 4 (32 + stF.schema_data.length + stF.rows_data_list.flatten.length + stF.strings_data.length + stF.binary_data.length - 8) ++ packBE 2 ver ++ packBE 2 (32 + stF.schema_data.length - 8) ++ packBE 4 (32 + stF.schema_data.length + stF.rows_data_list.flatten.length - 8) ++ packBE 4 (32 + stF.schema_data.length + stF.rows_data_list.flatten.length + stF.strings_data.length - 8) ++ packBE 4 0 ++ packBE 2 ccv ++ packBE 2 rwv ++ packBE 4 rcv) ++ stF.schema_data) ++ stF.rows_data_list.flatten).length = 32 + stF.schema_data.length + stF.rows_data_list.flatten.length := by
                              simp [packBE_length]
                              try omega
                            rw [hl2, ← hPre3] at hdl
                            exact hdl
                          have hDropB : bs.drop (32 + stF.schema_data.length + stF.rows_data_list.flatten.length + stF.strings_data.length) = stF.binary_data := by
                            have hdl := List.drop_left (((([64, 85, 84, 70] ++ packBE 4 (32 + stF.schema_data.length + stF.rows_data_list.flatten.length + stF.strings_data.length + stF.binary_data.length - 8) ++ packBE 2 ver ++ packBE 2 (32 + stF.schema_data.length - 8) ++ packBE 4 (32 + stF.schema_data.length + stF.rows_data_list.flatten.length - 8) ++ packBE 4 (32 + stF.schema_data.length + stF.rows_data_list.flatten.length + stF.strings_data.length - 8) ++ packBE 4 0 ++ packBE 2 ccv ++ packBE 2 rwv ++ packBE 4 rcv) ++ stF.schema_data) ++ stF.rows_data_list.flatten) ++ stF.strings_data) stF.binary_data
                            have hl2 : (((([64, 85, 84, 70] ++ packBE 4 (32 + stF.schema_data.length + stF.rows_data_list.flatten.length + stF.strings_data.length + stF.binary_data.length - 8) ++ packBE 2 ver ++ packBE 2 (32 + stF.schema_data.length - 8) ++ packBE 4 (32 + stF.schema_data.length + stF.rows_data_list.flatten.length - 8) ++ packBE 4 (32 + stF.schema_data.length + stF.rows_data_list.flatten.length + stF.strings_data.length - 8) ++ packBE 4 0 ++ packBE 2 ccv ++ packBE 2 rwv ++ packBE 4 rcv) ++ stF.schema_data) ++ stF.rows_data_list.flatten) ++ stF.strings_data).length = 32 + stF.schema_data.length + stF.rows_data_list.flatten.length + stF.strings_data.length := by
                              simp [packBE_length]
                              try omega
                            rw [hl2, ← hPre4] at hdl
                            exact hdl
                          have hBlen : bs.length = 32 + stF.schema_data.length + (stF.rows_data_list.flatten.length + (stF.strings_data.length + stF.binary_data.length)) := by
                            rw [← hbsEq]
                            simp [packBE_length]
                            omega
                          have hdict0 : DictOK (buildSt0 ⟨tn, ver, rcv, ccv, cols⟩).strings_data
                              (buildSt0 ⟨tn, ver, rcv, ccv, cols⟩).strings_offset_dict :=
                            fun kv hkv => absurd hkv (List.not_mem_nil _)
                          have hlen0 : (buildSt0 ⟨tn, ver, rcv, ccv, cols⟩).rows_data_list.length = rcv := by
                            simp [buildSt0]
                          have hslot0 : ∀ (k : Nat) (s : List Nat),
                              (buildSt0 ⟨tn, ver, rcv, ccv, cols⟩).rows_data_list[k]? = some s → s.length = 0 := by
                            intro k s hk
                            simp only [buildSt0] at hk
                            rw [List.getElem?_replicate] at hk
                            split at hk
                            · simp only [Option.some.injEq] at hk
                              rw [← hk]
                              rfl
                            · simp at hk
                          obtain ⟨hmono, hparse⟩ :=
                            buildCols_parse (h := (⟨32 + stF.schema_data.length + stF.rows_data_list.flatten.length + stF.strings_data.length + stF.binary_data.length, ver, 32 + stF.schema_data.length, 32 + stF.schema_data.length + stF.rows_data_list.flatten.length, 32 + stF.schema_data.length + stF.rows_data_list.flatten.length + stF.strings_data.length, 0, ccv, rwv, rcv⟩ : UTFHeader))
                              (fun hpos => hwcheck hpos) rfl hPreLen rfl hPre hDropR hDropP hDropB hBlen rfl
                              cols (buildSt0 ⟨tn, ver, rcv, ccv, cols⟩) 0 hst hdict0 hsok.2 hlen0 hslot0
                          have hN : stF.rows_data_list.length = rcv := by
                            have hq := hmono.2.2.2.1
                            simp [buildSt0] at hq
                            omega
                          have hflatRel : ((rcv : Int)) * (rwv : Int) ≤ (stF.rows_data_list.flatten.length : Int) := by
                            rcases Nat.eq_zero_or_pos rcv with h0 | hpos
                            · subst h0
                              simp only [Nat.cast_zero, zero_mul]
                              positivity
                            · have hall := hwcheck hpos
                              have hfl := flatten_length_const hall
                              rw [hfl, hN]
                              exact le_of_eq (by push_cast; ring)
                          have hhread : utfHeaderRead bs = .ok (⟨32 + stF.schema_data.length + stF.rows_data_list.flatten.length + stF.strings_data.length + stF.binary_data.length, ver, 32 + stF.schema_data.length, 32 + stF.schema_data.length + stF.rows_data_list.flatten.length, 32 + stF.schema_data.length + stF.rows_data_list.flatten.length + stF.strings_data.length, 0, ccv, rwv, rcv⟩ : UTFHeader) := by
                            unfold utfHeaderRead
                            rw [if_pos hmag]
                            simp only [bind, Except.bind]
                            rw [hr1]
                            dsimp only
                            rw [hr2]
                            dsimp only
                            rw [hr3]
                            dsimp only
                            rw [hr4]
                            dsimp only
                            rw [hr5]
                            dsimp only
                            rw [hr6]
                            dsimp only
                            rw [hr7]
                            dsimp only
                            rw [hr8]
                            dsimp only
                            rw [hr9]
                            dsimp only
                            have e1 : 32 + stF.schema_data.length + stF.rows_data_list.flatten.length + stF.strings_data.length + stF.binary_data.length - 8 + 8 = 32 + stF.schema_data.length + stF.rows_data_list.flatten.length + stF.strings_data.length + stF.binary_data.length := by omega
                            have e3 : 32 + stF.schema_data.length - 8 + 8 = 32 + stF.schema_data.length := by omega
                            have e4 : 32 + stF.schema_data.length + stF.rows_data_list.flatten.length - 8 + 8 = 32 + stF.schema_data.length + stF.rows_data_list.flatten.length := by omega
                            have e5 : 32 + stF.schema_data.length + stF.rows_data_list.flatten.length + stF.strings_data.length - 8 + 8 = 32 + stF.schema_data.length + stF.rows_data_list.flatten.length + stF.strings_data.length := by omega
                            rw [e1, e3, e4, e5]
                          have hcheck : utfHeaderCheck (⟨32 + stF.schema_data.length + stF.rows_data_list.flatten.length + stF.strings_data.length + stF.binary_data.length, ver, 32 + stF.schema_data.length, 32 + stF.schema_data.length + stF.rows_data_list.flatten.length, 32 + stF.schema_data.length + stF.rows_data_list.flatten.length + stF.strings_data.length, 0, ccv, rwv, rcv⟩ : UTFHeader) = .ok (⟨stF.schema_data.length, stF.rows_data_list.flatten.length, stF.strings_data.length, stF.binary_data.length⟩ : UTFSizes) := by
                            unfold utfHeaderCheck
                            dsimp only
                            rw [if_neg (by push_cast; omega)]
                            rw [if_neg (by push_cast; omega)]
                            rw [if_neg (by push_cast; omega)]
                            rw [if_neg (by push_cast; omega)]
                            simp only [Except.ok.injEq, UTFSizes.mk.injEq]
                            refine ⟨by omega, by omega, by omega, by omega⟩
                          have hpool0 : tn ++ [0] <+: stF.strings_data := hmono.2.1
                          have hlenp : 0 + tn.length + 1 ≤ stF.strings_data.length := by
                            have hq := hpool0.length_le
                            simp at hq
                            omega
                          have hsl0 : sliceAt stF.strings_data 0 (tn.length + 1) = tn ++ [0] := by
                            rw [sliceAt_mono hpool0 (by simp)]
                            unfold sliceAt
                            rw [List.drop_zero]
                            exact List.take_of_length_le (by simp)
                          have hname : stringDataGet bs (⟨32 + stF.schema_data.length + stF.rows_data_list.flatten.length + stF.strings_data.length + stF.binary_data.length, ver, 32 + stF.schema_data.length, 32 + stF.schema_data.length + stF.rows_data_list.flatten.length, 32 + stF.schema_data.length + stF.rows_data_list.flatten.length + stF.strings_data.length, 0, ccv, rwv, rcv⟩ : UTFHeader) (⟨stF.schema_data.length, stF.rows_data_list.flatten.length, stF.strings_data.length, stF.binary_data.length⟩ : UTFSizes) 0 = .ok tn :=
                            stringDataGet_pool hDropP rfl hlenp hsl0 hsok.1
                          have hparse2 : parseColsAux bs (⟨32 + stF.schema_data.length + stF.rows_data_list.flatten.length + stF.strings_data.length + stF.binary_data.length, ver, 32 + stF.schema_data.length, 32 + stF.schema_data.length + stF.rows_data_list.flatten.length, 32 + stF.schema_data.length + stF.rows_data_list.flatten.length + stF.strings_data.length, 0, ccv, rwv, rcv⟩ : UTFHeader) (⟨stF.schema_data.length, stF.rows_data_list.flatten.length, stF.strings_data.length, stF.binary_data.length⟩ : UTFSizes) ccv 0x20 0 = .ok cols := by
                            have hp := hparse
                            simp only [buildSt0, List.length_nil, Nat.add_zero] at hp
                            rw [hcc] at hp
                            exact hp
                          unfold utfParse utfTableInit
                          simp only [bind, Except.bind]
                          rw [hhread]
                          dsimp only
                          rw [hcheck]
                          dsimp only
                          rw [hname]
                          dsimp only
                          rw [hparse2]
                        · simp at hok
                      · simp at hok
                    · simp at hok
                  · simp at hok
                · simp at hok
              · simp at hok
            · simp at hok
          · simp at hok
        · simp at hok

/-- The original claim's counterexample input: an empty table (rows_count
0) with one per-row (flag 5) column whose rows list is empty.  The builder
accepts it, but the written file has row_width 0 and the parser's per-row
bounds check rejects it. -/
def utfTabC1ce : UTFTable :=
  ⟨[84], 1, 0, 1, [⟨5, .uint32, [107], none, some []⟩]⟩

/-- `UTFTableBuilder.build` output for `utfTabC1ce`. -/
def utfBytesC1ce : List Nat :=
  [64, 85, 84, 70, 0, 0, 0, 33, 0, 1, 0, 29, 0, 0, 0, 29, 0, 0, 0, 33,
   0, 0, 0, 0, 0, 1, 0, 0, 0, 0, 0, 0, 84, 0, 0, 0, 2, 84, 0, 107, 0]

/-- The original "for every UtfTable `T`, parse(build(T)) is `T`" fails:
`utfTabC1ce` builds successfully but its file does not parse at all. -/
theorem C1_counterexample :
    utfBuild utfTabC1ce = .ok utfBytesC1ce ∧
    utfParse utfBytesC1ce = .error .rowOOB := by
  refine ⟨by rfl, by rfl⟩

/-- C1 (amended): the round trip `parse(build(T)) = T` holds for every
shape-consistent table: each column's optional constant/per-row data is
present exactly as its storage flag dictates, every string the table
carries (table name, column names, string cells) is NUL-free, and a
per-row column requires a non-empty table (`utfTabC1ce` shows an empty
table with a per-row column builds but does not re-parse).  All other
preconditions are enforced by the builder itself: any table it accepts is
parsed back field-for-field, column-for-column. -/
theorem C1_build_parse_roundtrip :
    ∀ (T : UTFTable) (bs : List Nat), ShapeOK T → utfBuild T = .ok bs →
      utfParse bs = .ok T :=
  fun T bs hs hb => utfBuild_utfParse T bs hs hb

/-- A three-column table exercising a constant string (de-duplicated pool),
per-row signed scalars (incl. a negative value) and a constant blob. -/
def utfTabC1w : UTFTable :=
  ⟨[84, 98], 2, 2, 3,
   [⟨3, .string, [99, 49], some (.cStr [118]), none⟩,
    ⟨5, .sint16, [99, 50], none, some [.cInt (-5), .cInt 300]⟩,
    ⟨3, .vldata, [99, 51], some (.cBlob [1, 2, 3]), none⟩]⟩

/-- `UTFTableBuilder.build` output for `utfTabC1w`. -/
def utfBytesC1w : List Nat :=
  [64, 85, 84, 70, 0, 0, 0, 72, 0, 2, 0, 51, 0, 0, 0, 55, 0, 0, 0, 69,
   0, 0, 0, 0, 0, 3, 0, 2, 0, 0, 0, 2, 58, 0, 0, 0, 3, 0, 0, 0, 6, 83,
   0, 0, 0, 8, 59, 0, 0, 0, 11, 0, 0, 0, 0, 0, 0, 0, 3, 255, 251, 1,
   44, 84, 98, 0, 99, 49, 0, 118, 0, 99, 50, 0, 99, 51, 0, 1, 2, 3]

theorem C1_build_parse_roundtrip_witness :
    ShapeOK utfTabC1w ∧ utfBuild utfTabC1w = .ok utfBytesC1w ∧
    utfParse utfBytesC1w = .ok utfTabC1w :=
  ⟨by decide, by rfl,
   C1_build_parse_roundtrip utfTabC1w utfBytesC1w (by decide) (by rfl)⟩

end CriAudio
